import Mathlib

/-!
# Mail proxy module (`ngx_mail_proxy_module.c`): shallow embedding

The upstream reply classifier `ngx_mail_proxy_read_response` and the POP3 / SMTP
authentication handlers are embedded as pure functions over an explicit session
state. Bytes (`u_char`) are natural numbers, memory is a total map from
addresses to bytes, and every value the environment supplies (what `recv`
returned, what `send` returned, whether the pool allocation succeeded) is an
explicit argument.
-/

namespace MailProxy

/-! ## Bytes and memory -/

/-- The bytes of a string literal. -/
def bytes (s : String) : List Nat := s.toList.map Char.toNat

/-- Carriage return, `CR` of `ngx_core.h`. -/
def CR : Nat := 13

/-- Line feed, `LF` of `ngx_core.h`. -/
def LF : Nat := 10

/-- The two bytes `CRLF`. -/
def CRLF : List Nat := [CR, LF]

/-- The `n` bytes of memory starting at address `p`. -/
def mem_read (mem : Nat → Nat) (p n : Nat) : List Nat :=
  (List.range n).map (fun i => mem (p + i))

/-- Memory after `data` has been stored at address `p` (what `recv` does with the
bytes it returns). -/
def mem_write (mem : Nat → Nat) (p : Nat) (data : List Nat) : Nat → Nat :=
  fun a => if p ≤ a ∧ a < p + data.length then data.getD (a - p) 0 else mem a

/-- Memory after the single store `*p = v`. -/
def mem_set (mem : Nat → Nat) (p v : Nat) : Nat → Nat :=
  fun a => if a = p then v else mem a

/-- The buffer `ngx_buf_t`: the memory it points into and its four pointers. -/
structure ngx_buf_t where
  /-- the address space the pointers refer to -/
  mem : Nat → Nat
  /-- field `start` -/
  start : Nat
  /-- field `pos` -/
  pos : Nat
  /-- field `last` -/
  last : Nat
  /-- field `end` -/
  end_ : Nat

/-- The received bytes `pos .. last` of a buffer. -/
def ngx_buf_t.content (b : ngx_buf_t) : List Nat :=
  mem_read b.mem b.pos (b.last - b.pos)

/-! ## Library routines the module calls -/

/-- Modelled from the spec: `ngx_strncmp` is the C library `strncmp` (the macro
lives in `ngx_string.h`, outside this module). The result is whether
`strncmp(p, tag, tag.len) == 0`: the bytes are compared one by one and the
comparison stops, equal, at a NUL present in both. -/
def ngx_strncmp_eq (mem : Nat → Nat) : Nat → List Nat → Bool
  | _, [] => true
  | p, t :: ts =>
    if mem p ≠ t then false
    else if t = 0 then true
    else ngx_strncmp_eq mem (p + 1) ts

/-- Outcome of `strstr(p, "\n")`. -/
inductive StrstrResult where
  /-- a pointer to the first line feed -/
  | found (q : Nat)
  /-- `NULL`: the string ended (NUL) before any line feed -/
  | null
  /-- neither a line feed nor a NUL within the bytes searched -/
  | unbounded
  deriving DecidableEq, Repr

/-- Modelled from the spec: the C library call `strstr(p, "\n")`, searching at
most `n` bytes from `p`. The caller searches the received bytes `p .. last`,
which end in a line feed, so the search never needs to go further. -/
def strstr_nl (mem : Nat → Nat) : Nat → Nat → StrstrResult
  | _, 0 => .unbounded
  | p, n + 1 =>
    if mem p = LF then .found p
    else if mem p = 0 then .null
    else strstr_nl mem (p + 1) n

/-- Modelled from the spec: the C string a `%s` conversion prints, the bytes
from `p` up to the first NUL, looking at no more than `n` bytes. -/
def c_string (mem : Nat → Nat) : Nat → Nat → Option (List Nat)
  | _, 0 => none
  | p, n + 1 =>
    if mem p = 0 then some []
    else (c_string mem (p + 1) n).map (fun l => mem p :: l)

/-! ## Session state -/

/-- Modelled from the spec: the POP3 states of `ngx_mail.h` that this module
names; `other` stands for every remaining enumerator. -/
inductive ngx_pop3_state_e where
  | ngx_pop3_start | ngx_pop3_user | ngx_pop3_passwd | other
  deriving DecidableEq, Repr

/-- Modelled from the spec: the IMAP states of `ngx_mail.h` that this module
names; `other` stands for every remaining enumerator. -/
inductive ngx_imap_state_e where
  | ngx_imap_start | ngx_imap_login | ngx_imap_user | ngx_imap_passwd | other
  deriving DecidableEq, Repr

/-- Modelled from the spec: the SMTP states of `ngx_mail.h` that this module
names; `other` stands for every remaining enumerator. -/
inductive ngx_smtp_state_e where
  | ngx_smtp_start
  | ngx_smtp_helo | ngx_smtp_helo_xclient | ngx_smtp_helo_from
  | ngx_smtp_xclient | ngx_smtp_xclient_from | ngx_smtp_xclient_helo
  | ngx_smtp_pre_auth_plain | ngx_smtp_pre_auth_login
  | ngx_smtp_auth_login | ngx_smtp_auth_username | ngx_smtp_auth_password
  | ngx_smtp_auth_plain
  | ngx_smtp_auth_login_username | ngx_smtp_auth_cram_md5 | ngx_smtp_auth_external
  | ngx_smtp_from | ngx_smtp_to | ngx_smtp_data
  | other
  deriving DecidableEq, Repr

/-- The pair (`s->protocol`, `s->mail_state`): the state enumerator together with
the protocol whose enumeration it belongs to. -/
inductive MailState where
  /-- `NGX_MAIL_POP3_PROTOCOL` -/
  | pop3 (st : ngx_pop3_state_e)
  /-- `NGX_MAIL_IMAP_PROTOCOL` -/
  | imap (st : ngx_imap_state_e)
  /-- `NGX_MAIL_SMTP_PROTOCOL` -/
  | smtp (st : ngx_smtp_state_e)
  deriving DecidableEq, Repr

/-- Modelled from the spec: the values of `s->auth_method` (`NGX_MAIL_AUTH_*` of
`ngx_mail.h`); `other` stands for any value without a name. -/
inductive AuthMethod where
  | NGX_MAIL_AUTH_PLAIN | NGX_MAIL_AUTH_LOGIN | NGX_MAIL_AUTH_LOGIN_USERNAME
  | NGX_MAIL_AUTH_APOP | NGX_MAIL_AUTH_CRAM_MD5 | NGX_MAIL_AUTH_EXTERNAL
  | NGX_MAIL_AUTH_NONE | other
  deriving DecidableEq, Repr

/-- Return codes `ngx_int_t` of the classifier. -/
inductive Rc where
  | NGX_OK | NGX_ERROR | NGX_AGAIN
  deriving DecidableEq, Repr

/-- What the upstream `recv` returned. -/
inductive RecvResult where
  /-- `NGX_ERROR` -/
  | error
  /-- `NGX_AGAIN` -/
  | again
  /-- `n = data.length` bytes, stored at `b->last`; the empty list is `n == 0` -/
  | data (data : List Nat)
  deriving DecidableEq, Repr

/-- The event handler installed on a read or write event. -/
inductive Handler where
  | ngx_mail_proxy_block_read
  | ngx_mail_proxy_pop3_handler
  | ngx_mail_proxy_imap_handler
  | ngx_mail_proxy_smtp_handler
  | ngx_mail_proxy_dummy_handler
  | ngx_mail_proxy_handler
  /-- `cscf->protocol->auth_state`, the client-side parser before authentication -/
  | auth_state
  /-- whatever the session layer had installed -/
  | session_layer
  deriving DecidableEq, Repr

/-- The four events of a session. -/
inductive Ev where
  | client_read | client_write | upstream_read | upstream_write
  deriving DecidableEq, Repr

/-- A string under construction: the declared length `len` and the bytes stored
from `data` on. -/
structure ngx_str_t where
  len : Nat
  data : List Nat
  deriving DecidableEq, Repr

/-- Calls that leave the module, in the order they are made. -/
inductive Event where
  /-- `c->send(c, line.data, line.len)` on the upstream connection -/
  | send_upstream (line : ngx_str_t)
  /-- `ngx_log_error`: the fixed text of the message and the text of its one
  conversion; `none` when the conversion was handed `NULL` or a string that does
  not end inside the reply -/
  | log_error (fmt : String) (arg : Option (List Nat))
  /-- `ngx_close_connection(s->proxy->upstream.connection)` -/
  | close_upstream
  /-- `ngx_mail_session_internal_server_error(s)` -/
  | session_internal_server_error
  /-- `ngx_log_error` with a message that has no conversion -/
  | log_fixed (msg : String)
  /-- `ngx_mail_send(s->connection->write)` -/
  | mail_send
  /-- `ngx_add_timer` on the client read event -/
  | add_timer_client (msec : Nat)
  /-- `ngx_del_timer` on the upstream read event -/
  | del_timer_upstream
  /-- the call `ngx_mail_proxy_handler(ev)` that starts the relay -/
  | proxy_handler (ev : Ev)
  deriving DecidableEq, Repr

/-- The session `ngx_mail_session_t` with its proxy context and the
configuration values the module reads. -/
structure ngx_mail_session_t where
  /-- `s->protocol` and `s->mail_state` -/
  mail_state : MailState
  login : List Nat
  passwd : List Nat
  tag : List Nat
  smtp_from : List Nat
  auth_method : AuthMethod
  esmtp : Bool
  /-- the bytes `s->out` denotes; empty when `s->out.len == 0` -/
  out : List Nat
  quit : Bool
  /-- `s->buffer`, the client-side buffer -/
  buffer : ngx_buf_t
  /-- `s->proxy->buffer`, the upstream-side buffer -/
  proxy_buffer : ngx_buf_t
  /-- `pcf->pass_error_message` -/
  pass_error_message : Bool
  /-- `pcf->xclient` -/
  xclient : Bool
  /-- `pcf->timeout` -/
  timeout : Nat
  /-- `cscf->server_name` -/
  server_name : List Nat
  client_read_handler : Handler
  client_write_handler : Handler
  upstream_read_handler : Handler
  upstream_write_handler : Handler
  /-- `c->timedout` of the upstream connection -/
  upstream_timedout : Bool
  /-- `log->action` -/
  log_action : Option String
  /-- the calls made so far -/
  trace : List Event

/-! ## The reply classifier `ngx_mail_proxy_read_response` -/

/-- How the tag scan of state `ngx_imap_passwd` ends. -/
inductive ScanResult where
  /-- `return NGX_OK`: the tag followed by `OK` was found -/
  | ok
  /-- the loop was left with this `p` (`none` is `NULL`) and `expect_chunk` -/
  | fell (p : Option Nat) (expect_chunk : Bool)
  deriving DecidableEq, Repr

/-- The loop `while ((p != NULL) && (p < b->last))` of case `ngx_imap_passwd`,
run for at most `fuel` iterations from `p` with the current `expect_chunk`;
`none` when the iterations run out or `strstr` leaves the received bytes. -/
def imap_passwd_scan (mem : Nat → Nat) (tag : List Nat) (last : Nat) :
    Nat → Nat → Bool → Option ScanResult
  | 0, _, _ => none
  | fuel + 1, p, expect_chunk =>
    if p < last then
      if ngx_strncmp_eq mem p tag then
        if mem (p + tag.length) = 'O'.toNat ∧ mem (p + tag.length + 1) = 'K'.toNat then
          some .ok
        else
          imap_passwd_scan mem tag last fuel (p + tag.length) false
      else
        match strstr_nl mem p (last - p) with
        | .unbounded => none
        | .null => some (.fell none expect_chunk)
        | .found q => imap_passwd_scan mem tag last fuel (q + 1) true
    else
      some (.fell (some p) expect_chunk)

/-- The loop `while (m > p)` of the SMTP multiline check: from `m` downwards to
the first `m` with `m[0] == CR && m[1] == LF`, or down to `p`. The caller starts
it at `b->last - 7`; where that lies below `p` the subtraction on naturals may
stop at 0, which is below or at `p` as well, so the loop is not entered and the
test `m <= p` holds either way. -/
def smtp_scan_back (mem : Nat → Nat) (p : Nat) : Nat → Nat
  | 0 => 0
  | m + 1 =>
    if m + 1 > p then
      if mem (m + 1) = CR ∧ mem (m + 2) = LF then m + 1
      else smtp_scan_back mem p m
    else m + 1

/-- The `switch (state)` of the SMTP branch: whether the case of the state
returns `NGX_OK` for the bytes at `p`. -/
def smtp_state_ok (mem : Nat → Nat) (p : Nat) : ngx_smtp_state_e → Bool
  | .ngx_smtp_start =>
    mem p == '2'.toNat && mem (p + 1) == '2'.toNat && mem (p + 2) == '0'.toNat
  | .ngx_smtp_auth_login | .ngx_smtp_auth_username =>
    mem p == '3'.toNat && mem (p + 1) == '3'.toNat && mem (p + 2) == '4'.toNat
  | .ngx_smtp_auth_plain | .ngx_smtp_auth_password =>
    mem p == '2'.toNat && mem (p + 1) == '3'.toNat && mem (p + 2) == '5'.toNat
  | .ngx_smtp_data =>
    mem p == '3'.toNat && mem (p + 1) == '5'.toNat && mem (p + 2) == '4'.toNat
  | .ngx_smtp_helo | .ngx_smtp_helo_xclient | .ngx_smtp_helo_from | .ngx_smtp_from =>
    mem p == '2'.toNat && mem (p + 1) == '5'.toNat && mem (p + 2) == '0'.toNat
  | .ngx_smtp_xclient | .ngx_smtp_xclient_from | .ngx_smtp_xclient_helo =>
    mem p == '2'.toNat && (mem (p + 1) == '2'.toNat || mem (p + 1) == '5'.toNat)
      && mem (p + 2) == '0'.toNat
  | .ngx_smtp_to => true
  | _ => false

/-- Where the `switch (s->protocol)` leaves the function. -/
inductive Classified where
  /-- `return NGX_OK` -/
  | ok
  /-- `return NGX_AGAIN` from the multiline check -/
  | again
  /-- `break`: control reaches the code after the switch with this `p` (`none`
  is `NULL`) and `expect_chunk` -/
  | no_match (p : Option Nat) (expect_chunk : Bool)
  deriving DecidableEq, Repr

/-- The `switch (s->protocol)` of `ngx_mail_proxy_read_response` on a buffer
that holds at least four bytes ending in CR LF; `none` when the tag scan does
not return. -/
def classify (st : MailState) (tag : List Nat) (b : ngx_buf_t) : Option Classified :=
  let p := b.pos
  match st with
  | .pop3 _ =>
    if b.mem p = '+'.toNat ∧ b.mem (p + 1) = 'O'.toNat ∧ b.mem (p + 2) = 'K'.toNat then
      some .ok
    else some (.no_match (some p) false)
  | .imap .ngx_imap_start =>
    if b.mem p = '*'.toNat ∧ b.mem (p + 1) = ' '.toNat ∧ b.mem (p + 2) = 'O'.toNat
        ∧ b.mem (p + 3) = 'K'.toNat then
      some .ok
    else some (.no_match (some p) false)
  | .imap .ngx_imap_login | .imap .ngx_imap_user =>
    if b.mem p = '+'.toNat then some .ok else some (.no_match (some p) false)
  | .imap .ngx_imap_passwd =>
    match imap_passwd_scan b.mem tag b.last (b.last - b.pos + 1) p false with
    | none => none
    | some .ok => some .ok
    | some (.fell q expect_chunk) => some (.no_match q expect_chunk)
  | .imap .other => some (.no_match (some p) false)
  | .smtp state =>
    if b.mem (p + 3) = '-'.toNat ∧
        (smtp_scan_back b.mem p (b.last - 7) ≤ p
          ∨ b.mem (smtp_scan_back b.mem p (b.last - 7) + 5) = '-'.toNat) then
      some .again
    else if smtp_state_ok b.mem p state then some .ok
    else some (.no_match (some p) false)

/-- The buffer after `recv` has stored `data` at `b->last` and the function has
done `b->last += n`. -/
def recv_buf (b : ngx_buf_t) (data : List Nat) : ngx_buf_t :=
  { b with mem := mem_write b.mem b.last data, last := b.last + data.length }

/-- The function `ngx_mail_proxy_read_response(s, state)`, given what `recv`
returned. The state is read from the session (every caller passes
`s->mail_state`; the POP3 caller passes 0, which the POP3 branch never reads).
The result is the return code and the session afterwards, or `none` when the
tag scan never returns. Log messages are recorded whatever the log level. -/
def ngx_mail_proxy_read_response (s : ngx_mail_session_t) (r : RecvResult) :
    Option (Rc × ngx_mail_session_t) :=
  let s := { s with log_action := some "reading response from upstream" }
  match r with
  | .error => some (.NGX_ERROR, s)
  | .again => some (.NGX_AGAIN, s)
  | .data [] => some (.NGX_ERROR, s)
  | .data (d :: ds) =>
    let b := recv_buf s.proxy_buffer (d :: ds)
    let s := { s with proxy_buffer := b }
    if b.last - b.pos < 4 then some (.NGX_AGAIN, s)
    else if b.mem (b.last - 2) ≠ CR ∨ b.mem (b.last - 1) ≠ LF then
      if b.last = b.end_ then
        let mem1 := mem_set b.mem (b.last - 1) 0
        some (.NGX_ERROR,
          { s with
            proxy_buffer := { b with mem := mem1 }
            trace := s.trace ++
              [.log_error "upstream sent too long response line: \"%s\""
                (c_string mem1 b.pos (b.last - b.pos))] })
      else some (.NGX_AGAIN, s)
    else
      match classify s.mail_state s.tag b with
      | none => none
      | some .ok => some (.NGX_OK, s)
      | some .again => some (.NGX_AGAIN, s)
      | some (.no_match p expect_chunk) =>
        if expect_chunk then some (.NGX_AGAIN, s)
        else if s.pass_error_message = false then
          let mem1 := mem_set b.mem (b.last - 2) 0
          some (.NGX_ERROR,
            { s with
              proxy_buffer := { b with mem := mem1 }
              trace := s.trace ++
                [.log_error "upstream sent invalid response: \"%s\""
                  (p.bind (fun p => c_string mem1 p (b.last - 1 - p)))] })
        else
          some (.NGX_ERROR,
            { s with
              out := mem_read b.mem b.pos (b.last - b.pos)
              trace := s.trace ++
                [.log_error "upstream sent invalid response: \"%V\""
                  (p.bind (fun p =>
                    if p + 2 ≤ b.last then some (mem_read b.mem p (b.last - p - 2))
                    else none))] })

/-- The return code of `ngx_mail_proxy_read_response`. -/
def read_rc (s : ngx_mail_session_t) (r : RecvResult) : Option Rc :=
  (ngx_mail_proxy_read_response s r).map Prod.fst

/-! ## Base64 -/

/-- Modelled from the spec: the alphabet `basis64` of `ngx_encode_base64`
(`ngx_string.c`, outside this module), the standard base64 alphabet. -/
def basis64 : List Nat :=
  bytes "ABCDEFGHIJKLMNOPQRSTUVWXYZabcdefghijklmnopqrstuvwxyz0123456789+/"

/-- Modelled from the spec: the body of `ngx_encode_base64` (`ngx_string.c`,
outside this module): standard base64 of the source bytes, three bytes to four
characters, padded with `=`. -/
def base64 : List Nat → List Nat
  | a :: b :: c :: rest =>
    basis64.getD (a / 4 % 64) 0 :: basis64.getD (a % 4 * 16 + b / 16 % 16) 0
      :: basis64.getD (b % 16 * 4 + c / 64 % 4) 0 :: basis64.getD (c % 64) 0 :: base64 rest
  | [a, b] =>
    [basis64.getD (a / 4 % 64) 0, basis64.getD (a % 4 * 16 + b / 16 % 16) 0,
      basis64.getD (b % 16 * 4) 0, '='.toNat]
  | [a] => [basis64.getD (a / 4 % 64) 0, basis64.getD (a % 4 * 16) 0, '='.toNat, '='.toNat]
  | [] => []

/-- Modelled from the spec: the macro `ngx_base64_encoded_length` of
`ngx_string.h` (outside this module). -/
def ngx_base64_encoded_length (len : Nat) : Nat := (len + 2) / 3 * 4

/-- Modelled from the spec: `ngx_encode_base64(dst, src)` encodes the `src->len`
bytes at `src->data` and sets `dst->len` to the number of characters written. -/
def ngx_encode_base64 (src : ngx_str_t) : ngx_str_t :=
  { len := (base64 (src.data.take src.len)).length, data := base64 (src.data.take src.len) }

/-! ## The authentication handlers -/

/-- What the environment answers during one run of an authentication handler. -/
structure HandlerIO where
  /-- `rev->timedout` -/
  timedout : Bool
  /-- what the upstream `recv` returns -/
  recv : RecvResult
  /-- whether `ngx_pnalloc` returns memory -/
  alloc_ok : Bool
  /-- what `c->send` returns for the line it is offered -/
  send : ngx_str_t → Int

/-- The function `ngx_mail_proxy_internal_server_error`. -/
def ngx_mail_proxy_internal_server_error (s : ngx_mail_session_t) : ngx_mail_session_t :=
  { s with trace := s.trace ++ [.close_upstream, .session_internal_server_error] }

/-- The function `ngx_mail_proxy_upstream_error`. -/
def ngx_mail_proxy_upstream_error (s : ngx_mail_session_t) : ngx_mail_session_t :=
  let s : ngx_mail_session_t := { s with trace := s.trace ++ [.close_upstream] }
  if s.out.length = 0 then
    { s with trace := s.trace ++ [.session_internal_server_error] }
  else
    { s with quit := true, trace := s.trace ++ [.mail_send] }

/-- The first lines every authentication handler shares: the timeout check. -/
def handler_timedout (s : ngx_mail_session_t) : ngx_mail_session_t :=
  ngx_mail_proxy_internal_server_error
    { s with
      upstream_timedout := true
      trace := s.trace ++ [.log_fixed "upstream timed out"] }

/-- The last lines every authentication handler shares: `c->send` of the line,
the check for an incomplete send, and the reset of the upstream buffer. -/
def handler_send (s : ngx_mail_session_t) (io : HandlerIO) (line : ngx_str_t) :
    ngx_mail_session_t :=
  let s : ngx_mail_session_t := { s with trace := s.trace ++ [.send_upstream line] }
  if io.send line < (line.len : Int) then
    ngx_mail_proxy_internal_server_error s
  else
    { s with
      proxy_buffer :=
        { s.proxy_buffer with pos := s.proxy_buffer.start, last := s.proxy_buffer.start } }

/-- The switch to the relay shared by the final states: all four handlers become
`ngx_mail_proxy_handler`, the timers are moved, `client logged in` is logged and
`ngx_mail_proxy_handler(ev)` is called. -/
def handler_relay (s : ngx_mail_session_t) (ev : Ev) : ngx_mail_session_t :=
  { s with
    client_read_handler := .ngx_mail_proxy_handler
    client_write_handler := .ngx_mail_proxy_handler
    upstream_read_handler := .ngx_mail_proxy_handler
    upstream_write_handler := .ngx_mail_proxy_handler
    log_action := none
    trace := s.trace ++
      [.add_timer_client s.timeout, .del_timer_upstream, .log_fixed "client logged in",
        .proxy_handler ev] }

/-- The `switch (s->mail_state)` of `ngx_mail_proxy_pop3_handler` and what
follows it, entered after the reply was classified `NGX_OK`. In the `default`
case the line is the null string of `ngx_str_null`. -/
def pop3_on_ok (s : ngx_mail_session_t) (io : HandlerIO) : ngx_mail_session_t :=
  match s.mail_state with
  | .pop3 .ngx_pop3_start =>
    let s := { s with log_action := some "sending user name to upstream" }
    if io.alloc_ok = false then ngx_mail_proxy_internal_server_error s
    else
      let line : ngx_str_t :=
        { len := 5 + s.login.length + 2, data := bytes "USER " ++ s.login ++ [CR, LF] }
      handler_send { s with mail_state := .pop3 .ngx_pop3_user } io line
  | .pop3 .ngx_pop3_user =>
    let s := { s with log_action := some "sending password to upstream" }
    if io.alloc_ok = false then ngx_mail_proxy_internal_server_error s
    else
      let line : ngx_str_t :=
        { len := 5 + s.passwd.length + 2, data := bytes "PASS " ++ s.passwd ++ [CR, LF] }
      handler_send { s with mail_state := .pop3 .ngx_pop3_passwd } io line
  | .pop3 .ngx_pop3_passwd => handler_relay s .client_write
  | _ => handler_send s io { len := 0, data := [] }

/-- The function `ngx_mail_proxy_pop3_handler`; `none` when the classifier does
not return. -/
def ngx_mail_proxy_pop3_handler (s : ngx_mail_session_t) (io : HandlerIO) :
    Option ngx_mail_session_t :=
  if io.timedout then some (handler_timedout s)
  else
    match ngx_mail_proxy_read_response s io.recv with
    | none => none
    | some (Rc.NGX_AGAIN, s) => some s
    | some (Rc.NGX_ERROR, s) => some (ngx_mail_proxy_upstream_error s)
    | some (Rc.NGX_OK, s) => some (pop3_on_ok s io)

/-- The function `ngx_mail_proxy_smtp_auth_handler(s, c, line)`: `none` is
`NGX_ERROR`, otherwise the session and the line (left as it came when the state
has no case). -/
def ngx_mail_proxy_smtp_auth_handler (s : ngx_mail_session_t) (alloc_ok : Bool)
    (line : ngx_str_t) : Option (ngx_mail_session_t × ngx_str_t) :=
  match s.mail_state with
  | .smtp .ngx_smtp_pre_auth_plain =>
    if alloc_ok = false then none
    else
      let authplain : ngx_str_t :=
        { len := s.login.length + s.passwd.length + 1, data := s.login ++ [0] ++ s.passwd }
      let authplain_base64 := ngx_encode_base64 authplain
      some ({ s with mail_state := .smtp .ngx_smtp_auth_plain },
        { len := 11 + authplain_base64.len + 2,
          data := bytes "AUTH PLAIN " ++ authplain_base64.data.take authplain_base64.len
            ++ [CR, LF] })
  | .smtp .ngx_smtp_pre_auth_login =>
    if alloc_ok = false then none
    else
      some ({ s with mail_state := .smtp .ngx_smtp_auth_login },
        { len := 11 + 1, data := bytes "AUTH LOGIN" ++ [CR, LF] })
  | .smtp .ngx_smtp_auth_login_username
  | .smtp .ngx_smtp_auth_cram_md5
  | .smtp .ngx_smtp_auth_external => none
  | _ => some (s, line)

/-- The `switch (s->mail_state)` of `ngx_mail_proxy_smtp_handler` and what
follows it, entered after the reply was classified `NGX_OK`. In the `default`
case the line is the null string of `ngx_str_null`. -/
def smtp_on_ok (s : ngx_mail_session_t) (io : HandlerIO) : ngx_mail_session_t :=
  match s.mail_state with
  | .smtp .ngx_smtp_start =>
    let s := { s with log_action := some "sending HELO/EHLO to upstream" }
    if io.alloc_ok = false then ngx_mail_proxy_internal_server_error s
    else
      let line : ngx_str_t :=
        { len := 5 + s.server_name.length + 2,
          data := (if s.esmtp || s.xclient then bytes "EHLO " else bytes "HELO ")
            ++ s.server_name ++ [CR, LF] }
      if s.auth_method = .NGX_MAIL_AUTH_NONE then
        handler_send { s with mail_state := .smtp .ngx_smtp_helo_from } io line
      else
        handler_send { s with mail_state := .smtp .ngx_smtp_helo } io line
  | .smtp .ngx_smtp_helo =>
    let next : Option ngx_smtp_state_e :=
      match s.auth_method with
      | .NGX_MAIL_AUTH_PLAIN => some .ngx_smtp_pre_auth_plain
      | .NGX_MAIL_AUTH_LOGIN => some .ngx_smtp_pre_auth_login
      | .NGX_MAIL_AUTH_LOGIN_USERNAME => some .ngx_smtp_auth_login_username
      | .NGX_MAIL_AUTH_CRAM_MD5 => some .ngx_smtp_auth_cram_md5
      | .NGX_MAIL_AUTH_EXTERNAL => some .ngx_smtp_auth_external
      | _ => none
    match next with
    | none => ngx_mail_proxy_internal_server_error s
    | some st =>
      let s := { s with mail_state := .smtp st }
      match ngx_mail_proxy_smtp_auth_handler s io.alloc_ok { len := 0, data := [] } with
      | none => ngx_mail_proxy_internal_server_error s
      | some (s, line) => handler_send s io line
  | .smtp .ngx_smtp_auth_login =>
    if io.alloc_ok = false then ngx_mail_proxy_internal_server_error s
    else
      let enc := ngx_encode_base64 { len := s.login.length, data := s.login }
      let line : ngx_str_t := { len := enc.len + 2, data := enc.data.take enc.len ++ [CR, LF] }
      handler_send { s with mail_state := .smtp .ngx_smtp_auth_username } io line
  | .smtp .ngx_smtp_auth_username =>
    if io.alloc_ok = false then ngx_mail_proxy_internal_server_error s
    else
      let enc := ngx_encode_base64 { len := s.passwd.length, data := s.passwd }
      let line : ngx_str_t := { len := enc.len + 2, data := enc.data.take enc.len ++ [CR, LF] }
      handler_send { s with mail_state := .smtp .ngx_smtp_auth_password } io line
  | .smtp .ngx_smtp_helo_from | .smtp .ngx_smtp_xclient_from =>
    let s := { s with log_action := some "sending MAIL FROM to upstream" }
    if io.alloc_ok = false then ngx_mail_proxy_internal_server_error s
    else
      let line : ngx_str_t :=
        { len := s.smtp_from.length + 2, data := s.smtp_from ++ [CR, LF] }
      handler_send { s with mail_state := .smtp .ngx_smtp_from } io line
  | .smtp .ngx_smtp_auth_password | .smtp .ngx_smtp_auth_plain
  | .smtp .ngx_smtp_from | .smtp .ngx_smtp_to =>
    { s with
      client_read_handler := .auth_state
      out := s.proxy_buffer.content
      trace := s.trace ++ [.mail_send]
      proxy_buffer :=
        { s.proxy_buffer with pos := s.proxy_buffer.start, last := s.proxy_buffer.start } }
  | .smtp .ngx_smtp_data | .smtp .ngx_smtp_xclient =>
    if s.buffer.pos = s.buffer.last then handler_relay s .client_write
    else handler_relay s .upstream_write
  | _ => handler_send s io { len := 0, data := [] }

/-- The function `ngx_mail_proxy_smtp_handler`; `none` when the classifier does
not return. -/
def ngx_mail_proxy_smtp_handler (s : ngx_mail_session_t) (io : HandlerIO) :
    Option ngx_mail_session_t :=
  if io.timedout then some (handler_timedout s)
  else
    match ngx_mail_proxy_read_response s io.recv with
    | none => none
    | some (Rc.NGX_AGAIN, s) => some s
    | some (Rc.NGX_ERROR, s) => some (ngx_mail_proxy_upstream_error s)
    | some (Rc.NGX_OK, s) => some (smtp_on_ok s io)

/-- The lines offered to the upstream `c->send`, oldest first. -/
def sent_upstream : List Event → List ngx_str_t
  | [] => []
  | .send_upstream line :: rest => line :: sent_upstream rest
  | _ :: rest => sent_upstream rest

/-! ## Sample buffers and sessions -/

/-- A buffer of `cap` bytes at address 0, empty, over zeroed memory. -/
def empty_buf (cap : Nat) : ngx_buf_t :=
  { mem := fun _ => 0, start := 0, pos := 0, last := 0, end_ := cap }

/-- A session in the given state with the given tag, fresh buffers of `cap`
bytes, and `pass_error_message` as given. -/
def mk_session (st : MailState) (tag : List Nat) (cap : Nat) (pem : Bool) :
    ngx_mail_session_t :=
  { mail_state := st, login := [], passwd := [], tag := tag, smtp_from := [],
    auth_method := .NGX_MAIL_AUTH_NONE, esmtp := false, out := [], quit := false,
    buffer := empty_buf cap, proxy_buffer := empty_buf cap,
    pass_error_message := pem, xclient := false, timeout := 0, server_name := [],
    client_read_handler := .ngx_mail_proxy_block_read,
    client_write_handler := .session_layer,
    upstream_read_handler := .session_layer,
    upstream_write_handler := .ngx_mail_proxy_dummy_handler,
    upstream_timedout := false, log_action := none, trace := [] }

/-! ## Stored bytes -/

/-- The bytes `l` are stored from address `p` on. -/
def mem_has (mem : Nat → Nat) : Nat → List Nat → Prop
  | _, [] => True
  | p, x :: xs => mem p = x ∧ mem_has mem (p + 1) xs

/-! ## Verdicts and complete replies -/

/-- The return code that follows from where the protocol switch leaves the
function. -/
def verdict_of : Classified → Rc
  | .ok => .NGX_OK
  | .again => .NGX_AGAIN
  | .no_match _ expect_chunk => if expect_chunk then .NGX_AGAIN else .NGX_ERROR

/-- The session as `ngx_mail_proxy_read_response` leaves it when it only stored
the received bytes. -/
def stored (s : ngx_mail_session_t) (d : List Nat) : ngx_mail_session_t :=
  { s with
    log_action := some "reading response from upstream"
    proxy_buffer := recv_buf s.proxy_buffer d }

/-! ## Concrete sessions -/

/-- A POP3 session whose upstream buffer has room for three bytes. -/
def pop3_cap3 : ngx_mail_session_t := mk_session (.pop3 .ngx_pop3_start) [] 3 false

/-- A POP3 session whose upstream buffer has room for four bytes. -/
def pop3_cap4 : ngx_mail_session_t := mk_session (.pop3 .ngx_pop3_start) [] 4 false

/-- A POP3 session with a 64-byte upstream buffer. -/
def pop3_cap64 : ngx_mail_session_t := mk_session (.pop3 .ngx_pop3_start) [] 64 false

/-! ## Concrete SMTP session -/

/-- A session in SMTP state `smtp_helo` with a 64-byte upstream buffer. -/
def smtp_helo_cap64 : ngx_mail_session_t := mk_session (.smtp .ngx_smtp_helo) [] 64 false

/-! ## Multiline SMTP replies -/

/-- One reply line: a three-digit code, the separator byte, the text, CR LF. -/
def smtp_line (sep : Nat) (l : List Nat × List Nat) : List Nat :=
  l.1 ++ sep :: l.2 ++ [CR, LF]

/-- A reply line is well formed: its code is three digits and its text holds no
line feed. -/
def smtp_line_wf (l : List Nat × List Nat) : Prop :=
  l.1.length = 3 ∧ (∀ c ∈ l.1, 48 ≤ c ∧ c ≤ 57) ∧ LF ∉ l.2

/-- The lines `NNN-text CR LF`, one after the other. -/
def smtp_dashed : List (List Nat × List Nat) → List Nat
  | [] => []
  | l :: ls => smtp_line '-'.toNat l ++ smtp_dashed ls

/-- A buffer made of lines `NNN-text CR LF`, optionally followed by one final
line `NNN text CR LF`. -/
def smtp_multiline (lines : List (List Nat × List Nat))
    (final : Option (List Nat × List Nat)) : List Nat :=
  smtp_dashed lines ++
    (match final with
     | none => []
     | some f => smtp_line ' '.toNat f)

instance smtp_line_wf_decidable (l : List Nat × List Nat) : Decidable (smtp_line_wf l) := by
  unfold smtp_line_wf
  infer_instance

/-! ## Untagged IMAP lines -/

/-- Lines given by their contents, each followed by CR LF, one after the
other. -/
def imap_lines : List (List Nat) → List Nat
  | [] => []
  | c :: cs => c ++ [CR, LF] ++ imap_lines cs

/-- The conditions on an untagged line with contents `c` for the tag `tag`: no
line feed and no NUL inside, and the line does not begin with the tag. -/
def untagged_line (tag c : List Nat) : Prop :=
  LF ∉ c ∧ 0 ∉ c ∧ ¬ tag <+: c ++ [CR, LF]

instance untagged_line_decidable (tag c : List Nat) : Decidable (untagged_line tag c) := by
  unfold untagged_line
  infer_instance

/-! ## Concrete IMAP sessions -/

/-- An IMAP session in state `ngx_imap_passwd` with tag `a001 ` and a 64-byte
upstream buffer. -/
def imap_passwd_a001 : ngx_mail_session_t :=
  mk_session (.imap .ngx_imap_passwd) (bytes "a001 ") 64 false

/-- An IMAP session in state `ngx_imap_passwd` whose tag spans two lines. -/
def imap_passwd_crlf_tag : ngx_mail_session_t :=
  mk_session (.imap .ngx_imap_passwd) (bytes "a\r\nb\r\n") 64 false

/-! ## Segmented replies -/

/-- The received bytes form a complete reply: at least four bytes, the last two
CR LF. -/
def complete (b : ngx_buf_t) : Prop :=
  4 ≤ b.last - b.pos ∧ b.mem (b.last - 2) = CR ∧ b.mem (b.last - 1) = LF

instance complete_decidable (b : ngx_buf_t) : Decidable (complete b) := by
  unfold complete
  infer_instance

/-- Successive calls of `ngx_mail_proxy_read_response`, one per segment, into the
same buffer: the first result other than AGAIN (AGAIN when every call said so,
`none` when a call does not return). -/
def feed (s : ngx_mail_session_t) : List (List Nat) → Option Rc
  | [] => some .NGX_AGAIN
  | seg :: rest =>
    match ngx_mail_proxy_read_response s (.data seg) with
    | none => none
    | some (Rc.NGX_AGAIN, s1) => feed s1 rest
    | some (rc, _) => some rc

/-! ## A tag spanning a line end -/

/-- An IMAP session in state `ngx_imap_passwd` with the tag `t CR LF`. -/
def imap_passwd_t_crlf : ngx_mail_session_t :=
  mk_session (.imap .ngx_imap_passwd) (bytes "t\r\n") 64 false

/-! ## Scenario 4 -/

/-- Scenario 4: an SMTP session in `smtp_helo`, authenticated as PLAIN with
login `u` and passwd `p`. -/
def smtp_plain_u_p : ngx_mail_session_t :=
  { mk_session (.smtp .ngx_smtp_helo) [] 64 false with
    login := bytes "u", passwd := bytes "p", auth_method := .NGX_MAIL_AUTH_PLAIN }

/-- An environment in which `recv` returns the given reply, nothing times out,
the pool allocates and `send` takes the whole line. -/
def io_reply (reply : String) : HandlerIO :=
  { timedout := false, recv := .data (bytes reply), alloc_ok := true,
    send := fun line => (line.len : Int) }

/-! ## Sample handler runs -/

/-- The session `smtp_plain_u_p` after the EHLO reply of Scenario 4. -/
def smtp_plain_u_p_1 : ngx_mail_session_t :=
  (ngx_mail_proxy_smtp_handler smtp_plain_u_p
    (io_reply "250-gw\r\n250 AUTH PLAIN LOGIN\r\n")).getD smtp_plain_u_p

/-- An SMTP session in `smtp_helo`, authenticated as LOGIN with login `alice`
and passwd `secret`. -/
def smtp_login_alice : ngx_mail_session_t :=
  { mk_session (.smtp .ngx_smtp_helo) [] 64 false with
    login := bytes "alice", passwd := bytes "secret", auth_method := .NGX_MAIL_AUTH_LOGIN }

/-- The session `smtp_login_alice` after the reply `250 ok`. -/
def smtp_login_alice_1 : ngx_mail_session_t :=
  (ngx_mail_proxy_smtp_handler smtp_login_alice (io_reply "250 ok\r\n")).getD smtp_login_alice

/-- The session `smtp_login_alice_1` after the reply `334 VXNlcm5hbWU6`. -/
def smtp_login_alice_2 : ngx_mail_session_t :=
  (ngx_mail_proxy_smtp_handler smtp_login_alice_1 (io_reply "334 VXNlcm5hbWU6\r\n")).getD
    smtp_login_alice

/-- The session `smtp_login_alice_2` after the reply `334 UGFzc3dvcmQ6`. -/
def smtp_login_alice_3 : ngx_mail_session_t :=
  (ngx_mail_proxy_smtp_handler smtp_login_alice_2 (io_reply "334 UGFzc3dvcmQ6\r\n")).getD
    smtp_login_alice

/-! ## The relay direction and Scenario 1 -/

/-- The two connections of a session. -/
inductive Conn where
  | client | upstream
  deriving DecidableEq, Repr

/-- The two buffers of a session. -/
inductive BufSel where
  /-- `s->buffer` -/
  | buffer
  /-- `s->proxy->buffer` -/
  | proxy_buffer
  deriving DecidableEq, Repr

/-- The first `if` of `ngx_mail_proxy_handler` after the timeout check: the
source, the destination and the buffer of the relay pass that the event
starts. -/
def ngx_mail_proxy_handler_direction : Ev → Conn × Conn × BufSel
  | .client_write => (.upstream, .client, .proxy_buffer)
  | .client_read => (.client, .upstream, .buffer)
  | .upstream_write => (.client, .upstream, .buffer)
  | .upstream_read => (.upstream, .client, .proxy_buffer)

/-- Scenario 1: a POP3 session at `pop3_start` with login `alice` and passwd
`secret`. -/
def pop3_alice : ngx_mail_session_t :=
  { mk_session (.pop3 .ngx_pop3_start) [] 64 false with
    login := bytes "alice", passwd := bytes "secret" }

/-- The session `pop3_alice` after the reply `+OK ready`. -/
def pop3_alice_1 : ngx_mail_session_t :=
  (ngx_mail_proxy_pop3_handler pop3_alice (io_reply "+OK ready\r\n")).getD pop3_alice

/-- The session `pop3_alice_1` after the reply `+OK`. -/
def pop3_alice_2 : ngx_mail_session_t :=
  (ngx_mail_proxy_pop3_handler pop3_alice_1 (io_reply "+OK\r\n")).getD pop3_alice

/-- The session `pop3_alice_2` after the reply `+OK logged in`. -/
def pop3_alice_3 : ngx_mail_session_t :=
  (ngx_mail_proxy_pop3_handler pop3_alice_2 (io_reply "+OK logged in\r\n")).getD pop3_alice

/-! ## The IMAP handler -/

/-- Modelled from the spec: the `%uz` conversion of `ngx_sprintf` (`ngx_string.c`,
outside this module), the decimal digits of a `size_t`. -/
def decimal (n : Nat) : List Nat := bytes (Nat.repr n)

/-- The `switch (s->mail_state)` of `ngx_mail_proxy_imap_handler` and what
follows it, entered after the reply was classified `NGX_OK`. The lines of
`ngx_imap_start` and `ngx_imap_login` are what `ngx_sprintf` writes for the
formats `%VLOGIN %V %V CRLF` and `%V {%uz} CRLF`, and `line.len` is the number
of bytes it wrote. In the `default` case the line is the null string of
`ngx_str_null`. -/
def imap_on_ok (s : ngx_mail_session_t) (io : HandlerIO) : ngx_mail_session_t :=
  match s.mail_state with
  | .imap .ngx_imap_start =>
    let s := { s with log_action := some "sending LOGIN command to upstream" }
    if io.alloc_ok = false then ngx_mail_proxy_internal_server_error s
    else
      let data := s.tag ++ bytes "LOGIN " ++ s.login ++ bytes " " ++ s.passwd ++ [CR, LF]
      handler_send { s with mail_state := .imap .ngx_imap_passwd } io
        { len := data.length, data := data }
  | .imap .ngx_imap_login =>
    let s := { s with log_action := some "sending user name to upstream" }
    if io.alloc_ok = false then ngx_mail_proxy_internal_server_error s
    else
      let data := s.login ++ bytes " \x7b" ++ decimal s.passwd.length ++ bytes "\x7d" ++ [CR, LF]
      handler_send { s with mail_state := .imap .ngx_imap_user } io
        { len := data.length, data := data }
  | .imap .ngx_imap_user =>
    let s := { s with log_action := some "sending password to upstream" }
    if io.alloc_ok = false then ngx_mail_proxy_internal_server_error s
    else
      let line : ngx_str_t := { len := s.passwd.length + 2, data := s.passwd ++ [CR, LF] }
      handler_send { s with mail_state := .imap .ngx_imap_passwd } io line
  | .imap .ngx_imap_passwd => handler_relay s .client_write
  | _ => handler_send s io { len := 0, data := [] }

/-- The function `ngx_mail_proxy_imap_handler`; `none` when the classifier does
not return. -/
def ngx_mail_proxy_imap_handler (s : ngx_mail_session_t) (io : HandlerIO) :
    Option ngx_mail_session_t :=
  if io.timedout then some (handler_timedout s)
  else
    match ngx_mail_proxy_read_response s io.recv with
    | none => none
    | some (Rc.NGX_AGAIN, s) => some s
    | some (Rc.NGX_ERROR, s) => some (ngx_mail_proxy_upstream_error s)
    | some (Rc.NGX_OK, s) => some (imap_on_ok s io)

/-! ## Start of a proxy session -/

/-- The function `ngx_mail_proxy_set_handler`: the dummy write handler and, by
protocol, the read handler and the first state. -/
def ngx_mail_proxy_set_handler (s : ngx_mail_session_t) : ngx_mail_session_t :=
  match s.mail_state with
  | .pop3 _ =>
    { s with
      upstream_write_handler := .ngx_mail_proxy_dummy_handler
      upstream_read_handler := .ngx_mail_proxy_pop3_handler
      mail_state := .pop3 .ngx_pop3_start }
  | .imap _ =>
    { s with
      upstream_write_handler := .ngx_mail_proxy_dummy_handler
      upstream_read_handler := .ngx_mail_proxy_imap_handler
      mail_state := .imap .ngx_imap_start }
  | .smtp _ =>
    { s with
      upstream_write_handler := .ngx_mail_proxy_dummy_handler
      upstream_read_handler := .ngx_mail_proxy_smtp_handler
      mail_state := .smtp .ngx_smtp_start }

/-- Modelled from the spec: the OpenSSL constant `X509_V_OK`. -/
def X509_V_OK : Int := 0

/-- What the TLS library reports when `ngx_mail_upstream_ssl_handshake_handler`
runs. -/
structure SslIO where
  /-- `c->ssl->handshaked` -/
  handshaked : Bool
  /-- `sslcf->verify` -/
  verify : Nat
  /-- `SSL_get_verify_result` -/
  verify_result : Int
  /-- the macro `ngx_ssl_verify_error_optional` of `ngx_event_openssl.h`, outside
  this module -/
  ngx_ssl_verify_error_optional : Int → Bool
  /-- whether `SSL_get_peer_certificate` returns a certificate -/
  peer_cert : Bool

/-- The function `ngx_mail_upstream_ssl_handshake_handler`. -/
def ngx_mail_upstream_ssl_handshake_handler (s : ngx_mail_session_t) (ssl : SslIO) :
    ngx_mail_session_t :=
  if ssl.handshaked then
    if ssl.verify ≠ 0 then
      if ssl.verify_result ≠ X509_V_OK
          ∧ (ssl.verify ≠ 3 ∨ ssl.ngx_ssl_verify_error_optional ssl.verify_result = false) then
        { s with trace := s.trace ++ [.session_internal_server_error] }
      else if ssl.verify = 1 ∧ ssl.peer_cert = false then
        { s with trace := s.trace ++ [.session_internal_server_error] }
      else ngx_mail_proxy_set_handler s
    else ngx_mail_proxy_set_handler s
  else
    { s with trace := s.trace ++ [.session_internal_server_error] }

/-- What `ngx_event_connect_peer` returned. -/
inductive ConnectRc where
  | NGX_OK | NGX_AGAIN | NGX_ERROR | NGX_BUSY | NGX_DECLINED
  deriving DecidableEq, Repr

/-- What the environment answers during `ngx_mail_proxy_init`. -/
structure InitIO where
  /-- whether `ngx_pcalloc` returns the proxy context -/
  pcalloc_ok : Bool
  /-- what `ngx_event_connect_peer` returns -/
  connect_rc : ConnectRc
  /-- whether `p->upstream.connection` is set when the connect failed -/
  connection : Bool
  /-- `cscf->timeout` -/
  cscf_timeout : Nat
  /-- the buffer `ngx_create_temp_buf` returns, `none` for `NULL` -/
  temp_buf : Option ngx_buf_t
  /-- `sslcf->enable_upstream` -/
  enable_upstream : Bool
  /-- whether `ngx_ssl_create_connection` returns `NGX_OK` -/
  ssl_create_ok : Bool
  /-- whether `ngx_ssl_handshake` returns `NGX_AGAIN` -/
  handshake_again : Bool
  /-- what the TLS library reports if the handshake handler runs at once -/
  ssl : SslIO

/-- Calls of `ngx_mail_proxy_init` into the event and TLS layers. -/
inductive InitCall where
  /-- `ngx_event_connect_peer` -/
  | connect_peer
  /-- `ngx_add_timer` on the upstream read event -/
  | add_timer_upstream (msec : Nat)
  /-- `ngx_ssl_create_connection` -/
  | ssl_create_connection
  /-- `ngx_ssl_handshake` -/
  | ssl_handshake
  /-- `ssl->handler = ngx_mail_upstream_ssl_handshake_handler` -/
  | ssl_handler_installed
  deriving DecidableEq, Repr

/-- The function `ngx_mail_proxy_init`, built with `NGX_MAIL_SSL`: the session
afterwards and the calls made into the event and TLS layers. -/
def ngx_mail_proxy_init (s : ngx_mail_session_t) (io : InitIO) :
    ngx_mail_session_t × List InitCall :=
  let s : ngx_mail_session_t := { s with log_action := some "connecting to upstream" }
  if io.pcalloc_ok = false then
    ({ s with trace := s.trace ++ [.session_internal_server_error] }, [])
  else if io.connect_rc = .NGX_ERROR ∨ io.connect_rc = .NGX_BUSY
      ∨ io.connect_rc = .NGX_DECLINED then
    (if io.connection then ngx_mail_proxy_internal_server_error s
      else { s with trace := s.trace ++ [.session_internal_server_error] }, [.connect_peer])
  else
    let s : ngx_mail_session_t :=
      { s with client_read_handler := .ngx_mail_proxy_block_read }
    match io.temp_buf with
    | none =>
      (ngx_mail_proxy_internal_server_error s,
        [.connect_peer, .add_timer_upstream io.cscf_timeout])
    | some b =>
      let s := ngx_mail_proxy_set_handler { s with proxy_buffer := b, out := [] }
      if io.enable_upstream = false then
        (s, [.connect_peer, .add_timer_upstream io.cscf_timeout])
      else
        let s : ngx_mail_session_t := { s with log_action := some "SSL handshaking" }
        if io.ssl_create_ok = false then
          (ngx_mail_proxy_internal_server_error s,
            [.connect_peer, .add_timer_upstream io.cscf_timeout, .ssl_create_connection])
        else if io.handshake_again then
          (s, [.connect_peer, .add_timer_upstream io.cscf_timeout, .ssl_create_connection,
            .ssl_handshake, .ssl_handler_installed])
        else
          (ngx_mail_upstream_ssl_handshake_handler s io.ssl,
            [.connect_peer, .add_timer_upstream io.cscf_timeout, .ssl_create_connection,
              .ssl_handshake])

/-! ## Sample IMAP runs -/

/-- Scenario 2 without the start of the session: an IMAP session in
`ngx_imap_login` with tag `a001 `, login `alice` and passwd `secret`. -/
def imap_login_alice : ngx_mail_session_t :=
  { mk_session (.imap .ngx_imap_login) (bytes "a001 ") 64 false with
    login := bytes "alice", passwd := bytes "secret" }

/-- The session `imap_login_alice` after the reply `+ go`. -/
def imap_login_alice_1 : ngx_mail_session_t :=
  (ngx_mail_proxy_imap_handler imap_login_alice (io_reply "+ go\r\n")).getD imap_login_alice

/-! ## Sample SMTP steps -/

/-- Scenario 4 at its start: an SMTP session in `smtp_start` for the server name
`gw.example`, the client having used EHLO, authenticated as PLAIN. -/
def smtp_start_gw : ngx_mail_session_t :=
  { mk_session (.smtp .ngx_smtp_start) [] 64 false with
    login := bytes "u", passwd := bytes "p", auth_method := .NGX_MAIL_AUTH_PLAIN,
    esmtp := true, server_name := bytes "gw.example" }

/-- The session `smtp_start_gw` after the greeting `220 hi`. -/
def smtp_start_gw_1 : ngx_mail_session_t :=
  (ngx_mail_proxy_smtp_handler smtp_start_gw (io_reply "220 hi\r\n")).getD smtp_start_gw

/-- An SMTP session in `smtp_helo` whose client authenticated with CRAM-MD5. -/
def smtp_helo_cram : ngx_mail_session_t :=
  { mk_session (.smtp .ngx_smtp_helo) [] 64 false with
    login := bytes "u", passwd := bytes "p", auth_method := .NGX_MAIL_AUTH_CRAM_MD5 }

/-- The session `smtp_helo_cram` after the reply `250 ok`. -/
def smtp_helo_cram_1 : ngx_mail_session_t :=
  (ngx_mail_proxy_smtp_handler smtp_helo_cram (io_reply "250 ok\r\n")).getD smtp_helo_cram

/-- Scenario 4 at its end: an SMTP session in `smtp_auth_plain`. -/
def smtp_auth_plain_u_p : ngx_mail_session_t :=
  { mk_session (.smtp .ngx_smtp_auth_plain) [] 64 false with
    login := bytes "u", passwd := bytes "p", auth_method := .NGX_MAIL_AUTH_PLAIN }

/-- The session `smtp_auth_plain_u_p` after the reply `235 2.0.0 OK`. -/
def smtp_auth_plain_u_p_1 : ngx_mail_session_t :=
  (ngx_mail_proxy_smtp_handler smtp_auth_plain_u_p (io_reply "235 2.0.0 OK\r\n")).getD
    smtp_auth_plain_u_p

/-! ## Sample error replies and session starts -/

/-- Scenario 5: an SMTP session in `smtp_auth_plain` with `pass_error_message`
on. -/
def smtp_auth_plain_pem : ngx_mail_session_t :=
  { mk_session (.smtp .ngx_smtp_auth_plain) [] 64 true with
    login := bytes "u", passwd := bytes "p", auth_method := .NGX_MAIL_AUTH_PLAIN }

/-- The session `smtp_auth_plain_pem` after the reply `535 5.7.8 bad creds`. -/
def smtp_auth_plain_pem_1 : ngx_mail_session_t :=
  (ngx_mail_proxy_smtp_handler smtp_auth_plain_pem
    (io_reply "535 5.7.8 bad creds\r\n")).getD smtp_auth_plain_pem

/-- An environment in which `ngx_mail_proxy_init` succeeds without TLS to
upstream: the connect is in progress and a 64-byte buffer is created. -/
def init_plain_io : InitIO :=
  { pcalloc_ok := true, connect_rc := .NGX_AGAIN, connection := true, cscf_timeout := 60000,
    temp_buf := some (empty_buf 64), enable_upstream := false, ssl_create_ok := true,
    handshake_again := false,
    ssl := { handshaked := true, verify := 0, verify_result := 0,
             ngx_ssl_verify_error_optional := fun _ => false, peer_cert := true } }

/-- Scenario 2 from its start: the session `imap_login_alice`, which arrives in
`ngx_imap_login`, after `ngx_mail_proxy_init`. -/
def imap_login_alice_init : ngx_mail_session_t :=
  (ngx_mail_proxy_init imap_login_alice init_plain_io).1

/-- The session `imap_login_alice_init` after the first upstream reply `+ go`. -/
def imap_login_alice_init_1 : ngx_mail_session_t :=
  (ngx_mail_proxy_imap_handler imap_login_alice_init (io_reply "+ go\r\n")).getD
    imap_login_alice_init

/-! ## The relay pump -/

/-- Modelled from the spec: the value of `NGX_ERROR` in `ngx_core.h`, as the
`ssize_t` that `send` and `recv` return. -/
def NGX_ERROR : Int := -1

/-- Modelled from the spec: the value of `NGX_AGAIN` in `ngx_core.h`. -/
def NGX_AGAIN : Int := -2

/-- The event flags of one connection that `ngx_mail_proxy_handler` reads. -/
structure ConnFlags where
  /-- `c->read->ready` -/
  read_ready : Bool
  /-- `c->read->eof` -/
  read_eof : Bool
  /-- `c->write->ready` -/
  write_ready : Bool
  deriving DecidableEq, Repr

/-- Calls that leave `ngx_mail_proxy_handler`, in the order they are made. -/
inductive RelayEvent where
  /-- `n = dst->send(dst, b->pos, size)`: the bytes offered and the value returned -/
  | send (dst : Conn) (offered : List Nat) (n : Int)
  /-- `n = src->recv(src, b->last, size)`: the room offered and what came back -/
  | recv (src : Conn) (room : Nat) (r : RecvResult)
  /-- `ngx_log_error(NGX_LOG_INFO, ...)` with a fixed message -/
  | log_info (msg : String)
  /-- `ngx_mail_proxy_close_session(s)` -/
  | close_session
  /-- `ngx_handle_write_event(c->write, 0)` -/
  | handle_write_event (c : Conn)
  /-- `ngx_handle_read_event(c->read, 0)` -/
  | handle_read_event (c : Conn)
  /-- `ngx_add_timer(c->read, pcf->timeout)` on the client connection -/
  | add_timer_client (msec : Nat)
  deriving DecidableEq, Repr

/-- A session in the relay phase: the session, the event flags of its two
connections, `c->timedout` of the client connection, whether
`ngx_mail_proxy_close_session` has run, and the calls made so far. -/
structure Relay where
  s : ngx_mail_session_t
  client : ConnFlags
  upstream : ConnFlags
  client_timedout : Bool
  closed : Bool
  log : List RelayEvent

/-- The flags of a connection. -/
def Relay.flags (r : Relay) : Conn → ConnFlags
  | .client => r.client
  | .upstream => r.upstream

/-- The relay with the flags of one connection replaced. -/
def Relay.set_flags (r : Relay) (c : Conn) (f : ConnFlags) : Relay :=
  match c with
  | .client => { r with client := f }
  | .upstream => { r with upstream := f }

/-- The buffer `b` selects: `s->buffer` or `s->proxy->buffer`. -/
def Relay.buf (r : Relay) : BufSel → ngx_buf_t
  | .buffer => r.s.buffer
  | .proxy_buffer => r.s.proxy_buffer

/-- The relay with one of its buffers replaced. -/
def Relay.set_buf (r : Relay) (sel : BufSel) (b : ngx_buf_t) : Relay :=
  match sel with
  | .buffer => { r with s := { r.s with buffer := b } }
  | .proxy_buffer => { r with s := { r.s with proxy_buffer := b } }

/-- The function `ngx_mail_proxy_close_session`. -/
def ngx_mail_proxy_close_session (r : Relay) : Relay :=
  { r with closed := true, log := r.log ++ [.close_session] }

/-- What `dst->send` answers: the value it returns and `dst->write->ready` when
it returns. -/
structure SendAnswer where
  n : Int
  ready : Bool
  deriving DecidableEq, Repr

/-- What `src->recv` answers: the value it returns with the bytes it stored,
`src->read->ready` when it returns, and whether it set `src->read->eof`. -/
structure RecvAnswer where
  r : RecvResult
  ready : Bool
  eof : Bool
  deriving DecidableEq, Repr

/-- The answers of the two sockets during one turn of the `for` loop. -/
structure IterIO where
  send : SendAnswer
  recv : RecvAnswer
  deriving DecidableEq, Repr

/-- The text `send_action` of a pass towards `dst`. -/
def send_action : Conn → String
  | .client => "proxying and sending to client"
  | .upstream => "proxying and sending to upstream"

/-- The text `recv_action` of a pass from `src`. -/
def recv_action : Conn → String
  | .client => "proxying and reading from client"
  | .upstream => "proxying and reading from upstream"

/-- The first half of the loop body once `do_write` is set: the send from the
buffer to `dst`. The flag returned says that `send` returned `NGX_ERROR`. The
sizes are differences of pointers with `pos ≤ last ≤ end`. -/
def pump_send (dst : Conn) (sel : BufSel) (a : SendAnswer) (r : Relay) : Relay × Bool :=
  let b := r.buf sel
  if b.last - b.pos ≠ 0 ∧ (r.flags dst).write_ready = true then
    let r : Relay :=
      { r with
        s := { r.s with log_action := some (send_action dst) }
        log := r.log ++ [.send dst b.content a.n] }
    let r : Relay := r.set_flags dst { r.flags dst with write_ready := a.ready }
    if a.n = NGX_ERROR then (r, true)
    else if 0 < a.n then
      if b.pos + a.n.toNat = b.last then
        (r.set_buf sel { b with pos := b.start, last := b.start }, false)
      else (r.set_buf sel { b with pos := b.pos + a.n.toNat }, false)
    else (r, false)
  else (r, false)

/-- The second half of the loop body: the receive from `src` into the buffer.
The flag returned says `continue` (otherwise `break`). -/
def pump_recv (src : Conn) (sel : BufSel) (a : RecvAnswer) (r : Relay) : Relay × Bool :=
  let b := r.buf sel
  if b.end_ - b.last ≠ 0 ∧ (r.flags src).read_ready = true then
    let r : Relay :=
      { r with
        s := { r.s with log_action := some (recv_action src) }
        log := r.log ++ [.recv src (b.end_ - b.last) a.r] }
    let r : Relay :=
      r.set_flags src
        { r.flags src with read_ready := a.ready, read_eof := (r.flags src).read_eof || a.eof }
    match a.r with
    | .again => (r, false)
    | .data [] => (r, false)
    | .data (d :: ds) => (r.set_buf sel (recv_buf b (d :: ds)), true)
    | .error => (r.set_flags src { r.flags src with read_eof := true }, false)
  else (r, false)

/-- How one turn of the `for` loop ends. -/
inductive IterExit where
  /-- `send` returned `NGX_ERROR` -/
  | send_error
  /-- `continue`, with `do_write = 1` -/
  | again
  /-- `break` -/
  | stop
  deriving DecidableEq, Repr

/-- One turn of the `for` loop. -/
def pump_iter (src dst : Conn) (sel : BufSel) (io : IterIO) (do_write : Bool) (r : Relay) :
    Relay × IterExit :=
  let sent := if do_write then pump_send dst sel io.send r else (r, false)
  if sent.2 then (sent.1, .send_error)
  else
    let got := pump_recv src sel io.recv sent.1
    (got.1, if got.2 then .again else .stop)

/-- The answers of two sockets that have nothing more: `NGX_AGAIN` from both. -/
def quiet : IterIO :=
  { send := { n := NGX_AGAIN, ready := false },
    recv := { r := .again, ready := false, eof := false } }

/-- The `for` loop, given the answers of the sockets turn by turn; sockets
whose listed answers are used up answer `NGX_AGAIN`, which ends the loop. The
flag returned says that `send` returned `NGX_ERROR`. -/
def pump_loop (src dst : Conn) (sel : BufSel) : List IterIO → Bool → Relay → Relay × Bool
  | [], do_write, r => ((pump_iter src dst sel quiet do_write r).1,
      decide ((pump_iter src dst sel quiet do_write r).2 = .send_error))
  | io :: rest, do_write, r =>
    match pump_iter src dst sel io do_write r with
    | (r1, .send_error) => (r1, true)
    | (r1, .again) => pump_loop src dst sel rest true r1
    | (r1, .stop) => (r1, false)

/-- The connection `c = ev->data` of an event. -/
def Ev.conn : Ev → Conn
  | .client_read => .client
  | .client_write => .client
  | .upstream_read => .upstream
  | .upstream_write => .upstream

/-- The flag `ev->write` of an event. -/
def Ev.write : Ev → Bool
  | .client_read => false
  | .client_write => true
  | .upstream_read => false
  | .upstream_write => true

/-- What the environment answers during one call of `ngx_mail_proxy_handler`. -/
structure PassIO where
  /-- the event the handler is called for -/
  ev : Ev
  /-- `ev->timedout` -/
  timedout : Bool
  /-- `c->close` -/
  close : Bool
  /-- the answers of the sockets, turn by turn of the loop -/
  iters : List IterIO
  /-- whether `ngx_handle_write_event(dst->write, 0)` returns `NGX_OK` -/
  dst_write_ok : Bool
  /-- whether `ngx_handle_read_event(dst->read, 0)` returns `NGX_OK` -/
  dst_read_ok : Bool
  /-- whether `ngx_handle_write_event(src->write, 0)` returns `NGX_OK` -/
  src_write_ok : Bool
  /-- whether `ngx_handle_read_event(src->read, 0)` returns `NGX_OK` -/
  src_read_ok : Bool

/-- How a call of `ngx_mail_proxy_handler` returns. -/
inductive PassExit where
  /-- from the check of `ev->timedout` and `c->close` -/
  | timeout_close
  /-- after `send` returned `NGX_ERROR` -/
  | send_error
  /-- after `proxied session done` -/
  | done
  /-- after one of the four `ngx_handle_*_event` calls failed -/
  | rearm_failed
  /-- from the end of the function -/
  | rearmed
  deriving DecidableEq, Repr

/-- The `for` loop of `ngx_mail_proxy_handler` for the direction the event
selects, with `do_write = ev->write`. -/
def ngx_mail_proxy_handler_loop (r : Relay) (io : PassIO) : Relay × Bool :=
  pump_loop (ngx_mail_proxy_handler_direction io.ev).1 (ngx_mail_proxy_handler_direction io.ev).2.1
    (ngx_mail_proxy_handler_direction io.ev).2.2 io.iters io.ev.write r

/-- The condition under which `proxied session done` is logged. -/
def session_done (r : Relay) : Prop :=
  (r.client.read_eof = true ∧ r.s.buffer.pos = r.s.buffer.last)
    ∨ (r.upstream.read_eof = true ∧ r.s.proxy_buffer.pos = r.s.proxy_buffer.last)
    ∨ (r.client.read_eof = true ∧ r.upstream.read_eof = true)

instance session_done_decidable (r : Relay) : Decidable (session_done r) := by
  unfold session_done
  infer_instance

/-- The relay with a call appended to its log. -/
def Relay.call (r : Relay) (e : RelayEvent) : Relay :=
  { r with log := r.log ++ [e] }

/-- The branch of `ngx_mail_proxy_handler` taken when `ev->timedout` or
`c->close` is set. -/
def handler_shutdown (r : Relay) (io : PassIO) : Relay :=
  let r : Relay := { r with s := { r.s with log_action := some "proxying" } }
  ngx_mail_proxy_close_session
    (if io.close then r.call (.log_info "shutdown timeout")
      else if io.ev.conn = .client then
        { r.call (.log_info "client timed out") with client_timedout := true }
      else r.call (.log_info "upstream timed out"))

/-- The end of `ngx_mail_proxy_handler`: the four `ngx_handle_*_event` calls,
each closing the session when it fails, and the timer on the client read
event. -/
def handler_rearm (src dst : Conn) (r : Relay) (io : PassIO) : Relay × PassExit :=
  if io.dst_write_ok = false then
    (ngx_mail_proxy_close_session (r.call (.handle_write_event dst)), .rearm_failed)
  else if io.dst_read_ok = false then
    (ngx_mail_proxy_close_session
      ((r.call (.handle_write_event dst)).call (.handle_read_event dst)), .rearm_failed)
  else if io.src_write_ok = false then
    (ngx_mail_proxy_close_session
      (((r.call (.handle_write_event dst)).call (.handle_read_event dst)).call
        (.handle_write_event src)), .rearm_failed)
  else if io.src_read_ok = false then
    (ngx_mail_proxy_close_session
      ((((r.call (.handle_write_event dst)).call (.handle_read_event dst)).call
        (.handle_write_event src)).call (.handle_read_event src)), .rearm_failed)
  else if io.ev.conn = .client then
    (((((r.call (.handle_write_event dst)).call (.handle_read_event dst)).call
        (.handle_write_event src)).call (.handle_read_event src)).call
      (.add_timer_client r.s.timeout), .rearmed)
  else
    ((((r.call (.handle_write_event dst)).call (.handle_read_event dst)).call
        (.handle_write_event src)).call (.handle_read_event src), .rearmed)

/-- The relay with `c->log->action = "proxying"`. -/
def Relay.proxying (r : Relay) : Relay :=
  { r with s := { r.s with log_action := some "proxying" } }

/-- The function `ngx_mail_proxy_handler(ev)`: the relay afterwards and how the
call returned. -/
def ngx_mail_proxy_handler (r : Relay) (io : PassIO) : Relay × PassExit :=
  if io.timedout = true ∨ io.close = true then (handler_shutdown r io, .timeout_close)
  else if (ngx_mail_proxy_handler_loop r io).2 then
    (ngx_mail_proxy_close_session (ngx_mail_proxy_handler_loop r io).1, .send_error)
  else if session_done (ngx_mail_proxy_handler_loop r io).1.proxying then
    (ngx_mail_proxy_close_session
      ((ngx_mail_proxy_handler_loop r io).1.proxying.call (.log_info "proxied session done")),
      .done)
  else
    handler_rearm (ngx_mail_proxy_handler_direction io.ev).1
      (ngx_mail_proxy_handler_direction io.ev).2.1 (ngx_mail_proxy_handler_loop r io).1.proxying io

/-- What the event loop does when it fires an event: it sets the `ready` flags
of the two connections, then calls the handler. -/
structure Fired where
  /-- `s->connection->read->ready` when the handler is called -/
  client_read_ready : Bool
  /-- `s->connection->write->ready` when the handler is called -/
  client_write_ready : Bool
  /-- `s->proxy->upstream.connection->read->ready` when the handler is called -/
  upstream_read_ready : Bool
  /-- `s->proxy->upstream.connection->write->ready` when the handler is called -/
  upstream_write_ready : Bool
  /-- the answers during the call -/
  pass : PassIO

/-- The relay with the `ready` flags as the event loop left them. -/
def Relay.fire (r : Relay) (f : Fired) : Relay :=
  { r with
    client :=
      { r.client with read_ready := f.client_read_ready, write_ready := f.client_write_ready }
    upstream :=
      { r.upstream with
        read_ready := f.upstream_read_ready, write_ready := f.upstream_write_ready } }

/-- Successive calls of `ngx_mail_proxy_handler`, one per fired event; no event
fires for a session that was closed. -/
def relay_run (r : Relay) : List Fired → Relay
  | [] => r
  | f :: rest =>
    if r.closed then r else relay_run (ngx_mail_proxy_handler (r.fire f) f.pass).1 rest

/-! ## Bytes that crossed the relay -/

/-- The bytes `dst->send` has accepted, in order: of each send to `dst` that
returned `n > 0`, the first `n` bytes offered. -/
def accepted (dst : Conn) : List RelayEvent → List Nat
  | [] => []
  | .send c offered n :: rest =>
    (if c = dst ∧ 0 < n then offered.take n.toNat else []) ++ accepted dst rest
  | _ :: rest => accepted dst rest

/-- The bytes `src->recv` has returned, in order. -/
def received (src : Conn) : List RelayEvent → List Nat
  | [] => []
  | .recv c _ (.data d) :: rest => (if c = src then d else []) ++ received src rest
  | _ :: rest => received src rest

/-- A call in which `send` returned at most the number of bytes offered, or
`recv` at most the room offered. -/
def RelayEvent.bounded : RelayEvent → Bool
  | .send _ offered n => decide (n ≤ (offered.length : Int))
  | .recv _ room (.data d) => decide (d.length ≤ room)
  | _ => true

/-- The source of the direction that uses a buffer. -/
def BufSel.src : BufSel → Conn
  | .buffer => .client
  | .proxy_buffer => .upstream

/-- The destination of the direction that uses a buffer. -/
def BufSel.dst : BufSel → Conn
  | .buffer => .upstream
  | .proxy_buffer => .client

/-- The pointers of a buffer are in order. -/
def ngx_buf_t.wf (b : ngx_buf_t) : Prop :=
  b.start ≤ b.pos ∧ b.pos ≤ b.last ∧ b.last ≤ b.end_

instance wf_decidable (b : ngx_buf_t) : Decidable b.wf := by
  unfold ngx_buf_t.wf
  infer_instance

/-- The bytes of one direction are conserved: what `dst->send` accepted,
followed by what the buffer holds, is `init` followed by what `src->recv`
returned; and the pointers of the buffer are in order. -/
def conserved (init : List Nat) (sel : BufSel) (r : Relay) : Prop :=
  (r.buf sel).wf
    ∧ accepted sel.dst r.log ++ (r.buf sel).content = init ++ received sel.src r.log

/-! ## Sample relay runs -/

/-- A session that has just entered the relay: both 16-byte buffers empty,
nothing ready, nothing logged. -/
def relay_start : Relay :=
  { s := mk_session (.pop3 .ngx_pop3_passwd) [] 16 false,
    client := { read_ready := false, read_eof := false, write_ready := false },
    upstream := { read_ready := false, read_eof := false, write_ready := false },
    client_timedout := false, closed := false, log := [] }

/-- A call in which no socket is asked anything and every re-arm succeeds. -/
def idle_pass (ev : Ev) : PassIO :=
  { ev := ev, timedout := false, close := false, iters := [], dst_write_ok := true,
    dst_read_ok := true, src_write_ok := true, src_read_ok := true }

/-- The client sends `QUIT`; upstream accepts four bytes, then the other two
when it is writable again. -/
def quit_run : List Fired :=
  [ { client_read_ready := true, client_write_ready := false, upstream_read_ready := false,
      upstream_write_ready := true,
      pass :=
        { idle_pass .client_read with
          iters :=
            [ { send := quiet.send,
                recv := { r := .data (bytes "QUIT\r\n"), ready := false, eof := false } },
              { send := { n := 4, ready := false }, recv := quiet.recv } ] } },
    { client_read_ready := false, client_write_ready := false, upstream_read_ready := false,
      upstream_write_ready := true,
      pass :=
        { idle_pass .upstream_write with
          iters := [ { send := { n := 2, ready := true }, recv := quiet.recv } ] } } ]

/-- A call for an upstream read event in which nothing is ready and the first
re-arm, `ngx_handle_write_event` on the client, fails. -/
def rearm_fails_pass : PassIO :=
  { idle_pass .upstream_read with dst_write_ok := false }

/-- Upstream sends `221 bye` while the client cannot be written to; then the
client closes its side: `recv` returns 0 and marks the end of input. -/
def client_fin_run : List Fired :=
  [ { client_read_ready := false, client_write_ready := false, upstream_read_ready := true,
      upstream_write_ready := false,
      pass :=
        { idle_pass .upstream_read with
          iters :=
            [ { send := quiet.send,
                recv := { r := .data (bytes "221 bye\r\n"), ready := false, eof := false } } ] } },
    { client_read_ready := true, client_write_ready := false, upstream_read_ready := false,
      upstream_write_ready := false,
      pass :=
        { idle_pass .client_read with
          iters := [ { send := quiet.send, recv := { r := .data [], ready := false, eof := true } } ] } } ]

/-- The relay after the first call of `client_fin_run`, with the flags as the
event loop sets them for the second. -/
def client_fin_relay : Relay :=
  (relay_run relay_start (client_fin_run.take 1)).fire
    { client_read_ready := true, client_write_ready := false, upstream_read_ready := false,
      upstream_write_ready := false, pass := idle_pass .client_read }

/-- The second call of `client_fin_run`. -/
def client_fin_pass : PassIO :=
  { idle_pass .client_read with
    iters := [ { send := quiet.send, recv := { r := .data [], ready := false, eof := true } } ] }

/-! ## The codes the SMTP states require -/

/-- The spec's table of the three-digit code each SMTP state requires of a
reply (`smtp_to` accepts every code; the states the table does not list accept
none). -/
def smtp_code_required : ngx_smtp_state_e → List Nat → Prop
  | .ngx_smtp_start, c => c = bytes "220"
  | .ngx_smtp_helo, c => c = bytes "250"
  | .ngx_smtp_helo_xclient, c => c = bytes "250"
  | .ngx_smtp_helo_from, c => c = bytes "250"
  | .ngx_smtp_from, c => c = bytes "250"
  | .ngx_smtp_xclient, c => c = bytes "220" ∨ c = bytes "250"
  | .ngx_smtp_xclient_from, c => c = bytes "220" ∨ c = bytes "250"
  | .ngx_smtp_xclient_helo, c => c = bytes "220" ∨ c = bytes "250"
  | .ngx_smtp_auth_login, c => c = bytes "334"
  | .ngx_smtp_auth_username, c => c = bytes "334"
  | .ngx_smtp_auth_plain, c => c = bytes "235"
  | .ngx_smtp_auth_password, c => c = bytes "235"
  | .ngx_smtp_data, c => c = bytes "354"
  | .ngx_smtp_to, _ => True
  | _, _ => False

instance smtp_code_required_decidable (st : ngx_smtp_state_e) (c : List Nat) :
    Decidable (smtp_code_required st c) := by
  cases st <;> unfold smtp_code_required <;> infer_instance

/-! ## Sample multiline replies -/

/-- A session in SMTP state `smtp_to` with a 64-byte upstream buffer. -/
def smtp_to_cap64 : ngx_mail_session_t := mk_session (.smtp .ngx_smtp_to) [] 64 false

/-! ## A sample buffer for the tag scan -/

/-- A buffer holding an untagged line and the tagged result. -/
def imap_capability_buf : ngx_buf_t :=
  recv_buf (empty_buf 64) (bytes "* CAPABILITY IMAP4rev1\r\na001 OK\r\n")

/-! ## The handler of the session's protocol -/

/-- The read handler that `ngx_mail_proxy_set_handler` installs on the upstream
connection for the protocol of the session, called on the session. -/
def auth_handler (s : ngx_mail_session_t) (io : HandlerIO) : Option ngx_mail_session_t :=
  match s.mail_state with
  | .pop3 _ => ngx_mail_proxy_pop3_handler s io
  | .imap _ => ngx_mail_proxy_imap_handler s io
  | .smtp _ => ngx_mail_proxy_smtp_handler s io

/-- The switch of the handler of the session's protocol, entered after the
reply was classified `NGX_OK`. -/
def auth_on_ok (s : ngx_mail_session_t) (io : HandlerIO) : ngx_mail_session_t :=
  match s.mail_state with
  | .pop3 _ => pop3_on_ok s io
  | .imap _ => imap_on_ok s io
  | .smtp _ => smtp_on_ok s io

/-! ## The first relay call after a login -/

/-- The relay as the POP3 login of Scenario 1 leaves it, the client writable:
the session `pop3_alice_3`, whose upstream buffer holds `+OK logged in`. -/
def relay_after_login : Relay :=
  { s := pop3_alice_3,
    client := { read_ready := false, read_eof := false, write_ready := true },
    upstream := { read_ready := true, read_eof := false, write_ready := true },
    client_timedout := false, closed := false, log := [] }

/-- The first call of the relay handler after login, for the client write
event: the client takes the fifteen bytes and upstream has nothing more yet. -/
def first_pass : PassIO :=
  { idle_pass .client_write with
    iters := [ { send := { n := 15, ready := true },
                 recv := { r := .again, ready := false, eof := false } } ] }

/-! ## The bytes the classifier reads -/

/-- Modelled from the spec: the addresses of the buffer that
`strncmp(p, tag, n)` reads, byte by byte up to and including the first one that
differs from the tag or is a NUL. -/
def ngx_strncmp_reads (mem : Nat → Nat) : Nat → List Nat → List Nat
  | _, [] => []
  | p, t :: ts =>
    p :: (if mem p ≠ t then [] else if t = 0 then [] else ngx_strncmp_reads mem (p + 1) ts)

/-- Modelled from the spec: the addresses `strstr(p, "\n")` reads when it
searches the `n` bytes from `p`: up to and including the first line feed or NUL;
a search that finds neither in the `n` bytes reads the byte after them. -/
def strstr_nl_reads (mem : Nat → Nat) : Nat → Nat → List Nat
  | p, 0 => [p]
  | p, n + 1 =>
    p :: (if mem p = LF then [] else if mem p = 0 then [] else strstr_nl_reads mem (p + 1) n)

/-- The addresses the loop of case `ngx_imap_passwd` reads, for at most `fuel`
iterations from `p`: those of `ngx_strncmp`; after a match `p[0]` and, if it is
`O`, `p[1]`; otherwise those of `strstr`. -/
def imap_passwd_scan_reads (mem : Nat → Nat) (tag : List Nat) (last : Nat) :
    Nat → Nat → List Nat
  | 0, _ => []
  | fuel + 1, p =>
    if p < last then
      ngx_strncmp_reads mem p tag ++
        (if ngx_strncmp_eq mem p tag then
          (p + tag.length) ::
            ((if mem (p + tag.length) = 'O'.toNat then [p + tag.length + 1] else []) ++
              (if mem (p + tag.length) = 'O'.toNat ∧ mem (p + tag.length + 1) = 'K'.toNat then []
                else imap_passwd_scan_reads mem tag last fuel (p + tag.length)))
        else
          strstr_nl_reads mem p (last - p) ++
            (match strstr_nl mem p (last - p) with
             | .found q => imap_passwd_scan_reads mem tag last fuel (q + 1)
             | _ => []))
    else []

/-- The addresses the loop `while (m > p)` of the SMTP multiline check reads,
from `m` downwards: `m[0]` and, if it is CR, `m[1]`. -/
def smtp_scan_back_reads (mem : Nat → Nat) (p : Nat) : Nat → List Nat
  | 0 => []
  | m + 1 =>
    if m + 1 > p then
      (m + 1) ::
        ((if mem (m + 1) = CR then [m + 2] else []) ++
          (if mem (m + 1) = CR ∧ mem (m + 2) = LF then [] else smtp_scan_back_reads mem p m))
    else []

/-- The addresses a test `p[0] == c0 && p[1] == c1 && p[2] == ...` reads. -/
def three_reads (mem : Nat → Nat) (p c0 c1 : Nat) : List Nat :=
  p :: (if mem p = c0 then (p + 1) :: (if mem (p + 1) = c1 then [p + 2] else []) else [])

/-- The addresses the `switch (state)` of the SMTP branch reads at `p`. -/
def smtp_state_reads (mem : Nat → Nat) (p : Nat) : ngx_smtp_state_e → List Nat
  | .ngx_smtp_start => three_reads mem p '2'.toNat '2'.toNat
  | .ngx_smtp_auth_login | .ngx_smtp_auth_username => three_reads mem p '3'.toNat '3'.toNat
  | .ngx_smtp_auth_plain | .ngx_smtp_auth_password => three_reads mem p '2'.toNat '3'.toNat
  | .ngx_smtp_data => three_reads mem p '3'.toNat '5'.toNat
  | .ngx_smtp_helo | .ngx_smtp_helo_xclient | .ngx_smtp_helo_from | .ngx_smtp_from =>
    three_reads mem p '2'.toNat '5'.toNat
  | .ngx_smtp_xclient | .ngx_smtp_xclient_from | .ngx_smtp_xclient_helo =>
    p :: (if mem p = '2'.toNat then
      (p + 1) :: (if mem (p + 1) = '2'.toNat ∨ mem (p + 1) = '5'.toNat then [p + 2] else [])
      else [])
  | _ => []

/-- The addresses the `switch (s->protocol)` of `ngx_mail_proxy_read_response`
reads, on a buffer that holds at least four bytes ending in CR LF. -/
def classify_reads (st : MailState) (tag : List Nat) (b : ngx_buf_t) : List Nat :=
  let p := b.pos
  match st with
  | .pop3 _ => three_reads b.mem p '+'.toNat 'O'.toNat
  | .imap .ngx_imap_start =>
    p :: (if b.mem p = '*'.toNat then
      (p + 1) :: (if b.mem (p + 1) = ' '.toNat then
        (p + 2) :: (if b.mem (p + 2) = 'O'.toNat then [p + 3] else []) else []) else [])
  | .imap .ngx_imap_login | .imap .ngx_imap_user => [p]
  | .imap .ngx_imap_passwd =>
    imap_passwd_scan_reads b.mem tag b.last (b.last - b.pos + 1) p
  | .imap .other => []
  | .smtp state =>
    (p + 3) ::
      ((if b.mem (p + 3) = '-'.toNat then
          smtp_scan_back_reads b.mem p (b.last - 7) ++
            (if smtp_scan_back b.mem p (b.last - 7) ≤ p then []
              else [smtp_scan_back b.mem p (b.last - 7) + 5])
        else []) ++
      (if b.mem (p + 3) = '-'.toNat ∧
          (smtp_scan_back b.mem p (b.last - 7) ≤ p
            ∨ b.mem (smtp_scan_back b.mem p (b.last - 7) + 5) = '-'.toNat) then []
        else smtp_state_reads b.mem p state))

/-- A buffer holding the multiline reply `250-gw` / `250 ok`. -/
def smtp_multiline_buf : ngx_buf_t :=
  recv_buf (empty_buf 64) (bytes "250-gw\r\n250 ok\r\n")

/-! ## Log messages -/

/-- The log messages among the calls of a trace, in order. -/
def logged : List Event → List Event
  | [] => []
  | .log_error fmt arg :: rest => .log_error fmt arg :: logged rest
  | .log_fixed msg :: rest => .log_fixed msg :: logged rest
  | _ :: rest => logged rest

theorem mem_read_length (mem : Nat → Nat) (p n : Nat) : (mem_read mem p n).length = n := by
  simp [mem_read]

theorem mem_read_succ (mem : Nat → Nat) (p n : Nat) :
    mem_read mem p (n + 1) = mem_read mem p n ++ [mem (p + n)] := by
  simp [mem_read, List.range_succ]

theorem mem_read_cons (mem : Nat → Nat) (p n : Nat) :
    mem_read mem p (n + 1) = mem p :: mem_read mem (p + 1) n := by
  simp only [mem_read, List.range_succ_eq_map, List.map_cons, List.map_map, Nat.add_zero]
  congr 1
  apply List.map_congr_left
  intro i _
  simp only [Function.comp, Nat.succ_eq_add_one]
  congr 1
  omega

theorem mem_has_iff_read (mem : Nat → Nat) (l : List Nat) (p : Nat) :
    mem_has mem p l ↔ mem_read mem p l.length = l := by
  induction l generalizing p with
  | nil => simp [mem_has, mem_read]
  | cons x xs ih =>
    simp only [mem_has, List.length_cons, mem_read_cons, List.cons.injEq, ih]

theorem mem_has_append (mem : Nat → Nat) (l1 l2 : List Nat) (p : Nat) :
    mem_has mem p (l1 ++ l2) ↔ mem_has mem p l1 ∧ mem_has mem (p + l1.length) l2 := by
  induction l1 generalizing p with
  | nil => simp [mem_has]
  | cons x xs ih =>
    have e : p + 1 + xs.length = p + (xs.length + 1) := by omega
    have h := ih (p + 1)
    rw [e] at h
    show (mem p = x ∧ mem_has mem (p + 1) (xs ++ l2)) ↔ _
    rw [h]
    simp only [mem_has, List.length_cons, and_assoc]

theorem content_length (b : ngx_buf_t) : b.content.length = b.last - b.pos := by
  simp [ngx_buf_t.content, mem_read_length]

theorem content_mem_has (b : ngx_buf_t) (R : List Nat) (h : b.content = R) :
    mem_has b.mem b.pos R ∧ b.last - b.pos = R.length := by
  have hl : b.last - b.pos = R.length := by rw [← h, content_length]
  refine ⟨?_, hl⟩
  rw [mem_has_iff_read, ← hl]
  exact h

/-! ## Reduction of the classifier on complete and incomplete buffers -/

theorem crlf_suffix_iff (b : ngx_buf_t) (h2 : 2 ≤ b.last - b.pos) :
    CRLF <:+ b.content ↔ (b.mem (b.last - 2) = CR ∧ b.mem (b.last - 1) = LF) := by
  obtain ⟨k, hk⟩ : ∃ k, b.last - b.pos = k + 2 := ⟨b.last - b.pos - 2, by omega⟩
  have e1 : b.last - 2 = b.pos + k := by omega
  have e2 : b.last - 1 = b.pos + (k + 1) := by omega
  have hc : b.content = mem_read b.mem b.pos k ++ [b.mem (b.pos + k), b.mem (b.pos + (k + 1))] := by
    simp only [ngx_buf_t.content, hk]
    rw [mem_read_succ, mem_read_succ]
    simp
  rw [hc, e1, e2]
  constructor
  · rintro ⟨t, ht⟩
    have h := (List.append_inj' ht (by simp [CRLF])).2
    simp only [CRLF, List.cons.injEq, and_true] at h
    exact ⟨h.1.symm, h.2.symm⟩
  · rintro ⟨h1, h2⟩
    exact ⟨mem_read b.mem b.pos k, by simp [CRLF, h1, h2]⟩

theorem read_rc_complete (s : ngx_mail_session_t) (d : List Nat) (hd : d ≠ [])
    (h4 : 4 ≤ (recv_buf s.proxy_buffer d).last - (recv_buf s.proxy_buffer d).pos)
    (hcr : (recv_buf s.proxy_buffer d).mem ((recv_buf s.proxy_buffer d).last - 2) = CR)
    (hlf : (recv_buf s.proxy_buffer d).mem ((recv_buf s.proxy_buffer d).last - 1) = LF) :
    read_rc s (.data d)
      = (classify s.mail_state s.tag (recv_buf s.proxy_buffer d)).map verdict_of := by
  cases d with
  | nil => exact absurd rfl hd
  | cons d0 ds =>
    simp only [read_rc, ngx_mail_proxy_read_response]
    rw [if_neg (by omega)]
    rw [if_neg (by simp [hcr, hlf])]
    cases hc : classify s.mail_state s.tag (recv_buf s.proxy_buffer (d0 :: ds)) with
    | none => simp
    | some c =>
      cases c with
      | ok => simp [verdict_of]
      | again => simp [verdict_of]
      | no_match p ec =>
        cases ec <;> cases hp : s.pass_error_message <;> simp [verdict_of]

theorem read_response_short (s : ngx_mail_session_t) (d : List Nat) (hd : d ≠ [])
    (h : (recv_buf s.proxy_buffer d).last - (recv_buf s.proxy_buffer d).pos < 4) :
    ngx_mail_proxy_read_response s (.data d) = some (.NGX_AGAIN, stored s d) := by
  cases d with
  | nil => exact absurd rfl hd
  | cons d0 ds =>
    simp only [ngx_mail_proxy_read_response]
    rw [if_pos h]
    rfl

theorem read_response_no_crlf (s : ngx_mail_session_t) (d : List Nat) (hd : d ≠ [])
    (h4 : 4 ≤ (recv_buf s.proxy_buffer d).last - (recv_buf s.proxy_buffer d).pos)
    (hn : ¬ CRLF <:+ (recv_buf s.proxy_buffer d).content) :
    (ngx_mail_proxy_read_response s (.data d)).map Prod.fst
        = some (if (recv_buf s.proxy_buffer d).last = (recv_buf s.proxy_buffer d).end_
            then Rc.NGX_ERROR else Rc.NGX_AGAIN)
      ∧ ((recv_buf s.proxy_buffer d).last ≠ (recv_buf s.proxy_buffer d).end_ →
          ngx_mail_proxy_read_response s (.data d) = some (.NGX_AGAIN, stored s d)) := by
  rw [crlf_suffix_iff _ (by omega)] at hn
  cases d with
  | nil => exact absurd rfl hd
  | cons d0 ds =>
    simp only [ngx_mail_proxy_read_response]
    rw [if_neg (by omega)]
    have hn2 : (recv_buf s.proxy_buffer (d0 :: ds)).mem ((recv_buf s.proxy_buffer (d0 :: ds)).last - 2) ≠ CR
        ∨ (recv_buf s.proxy_buffer (d0 :: ds)).mem ((recv_buf s.proxy_buffer (d0 :: ds)).last - 1) ≠ LF := by
      by_contra hc
      push_neg at hc
      exact hn hc
    rw [if_pos hn2]
    constructor
    · split <;> rfl
    · intro hne
      rw [if_neg hne]
      rfl

theorem content_head4 (b : ngx_buf_t) (r0 r1 r2 r3 : Nat) (rest : List Nat)
    (h : b.content = r0 :: r1 :: r2 :: r3 :: rest) :
    b.mem b.pos = r0 ∧ b.mem (b.pos + 1) = r1 ∧ b.mem (b.pos + 2) = r2
      ∧ b.mem (b.pos + 3) = r3 := by
  have hm := (content_mem_has b _ h).1
  simp only [mem_has] at hm
  exact ⟨hm.1, hm.2.1, hm.2.2.1, hm.2.2.2.1⟩

/-- A complete reply: the verdict is the one the protocol switch gives. -/
theorem read_rc_of_content (s : ngx_mail_session_t) (d R : List Nat) (hd : d ≠ [])
    (hR : (recv_buf s.proxy_buffer d).content = R) (hlen : 4 ≤ R.length)
    (hcrlf : CRLF <:+ R) :
    read_rc s (.data d)
      = (classify s.mail_state s.tag (recv_buf s.proxy_buffer d)).map verdict_of := by
  have hl := (content_mem_has _ R hR).2
  have h4 : 4 ≤ (recv_buf s.proxy_buffer d).last - (recv_buf s.proxy_buffer d).pos := by omega
  rw [← hR, crlf_suffix_iff _ (by omega)] at hcrlf
  exact read_rc_complete s d hd h4 hcrlf.1 hcrlf.2

/-! ## C1: incomplete and overlong replies -/

/-- C1 (as stated, refuted): a three-byte buffer that `abc` fills is full and
does not end in CR LF, yet the result is AGAIN, not ERROR. -/
theorem C1_full_short_buffer_again :
    (recv_buf pop3_cap3.proxy_buffer (bytes "abc")).last
        = (recv_buf pop3_cap3.proxy_buffer (bytes "abc")).end_
      ∧ ¬ CRLF <:+ (recv_buf pop3_cap3.proxy_buffer (bytes "abc")).content
      ∧ read_rc pop3_cap3 (.data (bytes "abc")) = some .NGX_AGAIN := by
  refine ⟨by decide, by decide, by decide⟩

/-- C1 (amended): after `n > 0` bytes were appended, if at least four bytes are
accumulated, the buffer is full and the bytes do not end in CR LF, the result is
ERROR; if fewer than four bytes are accumulated, or the buffer is not full and
the bytes do not end in CR LF, the result is AGAIN and the session is only
changed by the stored bytes (nothing is classified). -/
theorem C1_incomplete_reply (s : ngx_mail_session_t) (d : List Nat) (hd : d ≠ []) :
    (4 ≤ (recv_buf s.proxy_buffer d).content.length →
        (recv_buf s.proxy_buffer d).last = (recv_buf s.proxy_buffer d).end_ →
        ¬ CRLF <:+ (recv_buf s.proxy_buffer d).content →
        read_rc s (.data d) = some .NGX_ERROR)
      ∧ ((recv_buf s.proxy_buffer d).content.length < 4
          ∨ ((recv_buf s.proxy_buffer d).last ≠ (recv_buf s.proxy_buffer d).end_
              ∧ ¬ CRLF <:+ (recv_buf s.proxy_buffer d).content) →
        ngx_mail_proxy_read_response s (.data d) = some (.NGX_AGAIN, stored s d)) := by
  constructor
  · intro h4 hfull hn
    rw [content_length] at h4
    have h := (read_response_no_crlf s d hd h4 hn).1
    rw [if_pos hfull] at h
    exact h
  · intro h
    by_cases h4 : (recv_buf s.proxy_buffer d).last - (recv_buf s.proxy_buffer d).pos < 4
    · exact read_response_short s d hd h4
    · rcases h with h | ⟨hne, hn⟩
      · rw [content_length] at h
        exact absurd h h4
      · exact (read_response_no_crlf s d hd (by omega) hn).2 hne

/-- C1 witness: `abcd` fills a four-byte buffer without CR LF and gives ERROR. -/
theorem C1_incomplete_reply_witness :
    bytes "abcd" ≠ [] ∧ read_rc pop3_cap4 (.data (bytes "abcd")) = some .NGX_ERROR :=
  ⟨by decide,
    (C1_incomplete_reply pop3_cap4 (bytes "abcd") (by decide)).1
      (by decide) (by decide) (by decide)⟩

/-! ## C2: POP3 and the one-line IMAP states -/

/-- C2: for a complete reply `R` (at least four bytes, ending in CR LF), under
POP3 in any state the verdict is OK iff `R` starts with `+OK` and ERROR
otherwise; under IMAP in `ngx_imap_start` it is OK iff `R` starts with `* OK`,
and in `ngx_imap_login` and `ngx_imap_user` it is OK iff the first byte is `+`,
and ERROR otherwise. -/
theorem C2_pop3_imap_verdict (s : ngx_mail_session_t) (d R : List Nat) (hd : d ≠ [])
    (hR : (recv_buf s.proxy_buffer d).content = R) (hlen : 4 ≤ R.length)
    (hcrlf : CRLF <:+ R) :
    (∀ st, s.mail_state = .pop3 st →
        read_rc s (.data d)
          = some (if R.take 3 = bytes "+OK" then .NGX_OK else .NGX_ERROR))
      ∧ (s.mail_state = .imap .ngx_imap_start →
        read_rc s (.data d)
          = some (if R.take 4 = bytes "* OK" then .NGX_OK else .NGX_ERROR))
      ∧ (s.mail_state = .imap .ngx_imap_login ∨ s.mail_state = .imap .ngx_imap_user →
        read_rc s (.data d)
          = some (if R.take 1 = bytes "+" then .NGX_OK else .NGX_ERROR)) := by
  have hrc := read_rc_of_content s d R hd hR hlen hcrlf
  match R, hlen, hR with
  | r0 :: r1 :: r2 :: r3 :: rest, _, hR =>
    obtain ⟨h0, h1, h2, h3⟩ := content_head4 _ _ _ _ _ _ hR
    have e3 : bytes "+OK" = [43, 79, 75] := by decide
    have e4 : bytes "* OK" = [42, 32, 79, 75] := by decide
    have e1 : bytes "+" = [43] := by decide
    refine ⟨?_, ?_, ?_⟩
    · intro st hst
      rw [hrc, hst]
      simp only [classify, h0, h1, h2, e3, List.take]
      by_cases c : r0 = 43 ∧ r1 = 79 ∧ r2 = 75
      · simp [c, verdict_of]
      · have c2 : ¬ ([r0, r1, r2] = [43, 79, 75]) := by simpa using c
        simp [c, c2, verdict_of]
    · intro hst
      rw [hrc, hst]
      simp only [classify, h0, h1, h2, h3, e4, List.take]
      by_cases c : r0 = 42 ∧ r1 = 32 ∧ r2 = 79 ∧ r3 = 75
      · simp [c, verdict_of]
      · have c2 : ¬ ([r0, r1, r2, r3] = [42, 32, 79, 75]) := by simpa using c
        simp [c, c2, verdict_of]
    · intro hst
      rw [hrc]
      rcases hst with hst | hst <;> rw [hst] <;>
        simp only [classify, h0, e1, List.take] <;>
        by_cases c : r0 = 43 <;> simp [c, verdict_of]

/-- C2 witness: `+OK ready` under POP3 is OK. -/
theorem C2_pop3_imap_verdict_witness :
    bytes "+OK ready\r\n" ≠ [] ∧
      read_rc pop3_cap64 (.data (bytes "+OK ready\r\n")) = some .NGX_OK :=
  ⟨by decide,
    (C2_pop3_imap_verdict pop3_cap64 (bytes "+OK ready\r\n") (bytes "+OK ready\r\n")
      (by decide) (by decide) (by decide) (by decide)).1 .ngx_pop3_start rfl⟩

/-! ## C3: single-line SMTP replies -/

/-- C3: for a complete single-line SMTP reply `R` (at least four bytes, ending
in CR LF, byte 3 not `-`) the verdict is OK iff the first three bytes are the
code the state requires, and ERROR otherwise: `smtp_start` 220; `smtp_helo`,
`smtp_helo_xclient`, `smtp_helo_from`, `smtp_from` 250; `smtp_xclient`,
`smtp_xclient_from`, `smtp_xclient_helo` 220 or 250; `smtp_auth_login`,
`smtp_auth_username` 334; `smtp_auth_plain`, `smtp_auth_password` 235;
`smtp_data` 354. -/
theorem C3_smtp_single_line_verdict (s : ngx_mail_session_t) (d R : List Nat)
    (st : ngx_smtp_state_e) (hd : d ≠ [])
    (hR : (recv_buf s.proxy_buffer d).content = R) (hlen : 4 ≤ R.length)
    (hcrlf : CRLF <:+ R) (hsingle : R.getD 3 0 ≠ '-'.toNat)
    (hst : s.mail_state = .smtp st) :
    (st = .ngx_smtp_start →
        read_rc s (.data d)
          = some (if R.take 3 = bytes "220" then .NGX_OK else .NGX_ERROR))
      ∧ (st ∈ [.ngx_smtp_helo, .ngx_smtp_helo_xclient, .ngx_smtp_helo_from, .ngx_smtp_from] →
        read_rc s (.data d)
          = some (if R.take 3 = bytes "250" then .NGX_OK else .NGX_ERROR))
      ∧ (st ∈ [.ngx_smtp_xclient, .ngx_smtp_xclient_from, .ngx_smtp_xclient_helo] →
        read_rc s (.data d)
          = some (if R.take 3 = bytes "220" ∨ R.take 3 = bytes "250" then .NGX_OK
              else .NGX_ERROR))
      ∧ (st ∈ [.ngx_smtp_auth_login, .ngx_smtp_auth_username] →
        read_rc s (.data d)
          = some (if R.take 3 = bytes "334" then .NGX_OK else .NGX_ERROR))
      ∧ (st ∈ [.ngx_smtp_auth_plain, .ngx_smtp_auth_password] →
        read_rc s (.data d)
          = some (if R.take 3 = bytes "235" then .NGX_OK else .NGX_ERROR))
      ∧ (st = .ngx_smtp_data →
        read_rc s (.data d)
          = some (if R.take 3 = bytes "354" then .NGX_OK else .NGX_ERROR)) := by
  have hrc := read_rc_of_content s d R hd hR hlen hcrlf
  match R, hlen, hR, hsingle with
  | r0 :: r1 :: r2 :: r3 :: rest, _, hR, hsingle =>
    obtain ⟨h0, h1, h2, h3⟩ := content_head4 _ _ _ _ _ _ hR
    have hdash : ¬ r3 = 45 := by simpa using hsingle
    have e220 : bytes "220" = [50, 50, 48] := by decide
    have e250 : bytes "250" = [50, 53, 48] := by decide
    have e334 : bytes "334" = [51, 51, 52] := by decide
    have e235 : bytes "235" = [50, 51, 53] := by decide
    have e354 : bytes "354" = [51, 53, 52] := by decide
    have c2 : ('2'.toNat = 50) := by decide
    have c3 : ('3'.toNat = 51) := by decide
    have c4 : ('4'.toNat = 52) := by decide
    have c5 : ('5'.toNat = 53) := by decide
    have c0 : ('0'.toNat = 48) := by decide
    have cd : ('-'.toNat = 45) := by decide
    rw [hrc, hst]
    simp only [classify, h0, h1, h2, h3, e220, e250, e334, e235, e354, List.take, cd]
    rw [if_neg (fun h => hdash h.1)]
    refine ⟨?_, ?_, ?_, ?_, ?_, ?_⟩
    · intro h
      subst h
      simp only [smtp_state_ok, h0, h1, h2, c2, c0]
      by_cases a0 : r0 = 50 <;> by_cases a1 : r1 = 50 <;> by_cases a2 : r2 = 48 <;>
        simp [a0, a1, a2, verdict_of]
    · intro h
      simp only [List.mem_cons, List.mem_singleton, List.not_mem_nil, or_false] at h
      rcases h with h | h | h | h <;> subst h <;>
        simp only [smtp_state_ok, h0, h1, h2, c2, c5, c0] <;>
        by_cases a0 : r0 = 50 <;> by_cases a1 : r1 = 53 <;> by_cases a2 : r2 = 48 <;>
        simp [a0, a1, a2, verdict_of]
    · intro h
      simp only [List.mem_cons, List.mem_singleton, List.not_mem_nil, or_false] at h
      rcases h with h | h | h <;> subst h <;>
        simp only [smtp_state_ok, h0, h1, h2, c2, c5, c0] <;>
        by_cases a0 : r0 = 50 <;> by_cases a1 : r1 = 53 <;> by_cases a1b : r1 = 50 <;>
        by_cases a2 : r2 = 48 <;>
        simp [a0, a1, a1b, a2, verdict_of]
    · intro h
      simp only [List.mem_cons, List.mem_singleton, List.not_mem_nil, or_false] at h
      rcases h with h | h <;> subst h <;>
        simp only [smtp_state_ok, h0, h1, h2, c3, c4] <;>
        by_cases a0 : r0 = 51 <;> by_cases a1 : r1 = 51 <;> by_cases a2 : r2 = 52 <;>
        simp [a0, a1, a2, verdict_of]
    · intro h
      simp only [List.mem_cons, List.mem_singleton, List.not_mem_nil, or_false] at h
      rcases h with h | h <;> subst h <;>
        simp only [smtp_state_ok, h0, h1, h2, c2, c3, c5] <;>
        by_cases a0 : r0 = 50 <;> by_cases a1 : r1 = 51 <;> by_cases a2 : r2 = 53 <;>
        simp [a0, a1, a2, verdict_of]
    · intro h
      subst h
      simp only [smtp_state_ok, h0, h1, h2, c3, c5, c4]
      by_cases a0 : r0 = 51 <;> by_cases a1 : r1 = 53 <;> by_cases a2 : r2 = 52 <;>
        simp [a0, a1, a2, verdict_of]

/-- C3 witness: `250 ok` in `smtp_helo` is OK. -/
theorem C3_smtp_single_line_verdict_witness :
    bytes "250 ok\r\n" ≠ [] ∧
      read_rc smtp_helo_cap64 (.data (bytes "250 ok\r\n")) = some .NGX_OK :=
  ⟨by decide,
    (C3_smtp_single_line_verdict smtp_helo_cap64 (bytes "250 ok\r\n") (bytes "250 ok\r\n")
      .ngx_smtp_helo (by decide) (by decide) (by decide) (by decide) (by decide) rfl).2.1
      (by decide)⟩

/-! ## C4: multiline SMTP replies -/

theorem smtp_scan_back_le (mem : Nat → Nat) (p m0 : Nat)
    (h : ∀ m, p < m → m ≤ m0 → ¬ (mem m = CR ∧ mem (m + 1) = LF)) :
    smtp_scan_back mem p m0 ≤ p := by
  induction m0 with
  | zero => simp [smtp_scan_back]
  | succ m ih =>
    unfold smtp_scan_back
    by_cases hp : m + 1 > p
    · rw [if_pos hp, if_neg (h (m + 1) hp (le_refl _))]
      exact ih (fun k hk hkm => h k hk (by omega))
    · rw [if_neg hp]
      omega

theorem smtp_scan_back_eq (mem : Nat → Nat) (p c m0 : Nat) (hpc : p < c) (hc : c ≤ m0)
    (hpair : mem c = CR ∧ mem (c + 1) = LF)
    (h : ∀ m, c < m → m ≤ m0 → ¬ (mem m = CR ∧ mem (m + 1) = LF)) :
    smtp_scan_back mem p m0 = c := by
  induction m0 with
  | zero => omega
  | succ m ih =>
    unfold smtp_scan_back
    rw [if_pos (by omega)]
    by_cases hm : m + 1 = c
    · have hpair2 : mem (m + 1) = CR ∧ mem (m + 2) = LF := by
        rw [← hm] at hpair
        exact hpair
      rw [if_pos hpair2]
      exact hm
    · rw [if_neg (h (m + 1) (by omega) (le_refl _))]
      exact ih (by omega) (fun k hk hkm => h k hk (by omega))

theorem mem_has_get (mem : Nat → Nat) (l : List Nat) (q j : Nat) (h : mem_has mem q l)
    (hj : j < l.length) : mem (q + j) ∈ l := by
  induction l generalizing q j with
  | nil => simp at hj
  | cons x xs ih =>
    cases j with
    | zero => simp [h.1]
    | succ j =>
      have := ih (q + 1) j h.2 (by simpa using hj)
      have e : q + (j + 1) = q + 1 + j := by omega
      rw [e]
      exact List.mem_cons_of_mem _ this

theorem mem_has_getD (mem : Nat → Nat) (l : List Nat) (q j : Nat) (h : mem_has mem q l)
    (hj : j < l.length) : mem (q + j) = l.getD j 0 := by
  induction l generalizing q j with
  | nil => simp at hj
  | cons x xs ih =>
    cases j with
    | zero => simp [h.1]
    | succ j =>
      have := ih (q + 1) j h.2 (by simpa using hj)
      have e : q + (j + 1) = q + 1 + j := by omega
      rw [e, this]
      simp

/-- The backward scan stops at the CR LF that ends the line before the last
one. -/
theorem scan_back_multi (mem : Nat → Nat) (pos last : Nat) (pre head : List Nat)
    (hpre : 1 ≤ pre.length) (hhead : 4 ≤ head.length) (hLF : LF ∉ head)
    (hm : mem_has mem pos (pre ++ ([CR, LF] ++ (head ++ [CR, LF]))))
    (hlast : last = pos + (pre.length + 2 + head.length + 2)) :
    smtp_scan_back mem pos (last - 7) = pos + pre.length
      ∧ mem (pos + pre.length + 5) = head.getD 3 0 := by
  rw [mem_has_append, mem_has_append, mem_has_append] at hm
  obtain ⟨_, hcr, hh, _⟩ := hm
  simp only [mem_has, List.length_cons, List.length_nil] at hcr
  constructor
  · apply smtp_scan_back_eq
    · omega
    · omega
    · exact ⟨hcr.1, hcr.2.1⟩
    · intro m hm1 hm2 hpair
      have hj : m + 1 - (pos + pre.length + 2) < head.length := by omega
      have := mem_has_get mem head (pos + pre.length + (0 + 1 + 1)) _ hh hj
      have e : pos + pre.length + (0 + 1 + 1) + (m + 1 - (pos + pre.length + 2)) = m + 1 := by
        omega
      rw [e, hpair.2] at this
      exact hLF this
  · have := mem_has_getD mem head (pos + pre.length + (0 + 1 + 1)) 3 hh (by omega)
    have e : pos + pre.length + (0 + 1 + 1) + 3 = pos + pre.length + 5 := by omega
    rw [e] at this
    exact this

/-- With a single line in the buffer the backward scan runs down to `p`. -/
theorem scan_back_single (mem : Nat → Nat) (pos last : Nat) (head : List Nat)
    (hhead : 4 ≤ head.length) (hLF : LF ∉ head)
    (hm : mem_has mem pos (head ++ [CR, LF]))
    (hlast : last = pos + (head.length + 2)) :
    smtp_scan_back mem pos (last - 7) ≤ pos := by
  rw [mem_has_append] at hm
  apply smtp_scan_back_le
  intro m hm1 hm2 hpair
  have hj : m + 1 - pos < head.length := by omega
  have := mem_has_get mem head pos _ hm.1 hj
  have e : pos + (m + 1 - pos) = m + 1 := by omega
  rw [e, hpair.2] at this
  exact hLF this

theorem smtp_line_head (sep : Nat) (l : List Nat × List Nat) (hwf : smtp_line_wf l)
    (hsep : sep ≠ LF) :
    smtp_line sep l = (l.1 ++ sep :: l.2) ++ [CR, LF]
      ∧ 4 ≤ (l.1 ++ sep :: l.2).length ∧ LF ∉ (l.1 ++ sep :: l.2)
      ∧ (l.1 ++ sep :: l.2).getD 3 0 = sep := by
  obtain ⟨h3, hdig, htext⟩ := hwf
  refine ⟨by simp [smtp_line], ?_, ?_, ?_⟩
  · simp only [List.length_append, List.length_cons, h3]
    omega
  · intro hmem
    rcases List.mem_append.1 hmem with h | h
    · have := hdig _ h
      simp [LF] at this
    · rcases List.mem_cons.1 h with h | h
      · exact hsep h.symm
      · exact htext h
  · match l.1, h3 with
    | [a, b, c], _ => simp

theorem smtp_dashed_append (ls : List (List Nat × List Nat)) (l : List Nat × List Nat) :
    smtp_dashed (ls ++ [l]) = smtp_dashed ls ++ smtp_line '-'.toNat l := by
  induction ls with
  | nil => simp [smtp_dashed]
  | cons x xs ih => simp [smtp_dashed, ih]

theorem smtp_dashed_end (ls : List (List Nat × List Nat)) (hne : ls ≠ [])
    (hwf : ∀ l ∈ ls, smtp_line_wf l) :
    ∃ pre, smtp_dashed ls = pre ++ [CR, LF] ∧ 4 ≤ pre.length
      ∧ pre.getD 3 0 = '-'.toNat := by
  induction ls with
  | nil => exact absurd rfl hne
  | cons x xs ih =>
    have hx := smtp_line_head '-'.toNat x (hwf x (List.mem_cons_self _ _)) (by decide)
    by_cases hxs : xs = []
    · subst hxs
      refine ⟨x.1 ++ '-'.toNat :: x.2, ?_, hx.2.1, hx.2.2.2⟩
      simp only [smtp_dashed, List.append_nil, hx.1]
    · obtain ⟨pre, hpre, hlen, _⟩ := ih hxs (fun l hl => hwf l (List.mem_cons_of_mem _ hl))
      refine ⟨smtp_line '-'.toNat x ++ pre, ?_, ?_, ?_⟩
      · simp only [smtp_dashed, hpre, List.append_assoc]
      · simp only [List.length_append]
        omega
      · rw [hx.1]
        have h4 := hx.2.1
        rw [List.getD_eq_getElem?_getD, List.getElem?_append_left (by
          simp only [List.length_append] at h4 ⊢
          omega), List.getElem?_append_left (by omega), ← List.getD_eq_getElem?_getD]
        exact hx.2.2.2

/-- The protocol switch on a buffer `pre CR LF head CR LF` whose first line is
a `NNN-` line: AGAIN when the last line has `-` as its fourth byte, otherwise
the verdict of the state. -/
theorem classify_smtp_multi (b : ngx_buf_t) (tag pre head : List Nat) (st : ngx_smtp_state_e)
    (hpre : 4 ≤ pre.length) (hdash : pre.getD 3 0 = '-'.toNat)
    (hhead : 4 ≤ head.length) (hLF : LF ∉ head)
    (hR : b.content = pre ++ ([CR, LF] ++ (head ++ [CR, LF]))) :
    classify (.smtp st) tag b
      = if head.getD 3 0 = '-'.toNat then some .again
        else if smtp_state_ok b.mem b.pos st then some .ok
        else some (.no_match (some b.pos) false) := by
  obtain ⟨hm, hl⟩ := content_mem_has b _ hR
  have hlast : b.last = b.pos + (pre.length + 2 + head.length + 2) := by
    simp only [List.length_append, List.length_cons, List.length_nil] at hl
    omega
  obtain ⟨hscan, h5⟩ := scan_back_multi b.mem b.pos b.last pre head (by omega) hhead hLF hm hlast
  have h3 : b.mem (b.pos + 3) = '-'.toNat := by
    rw [mem_has_append] at hm
    rw [mem_has_getD b.mem pre b.pos 3 hm.1 (by omega), hdash]
  simp only [classify, hscan, h5, h3, true_and]
  by_cases hd : head.getD 3 0 = '-'.toNat
  · rw [if_pos (Or.inr hd), if_pos hd]
  · have : ¬ (b.pos + pre.length ≤ b.pos ∨ head.getD 3 0 = '-'.toNat) := by
      intro h
      rcases h with h | h
      · omega
      · exact hd h
    rw [if_neg this, if_neg hd]

/-- The protocol switch on a buffer holding the single line `NNN-text CR LF`. -/
theorem classify_smtp_single_dash (b : ngx_buf_t) (tag head : List Nat) (st : ngx_smtp_state_e)
    (hdash : head.getD 3 0 = '-'.toNat)
    (hhead : 4 ≤ head.length) (hLF : LF ∉ head)
    (hR : b.content = head ++ [CR, LF]) :
    classify (.smtp st) tag b = some .again := by
  obtain ⟨hm, hl⟩ := content_mem_has b _ hR
  have hlast : b.last = b.pos + (head.length + 2) := by
    simp only [List.length_append, List.length_cons, List.length_nil] at hl
    omega
  have hscan := scan_back_single b.mem b.pos b.last head hhead hLF hm hlast
  have h3 : b.mem (b.pos + 3) = '-'.toNat := by
    rw [mem_has_append] at hm
    rw [mem_has_getD b.mem head b.pos 3 hm.1 (by omega), hdash]
  simp only [classify, h3, true_and]
  rw [if_pos (Or.inl hscan)]

/-- C4: for every SMTP state and every buffer made of `k ≥ 1` lines
`NNN-text CR LF`, optionally followed by one final line `NNN text CR LF`, the
classifier returns AGAIN exactly when the final line is absent; when it is
present the reply is classified: the result is the verdict of the state on the
first three bytes, OK or ERROR. -/
theorem C4_smtp_multiline (s : ngx_mail_session_t) (d : List Nat) (st : ngx_smtp_state_e)
    (lines : List (List Nat × List Nat)) (final : Option (List Nat × List Nat))
    (hd : d ≠ []) (hst : s.mail_state = .smtp st) (hk : lines ≠ [])
    (hwf : ∀ l ∈ lines, smtp_line_wf l) (hfin : ∀ f, final = some f → smtp_line_wf f)
    (hR : (recv_buf s.proxy_buffer d).content = smtp_multiline lines final) :
    (read_rc s (.data d) = some .NGX_AGAIN ↔ final = none)
      ∧ (final ≠ none →
          read_rc s (.data d)
            = some (if smtp_state_ok (recv_buf s.proxy_buffer d).mem
                  (recv_buf s.proxy_buffer d).pos st then .NGX_OK else .NGX_ERROR)) := by
  cases final with
  | none =>
    simp only [smtp_multiline, List.append_nil] at hR
    refine ⟨⟨fun _ => rfl, fun _ => ?_⟩, fun h => absurd rfl h⟩
    rcases List.eq_nil_or_concat lines with h | ⟨ls, l, h⟩
    · exact absurd h hk
    · rw [List.concat_eq_append] at h
      subst h
      have hl := smtp_line_head '-'.toNat l (hwf l (by simp)) (by decide)
      rw [smtp_dashed_append, hl.1] at hR
      by_cases hls : ls = []
      · subst hls
        simp only [smtp_dashed, List.nil_append] at hR
        rw [read_rc_of_content s d _ hd hR (by
            have h4 := hl.2.1
            simp only [List.length_append, List.length_cons, List.length_nil] at h4 ⊢
            omega)
          ⟨_, rfl⟩, hst, classify_smtp_single_dash _ _ _ st hl.2.2.2 hl.2.1 hl.2.2.1 hR]
        rfl
      · obtain ⟨pre, hpre, hlen, hdash⟩ :=
          smtp_dashed_end ls hls (fun x hx => hwf x (by simp [hx]))
        rw [hpre, List.append_assoc] at hR
        rw [read_rc_of_content s d _ hd hR (by
            simp only [List.length_append, List.length_cons, List.length_nil]
            omega)
          ⟨pre ++ ([CR, LF] ++ (l.1 ++ '-'.toNat :: l.2)), by simp [CRLF]⟩, hst,
          classify_smtp_multi _ _ pre _ st hlen hdash hl.2.1 hl.2.2.1 hR, if_pos hl.2.2.2]
        rfl
  | some f =>
    have hf := smtp_line_head ' '.toNat f (hfin f rfl) (by decide)
    obtain ⟨pre, hpre, hlen, hdash⟩ := smtp_dashed_end lines hk hwf
    simp only [smtp_multiline] at hR
    rw [hpre, hf.1, List.append_assoc] at hR
    have hsp : ¬ (f.1 ++ ' '.toNat :: f.2).getD 3 0 = '-'.toNat := by
      rw [hf.2.2.2]
      decide
    have hrc := read_rc_of_content s d _ hd hR (by
      simp only [List.length_append, List.length_cons, List.length_nil]
      omega)
      ⟨pre ++ ([CR, LF] ++ (f.1 ++ ' '.toNat :: f.2)), by simp [CRLF]⟩
    rw [hst, classify_smtp_multi _ _ pre _ st hlen hdash hf.2.1 hf.2.2.1 hR, if_neg hsp] at hrc
    rw [hrc]
    by_cases hok : smtp_state_ok (recv_buf s.proxy_buffer d).mem
        (recv_buf s.proxy_buffer d).pos st = true
    · simp [hok, verdict_of]
    · simp [hok, verdict_of]

/-- C4 witness: `250-gw` followed by `250 AUTH PLAIN LOGIN` in `smtp_helo` is
OK, and `250-gw` alone is AGAIN. -/
theorem C4_smtp_multiline_witness :
    read_rc smtp_helo_cap64 (.data (bytes "250-gw\r\n250 AUTH PLAIN LOGIN\r\n")) = some .NGX_OK
      ∧ read_rc smtp_helo_cap64 (.data (bytes "250-gw\r\n")) = some .NGX_AGAIN :=
  ⟨(C4_smtp_multiline smtp_helo_cap64 (bytes "250-gw\r\n250 AUTH PLAIN LOGIN\r\n")
      .ngx_smtp_helo [(bytes "250", bytes "gw")] (some (bytes "250", bytes "AUTH PLAIN LOGIN"))
      (by decide) rfl (by decide) (by decide) (by decide) (by decide)).2 (by decide),
   (C4_smtp_multiline smtp_helo_cap64 (bytes "250-gw\r\n")
      .ngx_smtp_helo [(bytes "250", bytes "gw")] none
      (by decide) rfl (by decide) (by decide) (by decide) (by decide)).1.2 rfl⟩

/-! ## The tag scan of state `ngx_imap_passwd` -/

theorem imap_lines_length (cs : List (List Nat)) : 2 * cs.length ≤ (imap_lines cs).length := by
  induction cs with
  | nil => simp [imap_lines]
  | cons c cs ih =>
    simp only [imap_lines, List.length_append, List.length_cons, List.length_nil]
    omega

theorem imap_lines_end (cs : List (List Nat)) (hne : cs ≠ []) :
    ∃ pre, imap_lines cs = pre ++ [CR, LF] := by
  induction cs with
  | nil => exact absurd rfl hne
  | cons c cs ih =>
    by_cases h : cs = []
    · subst h
      exact ⟨c, by simp [imap_lines]⟩
    · obtain ⟨pre, hpre⟩ := ih h
      exact ⟨c ++ [CR, LF] ++ pre, by simp [imap_lines, hpre]⟩

theorem strncmp_eq_of_mem_has (mem : Nat → Nat) (tag : List Nat) (p : Nat)
    (h : mem_has mem p tag) : ngx_strncmp_eq mem p tag = true := by
  induction tag generalizing p with
  | nil => rfl
  | cons t ts ih =>
    unfold ngx_strncmp_eq
    rw [if_neg (by simp [h.1])]
    by_cases h0 : t = 0
    · rw [if_pos h0]
    · rw [if_neg h0]
      exact ih (p + 1) h.2

/-- A line that does not begin with the tag fails the comparison, as long as
the tag holds no line feed and the line no NUL. -/
theorem strncmp_ne_of_not_prefix (mem : Nat → Nat) (tag l : List Nat) (p : Nat)
    (hm : mem_has mem p (l ++ [LF])) (h0 : 0 ∉ l) (hLF : LF ∉ tag)
    (hpre : ¬ tag <+: l ++ [LF]) : ngx_strncmp_eq mem p tag = false := by
  induction tag generalizing l p with
  | nil => exact absurd (List.nil_prefix) hpre
  | cons t ts ih =>
    unfold ngx_strncmp_eq
    cases l with
    | nil =>
      have hp : mem p = LF := hm.1
      have : mem p ≠ t := by
        rw [hp]
        intro h
        exact hLF (by simp [h])
      rw [if_pos this]
    | cons x xs =>
      have hp : mem p = x := hm.1
      by_cases hx : x = t
      · have ht0 : ¬ t = 0 := by
          intro h
          apply h0
          rw [← h, ← hx]
          exact List.mem_cons_self _ _
        rw [if_neg (by simp [hp, hx]), if_neg ht0]
        apply ih xs (p + 1) hm.2
        · exact fun h => h0 (List.mem_cons_of_mem _ h)
        · exact fun h => hLF (List.mem_cons_of_mem _ h)
        · intro h
          apply hpre
          rw [hx]
          exact (List.prefix_cons_inj t).2 h
      · rw [if_pos (by simp [hp, hx])]

theorem strstr_nl_found (mem : Nat → Nat) (l : List Nat) (p n : Nat)
    (hm : mem_has mem p (l ++ [LF])) (h0 : 0 ∉ l) (hLF : LF ∉ l) (hn : l.length < n) :
    strstr_nl mem p n = .found (p + l.length) := by
  induction l generalizing p n with
  | nil =>
    cases n with
    | zero => simp at hn
    | succ n =>
      unfold strstr_nl
      rw [if_pos hm.1]
      rfl
  | cons x xs ih =>
    cases n with
    | zero => simp at hn
    | succ n =>
      unfold strstr_nl
      have hp : mem p = x := hm.1
      rw [if_neg (by
        rw [hp]
        intro h
        exact hLF (by simp [h])), if_neg (by
        rw [hp]
        intro h
        exact h0 (by simp [h]))]
      rw [ih (p + 1) n hm.2 (fun h => h0 (List.mem_cons_of_mem _ h))
        (fun h => hLF (List.mem_cons_of_mem _ h)) (by simpa using hn)]
      simp only [List.length_cons]
      congr 1
      omega

/-- The scan steps over untagged lines, one iteration each, and sets
`expect_chunk`. -/
theorem scan_skip_lines (mem : Nat → Nat) (tag : List Nat) (last : Nat) (hLF : LF ∉ tag)
    (cs : List (List Nat)) (hwf : ∀ c ∈ cs, untagged_line tag c) (p fuel : Nat)
    (expect_chunk : Bool) (hm : mem_has mem p (imap_lines cs))
    (hb : p + (imap_lines cs).length ≤ last) :
    imap_passwd_scan mem tag last (fuel + cs.length) p expect_chunk
      = imap_passwd_scan mem tag last fuel (p + (imap_lines cs).length)
          (expect_chunk || !cs.isEmpty) := by
  induction cs generalizing p expect_chunk with
  | nil => simp [imap_lines]
  | cons c cs ih =>
    obtain ⟨hcLF, hc0, hcpre⟩ := hwf c (List.mem_cons_self _ _)
    simp only [imap_lines, List.length_append, List.length_cons, List.length_nil] at hb
    simp only [imap_lines] at hm
    rw [mem_has_append] at hm
    obtain ⟨hline, hrest⟩ := hm
    have hline2 : mem_has mem p ((c ++ [CR]) ++ [LF]) := by simpa using hline
    have hlt : p < last := by omega
    have h0' : 0 ∉ c ++ [CR] := by
      intro h
      rcases List.mem_append.1 h with h | h
      · exact hc0 h
      · simp [CR] at h
    have hLF' : LF ∉ c ++ [CR] := by
      intro h
      rcases List.mem_append.1 h with h | h
      · exact hcLF h
      · simp [CR, LF] at h
    have hpre' : ¬ tag <+: (c ++ [CR]) ++ [LF] := by
      rw [List.append_assoc]
      exact hcpre
    have hlen' : (c ++ [CR]).length < last - p := by
      simp only [List.length_append, List.length_cons, List.length_nil]
      omega
    have hcmp : ngx_strncmp_eq mem p tag = false :=
      strncmp_ne_of_not_prefix mem tag (c ++ [CR]) p hline2 h0' hLF hpre'
    have hstr : strstr_nl mem p (last - p) = .found (p + (c ++ [CR]).length) :=
      strstr_nl_found mem (c ++ [CR]) p (last - p) hline2 h0' hLF' hlen'
    have e : fuel + (c :: cs).length = (fuel + cs.length) + 1 := by
      simp only [List.length_cons]
      omega
    rw [e, imap_passwd_scan, if_pos hlt, hcmp]
    simp only [Bool.false_eq_true, if_false, hstr]
    have e2 : p + (c ++ [CR]).length + 1 = p + (c ++ [CR, LF]).length := by
      simp only [List.length_append, List.length_cons, List.length_nil]
      omega
    have hb2 : p + (c ++ [CR, LF]).length + (imap_lines cs).length ≤ last := by
      simp only [List.length_append, List.length_cons, List.length_nil]
      omega
    rw [e2, ih (fun x hx => hwf x (List.mem_cons_of_mem _ hx)) _ true hrest hb2]
    simp only [imap_lines, List.length_append, List.length_cons, List.length_nil,
      Bool.true_or, List.isEmpty_cons, Bool.not_false, Bool.or_true]
    congr 1
    omega

theorem scan_tag_ok (mem : Nat → Nat) (tag rest : List Nat) (last p fuel : Nat)
    (expect_chunk : Bool) (hlt : p < last)
    (hm : mem_has mem p (tag ++ (bytes "OK" ++ rest))) :
    imap_passwd_scan mem tag last (fuel + 1) p expect_chunk = some .ok := by
  rw [mem_has_append] at hm
  have hok : bytes "OK" = [79, 75] := by decide
  rw [hok] at hm
  have hO : mem (p + tag.length) = 'O'.toNat := hm.2.1
  have hK : mem (p + tag.length + 1) = 'K'.toNat := hm.2.2.1
  rw [imap_passwd_scan, if_pos hlt, strncmp_eq_of_mem_has mem tag p hm.1]
  simp only [if_true, hO, hK, and_self]

theorem classify_imap_passwd (tag : List Nat) (b : ngx_buf_t) :
    classify (.imap .ngx_imap_passwd) tag b
      = match imap_passwd_scan b.mem tag b.last (b.last - b.pos + 1) b.pos false with
        | none => none
        | some .ok => some .ok
        | some (.fell q expect_chunk) => some (.no_match q expect_chunk) := rfl

/-! ## C5: untagged lines before the tagged result -/

/-- C5 (as stated, refuted): with the non-empty tag `a CR LF b CR LF` the two
untagged lines `a` and `b` (CR LF terminated, no NUL, neither beginning with the
tag) are not classified AGAIN: the tag matches across them and the result is
ERROR. -/
theorem C5_tag_across_lines_error :
    imap_passwd_crlf_tag.tag ≠ []
      ∧ (∀ c ∈ [bytes "a", bytes "b"], untagged_line imap_passwd_crlf_tag.tag c)
      ∧ (recv_buf imap_passwd_crlf_tag.proxy_buffer (bytes "a\r\nb\r\n")).content
          = imap_lines [bytes "a", bytes "b"]
      ∧ read_rc imap_passwd_crlf_tag (.data (bytes "a\r\nb\r\n")) = some .NGX_ERROR := by
  refine ⟨by decide, by decide, by decide, by decide⟩

/-- C5 (amended): in state `ngx_imap_passwd`, for every non-empty tag that holds
no line feed and every sequence of one or more untagged lines (each CR LF
terminated, not beginning with the tag, holding no NUL), the buffer holding only
the untagged lines is classified AGAIN, and the same buffer extended by a line
that begins with the tag immediately followed by `OK` is classified OK. -/
theorem C5_untagged_then_tagged (s : ngx_mail_session_t) (d : List Nat)
    (untagged : List (List Nat)) (hd : d ≠ [])
    (hst : s.mail_state = .imap .ngx_imap_passwd) (_htag : s.tag ≠ [])
    (hLF : LF ∉ s.tag) (hne : untagged ≠ [])
    (hwf : ∀ c ∈ untagged, untagged_line s.tag c) :
    ((recv_buf s.proxy_buffer d).content = imap_lines untagged →
        read_rc s (.data d) = some .NGX_AGAIN)
      ∧ (∀ rest, (recv_buf s.proxy_buffer d).content
            = imap_lines untagged ++ (s.tag ++ (bytes "OK" ++ (rest ++ [CR, LF]))) →
        read_rc s (.data d) = some .NGX_OK) := by
  have hcount := imap_lines_length untagged
  constructor
  · intro hR
    obtain ⟨hm, hl⟩ := content_mem_has _ _ hR
    by_cases h4 : 4 ≤ (imap_lines untagged).length
    · obtain ⟨pre, hpre⟩ := imap_lines_end untagged hne
      rw [read_rc_of_content s d _ hd hR h4 ⟨pre, by rw [hpre]; rfl⟩, hst,
        classify_imap_passwd]
      have e : (recv_buf s.proxy_buffer d).last - (recv_buf s.proxy_buffer d).pos + 1
          = ((imap_lines untagged).length - untagged.length) + 1 + untagged.length := by
        omega
      rw [e, scan_skip_lines _ _ _ hLF untagged hwf _ _ _ hm (by omega)]
      have hlast : (recv_buf s.proxy_buffer d).pos + (imap_lines untagged).length
          = (recv_buf s.proxy_buffer d).last := by omega
      rw [hlast, imap_passwd_scan, if_neg (lt_irrefl _)]
      cases untagged with
      | nil => exact absurd rfl hne
      | cons c cs => rfl
    · have hshort := read_response_short s d hd (by omega)
      simp only [read_rc, hshort, Option.map_some']
  · intro rest hR
    obtain ⟨hm, hl⟩ := content_mem_has _ _ hR
    simp only [List.length_append, List.length_cons, List.length_nil] at hl
    have hok : (bytes "OK").length = 2 := by decide
    rw [hok] at hl
    rw [read_rc_of_content s d _ hd hR
      (by simp only [List.length_append, List.length_cons, List.length_nil, hok]; omega)
      ⟨imap_lines untagged ++ (s.tag ++ (bytes "OK" ++ rest)), by simp [CRLF]⟩, hst,
      classify_imap_passwd]
    rw [mem_has_append] at hm
    have e : (recv_buf s.proxy_buffer d).last - (recv_buf s.proxy_buffer d).pos + 1
        = ((recv_buf s.proxy_buffer d).last - (recv_buf s.proxy_buffer d).pos
            - untagged.length) + 1 + untagged.length := by
      omega
    rw [e, scan_skip_lines _ _ _ hLF untagged hwf _ _ _ hm.1 (by omega),
      scan_tag_ok _ _ (rest ++ [CR, LF]) _ _ _ _ (by omega) hm.2]
    rfl

/-- C5 witness: with tag `a001 `, the line `* CAPABILITY IMAP4rev1` alone is
AGAIN, and followed by `a001 OK` it is OK. -/
theorem C5_untagged_then_tagged_witness :
    read_rc imap_passwd_a001 (.data (bytes "* CAPABILITY IMAP4rev1\r\n")) = some .NGX_AGAIN
      ∧ read_rc imap_passwd_a001 (.data (bytes "* CAPABILITY IMAP4rev1\r\na001 OK\r\n"))
          = some .NGX_OK :=
  ⟨(C5_untagged_then_tagged imap_passwd_a001 (bytes "* CAPABILITY IMAP4rev1\r\n")
      [bytes "* CAPABILITY IMAP4rev1"] (by decide) rfl (by decide) (by decide) (by decide)
      (by decide)).1 (by decide),
   (C5_untagged_then_tagged imap_passwd_a001 (bytes "* CAPABILITY IMAP4rev1\r\na001 OK\r\n")
      [bytes "* CAPABILITY IMAP4rev1"] (by decide) rfl (by decide) (by decide) (by decide)
      (by decide)).2 [] (by decide)⟩

/-! ## C6: a rejected login -/

/-- C6 (the code at the failing input): with tag `a001 ` the complete reply
`a001 NO LOGIN failed` is classified AGAIN, not ERROR: after the tag match the
scan skips to the end of the same line and sets `expect_chunk`. -/
theorem C6_rejected_login_again :
    read_rc imap_passwd_a001 (.data (bytes "a001 NO LOGIN failed\r\n")) = some .NGX_AGAIN := by
  decide

/-! ## Replies received in several segments -/

theorem mem_write_append (mem : Nat → Nat) (p : Nat) (A B : List Nat) :
    mem_write (mem_write mem p A) (p + A.length) B = mem_write mem p (A ++ B) := by
  funext a
  simp only [mem_write, List.length_append]
  by_cases h1 : p + A.length ≤ a ∧ a < p + A.length + B.length
  · rw [if_pos h1, if_pos (by omega), List.getD_append_right _ _ _ _ (by omega)]
    congr 1
    omega
  · rw [if_neg h1]
    by_cases h2 : p ≤ a ∧ a < p + A.length
    · rw [if_pos h2, if_pos (by omega), List.getD_append _ _ _ _ (by omega)]
    · rw [if_neg h2, if_neg (by omega)]

theorem recv_buf_append (b : ngx_buf_t) (A B : List Nat) :
    recv_buf (recv_buf b A) B = recv_buf b (A ++ B) := by
  simp only [recv_buf, mem_write_append, List.length_append, Nat.add_assoc]

/-- Storing `P` and then `P ++ Q` from the same start leaves the same bytes
below the end of `P`. -/
theorem recv_buf_agree (b : ngx_buf_t) (P Q : List Nat) (a : Nat)
    (ha : a < (recv_buf b P).last) :
    (recv_buf b (P ++ Q)).mem a = (recv_buf b P).mem a := by
  simp only [recv_buf] at ha
  simp only [recv_buf, mem_write, List.length_append]
  by_cases h : b.last ≤ a
  · rw [if_pos (by omega), if_pos (by omega), List.getD_append _ _ _ _ (by omega)]
  · rw [if_neg (by omega), if_neg (by omega)]

/-- A call on the session left by an AGAIN call sees the buffer as if both
segments had come at once. -/
theorem read_response_stored (s : ngx_mail_session_t) (A B : List Nat) (hA : A ≠ [])
    (hB : B ≠ []) :
    ngx_mail_proxy_read_response (stored s A) (.data B)
      = ngx_mail_proxy_read_response s (.data (A ++ B)) := by
  cases A with
  | nil => exact absurd rfl hA
  | cons a0 as =>
    cases B with
    | nil => exact absurd rfl hB
    | cons b0 bs =>
      simp only [ngx_mail_proxy_read_response, stored, List.cons_append, recv_buf_append]

/-- An AGAIN call changes the session only by the stored bytes. -/
theorem read_again_stored (s s1 : ngx_mail_session_t) (d : List Nat) (hd : d ≠ [])
    (h : ngx_mail_proxy_read_response s (.data d) = some (.NGX_AGAIN, s1)) :
    s1 = stored s d := by
  cases d with
  | nil => exact absurd rfl hd
  | cons d0 ds =>
    simp only [ngx_mail_proxy_read_response] at h
    split at h
    · simp only [Option.some.injEq, Prod.mk.injEq, true_and] at h
      exact h.symm
    · split at h
      · split at h
        · simp at h
        · simp only [Option.some.injEq, Prod.mk.injEq, true_and] at h
          exact h.symm
      · split at h
        · simp at h
        · simp at h
        · simp only [Option.some.injEq, Prod.mk.injEq, true_and] at h
          exact h.symm
        · split at h
          · simp only [Option.some.injEq, Prod.mk.injEq, true_and] at h
            exact h.symm
          · split at h
            · simp at h
            · simp at h

theorem strncmp_agree (mem mem' : Nat → Nat) (tag : List Nat) (lastP : Nat)
    (hagree : ∀ a, a < lastP → mem' a = mem a) (hend : mem (lastP - 1) = LF)
    (hLF : LF ∉ tag) (h0 : 0 ∉ tag) (p : Nat) (hp : p < lastP) :
    ngx_strncmp_eq mem' p tag = ngx_strncmp_eq mem p tag
      ∧ (ngx_strncmp_eq mem p tag = true → p + tag.length < lastP) := by
  induction tag generalizing p with
  | nil => exact ⟨rfl, fun _ => by simpa using hp⟩
  | cons t ts ih =>
    unfold ngx_strncmp_eq
    rw [hagree p hp]
    by_cases hm : mem p = t
    · have ht0 : ¬ t = 0 := fun h => h0 (by simp [h])
      have htLF : ¬ t = LF := fun h => hLF (by simp [h])
      have hp1 : p + 1 < lastP := by
        by_contra hc
        have : p = lastP - 1 := by omega
        rw [this, hend] at hm
        exact htLF hm.symm
      obtain ⟨ih1, ih2⟩ := ih (fun h => hLF (List.mem_cons_of_mem _ h))
        (fun h => h0 (List.mem_cons_of_mem _ h)) (p + 1) hp1
      simp only [hm, ne_eq, not_true_eq_false, if_false, ht0]
      refine ⟨ih1, fun h => ?_⟩
      have := ih2 h
      simp only [List.length_cons]
      omega
    · simp only [ne_eq, hm, not_false_eq_true, if_true, Bool.false_eq_true, false_implies,
        and_self]

theorem strstr_agree (mem mem' : Nat → Nat) (lastP : Nat)
    (hagree : ∀ a, a < lastP → mem' a = mem a) (hend : mem (lastP - 1) = LF) :
    ∀ k p n, lastP - p = k → p < lastP → k ≤ n →
      strstr_nl mem' p n = strstr_nl mem p (lastP - p)
        ∧ strstr_nl mem p (lastP - p) ≠ .unbounded
        ∧ (∀ q, strstr_nl mem p (lastP - p) = .found q → p ≤ q ∧ q < lastP) := by
  intro k
  induction k with
  | zero => intro p n hk hp _; omega
  | succ k ih =>
    intro p n hk hp hn
    obtain ⟨n1, rfl⟩ : ∃ n1, n = n1 + 1 := ⟨n - 1, by omega⟩
    rw [hk]
    unfold strstr_nl
    rw [hagree p hp]
    by_cases h1 : mem p = LF
    · simp only [h1, if_true, ne_eq, reduceCtorEq, not_false_eq_true, StrstrResult.found.injEq,
        true_and]
      intro q hq
      omega
    · by_cases h2 : mem p = 0
      · simp only [if_neg h1, if_pos h2, ne_eq, reduceCtorEq, not_false_eq_true,
          false_implies, implies_true, and_self]
      · have hp1 : p + 1 < lastP := by
          by_contra hc
          have : p = lastP - 1 := by omega
          rw [this] at h1
          exact h1 hend
        obtain ⟨i1, i2, i3⟩ := ih (p + 1) n1 (by omega) hp1 (by omega)
        have e : lastP - (p + 1) = k := by omega
        rw [e] at i1 i2 i3
        simp only [if_neg h1, if_neg h2]
        refine ⟨i1, i2, fun q hq => ?_⟩
        have := i3 q hq
        omega

theorem scan_mono (mem : Nat → Nat) (tag : List Nat) (last : Nat) (k : Nat) :
    ∀ fuel p ec r, imap_passwd_scan mem tag last fuel p ec = some r →
      imap_passwd_scan mem tag last (fuel + k) p ec = some r := by
  intro fuel
  induction fuel with
  | zero => intro p ec r h; simp [imap_passwd_scan] at h
  | succ f ih =>
    intro p ec r h
    have e : f + 1 + k = (f + k) + 1 := by omega
    rw [e]
    unfold imap_passwd_scan at h ⊢
    split at h
    · rename_i hp
      rw [if_pos hp]
      split at h
      · rename_i hc
        rw [if_pos hc]
        split at h
        · rename_i hok
          rw [if_pos hok]
          exact h
        · rename_i hok
          rw [if_neg hok]
          exact ih _ _ _ h
      · rename_i hc
        rw [if_neg hc]
        cases hs : strstr_nl mem p (last - p) with
        | unbounded => simp [hs] at h
        | null =>
          simp only [hs] at h ⊢
          exact h
        | found q =>
          simp only [hs] at h ⊢
          exact ih _ _ _ h
    · rename_i hp
      rw [if_neg hp]
      exact h

/-- The scan over a complete prefix of a longer reply: either it ends with
`expect_chunk` set, or the scan over the longer reply ends the same way. -/
theorem scan_prefix (mem mem' : Nat → Nat) (tag : List Nat) (lastP lastR : Nat)
    (hagree : ∀ a, a < lastP → mem' a = mem a) (hle : lastP ≤ lastR)
    (hend : mem (lastP - 1) = LF) (hLF : LF ∉ tag) (h0 : 0 ∉ tag) :
    ∀ fuel p ec r, p ≤ lastP → (p = lastP → ec = true) →
      imap_passwd_scan mem tag lastP fuel p ec = some r →
      (∃ q, r = .fell q true) ∨ imap_passwd_scan mem' tag lastR fuel p ec = some r := by
  intro fuel
  induction fuel with
  | zero => intro p ec r _ _ h; simp [imap_passwd_scan] at h
  | succ f ih =>
    intro p ec r hp hec h
    unfold imap_passwd_scan at h ⊢
    by_cases hlt : p < lastP
    · rw [if_pos hlt] at h
      rw [if_pos (by omega)]
      obtain ⟨hc1, hc2⟩ := strncmp_agree mem mem' tag lastP hagree hend hLF h0 p hlt
      rw [hc1]
      cases hcmp : ngx_strncmp_eq mem p tag with
      | true =>
        have ha := hc2 hcmp
        simp only [hcmp, if_true] at h ⊢
        have hO : mem' (p + tag.length) = mem (p + tag.length) := hagree _ ha
        have hcond : (mem' (p + tag.length) = 'O'.toNat ∧ mem' (p + tag.length + 1) = 'K'.toNat)
            ↔ (mem (p + tag.length) = 'O'.toNat ∧ mem (p + tag.length + 1) = 'K'.toNat) := by
          rw [hO]
          by_cases hk : p + tag.length + 1 < lastP
          · rw [hagree _ hk]
          · have e : p + tag.length = lastP - 1 := by omega
            have hne : ¬ mem (p + tag.length) = 'O'.toNat := by
              rw [e, hend]
              decide
            simp only [hne, false_and]
        by_cases hok : mem (p + tag.length) = 'O'.toNat ∧ mem (p + tag.length + 1) = 'K'.toNat
        · rw [if_pos hok] at h
          rw [if_pos (hcond.2 hok)]
          exact Or.inr h
        · rw [if_neg hok] at h
          rw [if_neg (fun hh => hok (hcond.1 hh))]
          exact ih _ _ _ (by omega) (fun hh => by omega) h
      | false =>
        simp only [hcmp, Bool.false_eq_true, if_false] at h ⊢
        obtain ⟨hs1, hs2, hs3⟩ :=
          strstr_agree mem mem' lastP hagree hend (lastP - p) p (lastR - p) rfl hlt (by omega)
        rw [hs1]
        cases hs : strstr_nl mem p (lastP - p) with
        | unbounded => exact absurd hs hs2
        | null =>
          simp only [hs] at h ⊢
          exact Or.inr h
        | found q =>
          simp only [hs] at h ⊢
          have := hs3 q hs
          exact ih _ _ _ (by omega) (fun _ => rfl) h
    · rw [if_neg hlt] at h
      have hpe : p = lastP := by omega
      rw [hec hpe] at h
      simp only [Option.some.injEq] at h
      exact Or.inl ⟨some p, h.symm⟩

/-- With a non-empty tag the scan returns within `last - p + 1` iterations. -/
theorem scan_terminates (mem : Nat → Nat) (tag : List Nat) (last : Nat) (htag : tag ≠ [])
    (hend : mem (last - 1) = LF) :
    ∀ fuel p ec, last - p < fuel → ∃ r, imap_passwd_scan mem tag last fuel p ec = some r := by
  have hlen : 0 < tag.length := List.length_pos.2 htag
  intro fuel
  induction fuel with
  | zero => intro p ec h; omega
  | succ f ih =>
    intro p ec h
    unfold imap_passwd_scan
    by_cases hlt : p < last
    · rw [if_pos hlt]
      cases hcmp : ngx_strncmp_eq mem p tag with
      | true =>
        simp only [if_true]
        by_cases hok : mem (p + tag.length) = 'O'.toNat ∧ mem (p + tag.length + 1) = 'K'.toNat
        · rw [if_pos hok]
          exact ⟨_, rfl⟩
        · rw [if_neg hok]
          exact ih _ _ (by omega)
      | false =>
        simp only [Bool.false_eq_true, if_false]
        obtain ⟨_, hs2, hs3⟩ :=
          strstr_agree mem mem last (fun _ _ => rfl) hend (last - p) p (last - p) rfl hlt
            (le_refl _)
        cases hs : strstr_nl mem p (last - p) with
        | unbounded => exact absurd hs hs2
        | null => exact ⟨_, rfl⟩
        | found q =>
          have := hs3 q hs
          exact ih _ _ (by omega)
    · rw [if_neg hlt]
      exact ⟨_, rfl⟩

/-- With the empty tag the scan returns only when the bytes at `p` are `OK`. -/
theorem scan_empty_tag (mem : Nat → Nat) (last : Nat) :
    ∀ fuel p ec r, p < last → imap_passwd_scan mem [] last fuel p ec = some r →
      r = .ok ∧ mem p = 'O'.toNat ∧ mem (p + 1) = 'K'.toNat := by
  intro fuel
  induction fuel with
  | zero => intro p ec r _ h; simp [imap_passwd_scan] at h
  | succ f ih =>
    intro p ec r hp h
    unfold imap_passwd_scan at h
    rw [if_pos hp] at h
    simp only [ngx_strncmp_eq, if_true, List.length_nil, Nat.add_zero] at h
    by_cases hok : mem p = 'O'.toNat ∧ mem (p + 1) = 'K'.toNat
    · rw [if_pos hok] at h
      simp only [Option.some.injEq] at h
      exact ⟨h.symm, hok⟩
    · rw [if_neg hok] at h
      exact absurd (ih _ _ _ hp h).2 hok

theorem scan_empty_tag_ok (mem : Nat → Nat) (last fuel p : Nat) (ec : Bool) (hp : p < last)
    (hO : mem p = 'O'.toNat) (hK : mem (p + 1) = 'K'.toNat) :
    imap_passwd_scan mem [] last (fuel + 1) p ec = some .ok := by
  unfold imap_passwd_scan
  rw [if_pos hp]
  simp only [ngx_strncmp_eq, if_true, List.length_nil, Nat.add_zero, hO, hK, and_self]

theorem read_rc_not_full (s : ngx_mail_session_t) (d : List Nat) (hd : d ≠ [])
    (hroom : (recv_buf s.proxy_buffer d).last ≠ (recv_buf s.proxy_buffer d).end_) :
    read_rc s (.data d)
      = if complete (recv_buf s.proxy_buffer d) then
          (classify s.mail_state s.tag (recv_buf s.proxy_buffer d)).map verdict_of
        else some .NGX_AGAIN := by
  by_cases hc : complete (recv_buf s.proxy_buffer d)
  · rw [if_pos hc]
    exact read_rc_complete s d hd hc.1 hc.2.1 hc.2.2
  · rw [if_neg hc]
    by_cases h4 : 4 ≤ (recv_buf s.proxy_buffer d).last - (recv_buf s.proxy_buffer d).pos
    · have hn : ¬ CRLF <:+ (recv_buf s.proxy_buffer d).content := by
        rw [crlf_suffix_iff _ (by omega)]
        exact fun h => hc ⟨h4, h.1, h.2⟩
      have := (read_response_no_crlf s d hd h4 hn).2 hroom
      simp only [read_rc, this, Option.map_some']
    · have := read_response_short s d hd (by omega)
      simp only [read_rc, this, Option.map_some']

theorem smtp_state_ok_agree (mem mem' : Nat → Nat) (p : Nat) (st : ngx_smtp_state_e)
    (h0 : mem' p = mem p) (h1 : mem' (p + 1) = mem (p + 1)) (h2 : mem' (p + 2) = mem (p + 2)) :
    smtp_state_ok mem' p st = smtp_state_ok mem p st := by
  cases st <;> simp only [smtp_state_ok, h0, h1, h2]

theorem classify_smtp_final (b : ngx_buf_t) (tag : List Nat) (st : ngx_smtp_state_e)
    (c : Classified) (h : classify (.smtp st) tag b = some c)
    (hfin : verdict_of c ≠ .NGX_AGAIN) :
    verdict_of c = if smtp_state_ok b.mem b.pos st then .NGX_OK else .NGX_ERROR := by
  simp only [classify] at h
  split at h
  · simp only [Option.some.injEq] at h
    rw [← h] at hfin
    exact absurd rfl hfin
  · split at h
    · rename_i hok
      simp only [Option.some.injEq] at h
      rw [← h, if_pos hok]
      rfl
    · rename_i hok
      simp only [Option.some.injEq] at h
      rw [← h, if_neg hok]
      rfl

/-- A complete prefix with a final verdict and the whole reply with a final
verdict get the same verdict. -/
theorem classify_prefix (st : MailState) (tag : List Nat) (bP bR : ngx_buf_t)
    (hpos : bR.pos = bP.pos) (hagree : ∀ a, a < bP.last → bR.mem a = bP.mem a)
    (hle : bP.last ≤ bR.last) (hcP : complete bP)
    (htag : st = .imap .ngx_imap_passwd → 0 ∉ tag ∧ LF ∉ tag)
    (cP cR : Classified) (hP : classify st tag bP = some cP)
    (hfP : verdict_of cP ≠ .NGX_AGAIN) (hR : classify st tag bR = some cR)
    (hfR : verdict_of cR ≠ .NGX_AGAIN) : verdict_of cP = verdict_of cR := by
  obtain ⟨h4, _, hend⟩ := hcP
  have a0 : bR.mem bP.pos = bP.mem bP.pos := hagree _ (by omega)
  have a1 : bR.mem (bP.pos + 1) = bP.mem (bP.pos + 1) := hagree _ (by omega)
  have a2 : bR.mem (bP.pos + 2) = bP.mem (bP.pos + 2) := hagree _ (by omega)
  have a3 : bR.mem (bP.pos + 3) = bP.mem (bP.pos + 3) := hagree _ (by omega)
  cases st with
  | pop3 st =>
    simp only [classify, hpos, a0, a1, a2] at hP hR
    rw [hP] at hR
    simp only [Option.some.injEq] at hR
    rw [hR]
  | imap st =>
    cases st with
    | ngx_imap_start =>
      simp only [classify, hpos, a0, a1, a2, a3] at hP hR
      rw [hP] at hR
      simp only [Option.some.injEq] at hR
      rw [hR]
    | ngx_imap_login =>
      simp only [classify, hpos, a0] at hP hR
      rw [hP] at hR
      simp only [Option.some.injEq] at hR
      rw [hR]
    | ngx_imap_user =>
      simp only [classify, hpos, a0] at hP hR
      rw [hP] at hR
      simp only [Option.some.injEq] at hR
      rw [hR]
    | other =>
      simp only [classify, hpos] at hP hR
      rw [hP] at hR
      simp only [Option.some.injEq] at hR
      rw [hR]
    | ngx_imap_passwd =>
      obtain ⟨ht0, htLF⟩ := htag rfl
      rw [classify_imap_passwd] at hP hR
      rw [hpos] at hR
      cases hsP : imap_passwd_scan bP.mem tag bP.last (bP.last - bP.pos + 1) bP.pos false with
      | none => simp [hsP] at hP
      | some rP =>
        rcases scan_prefix bP.mem bR.mem tag bP.last bR.last hagree hle hend htLF ht0 _ _ _ _
          (by omega) (fun h => by omega) hsP with ⟨q, hq⟩ | hsame
        · rw [hsP, hq] at hP
          simp only [Option.some.injEq] at hP
          rw [← hP] at hfP
          exact absurd rfl hfP
        · have hm := scan_mono bR.mem tag bR.last (bR.last - bP.last) _ _ _ _ hsame
          have e : bP.last - bP.pos + 1 + (bR.last - bP.last) = bR.last - bP.pos + 1 := by omega
          rw [e] at hm
          rw [hm] at hR
          rw [hsP] at hP
          rw [hP] at hR
          simp only [Option.some.injEq] at hR
          rw [hR]
  | smtp st =>
    rw [classify_smtp_final bP tag st cP hP hfP, classify_smtp_final bR tag st cR hR hfR, hpos,
      smtp_state_ok_agree bP.mem bR.mem bP.pos st a0 a1 a2]

/-- A complete prefix of a reply that gets a verdict gets a result too. -/
theorem classify_prefix_some (st : MailState) (tag : List Nat) (bP bR : ngx_buf_t)
    (hpos : bR.pos = bP.pos) (hagree : ∀ a, a < bP.last → bR.mem a = bP.mem a)
    (hle : bP.last ≤ bR.last) (hcP : complete bP)
    (cR : Classified) (hR : classify st tag bR = some cR) :
    ∃ cP, classify st tag bP = some cP := by
  obtain ⟨h4, _, hend⟩ := hcP
  cases st with
  | pop3 st =>
    simp only [classify]
    split <;> exact ⟨_, rfl⟩
  | smtp st =>
    simp only [classify]
    split
    · exact ⟨_, rfl⟩
    · split <;> exact ⟨_, rfl⟩
  | imap st =>
    cases st with
    | ngx_imap_start =>
      simp only [classify]
      split <;> exact ⟨_, rfl⟩
    | ngx_imap_login =>
      simp only [classify]
      split <;> exact ⟨_, rfl⟩
    | ngx_imap_user =>
      simp only [classify]
      split <;> exact ⟨_, rfl⟩
    | other => exact ⟨_, rfl⟩
    | ngx_imap_passwd =>
      rw [classify_imap_passwd] at hR ⊢
      have hsome : ∃ rP, imap_passwd_scan bP.mem tag bP.last (bP.last - bP.pos + 1) bP.pos false
          = some rP := by
        by_cases htag : tag = []
        · subst htag
          cases hsR : imap_passwd_scan bR.mem [] bR.last (bR.last - bR.pos + 1) bR.pos false with
          | none => simp [hsR] at hR
          | some rR =>
            obtain ⟨_, hO, hK⟩ := scan_empty_tag bR.mem bR.last _ _ _ _ (by omega) hsR
            rw [hpos] at hO hK
            rw [hagree _ (by omega)] at hO hK
            exact ⟨_, scan_empty_tag_ok bP.mem bP.last _ bP.pos false (by omega) hO hK⟩
        · exact scan_terminates bP.mem tag bP.last htag hend _ _ _ (by omega)
      obtain ⟨rP, hrP⟩ := hsome
      rw [hrP]
      cases rP <;> exact ⟨_, rfl⟩

theorem flatten_ne_nil (segs : List (List Nat)) (hN : segs ≠ [])
    (hne : ∀ seg ∈ segs, seg ≠ []) : segs.flatten ≠ [] := by
  cases segs with
  | nil => exact absurd rfl hN
  | cons x xs =>
    have := hne x (List.mem_cons_self _ _)
    simp [this]

/-- A first segment `P` of the reply `P ++ Q`: the call on `P` returns, and if its
result is final it is the verdict of the whole reply. -/
theorem prefix_verdict (s : ngx_mail_session_t) (P Q : List Nat) (V : Rc) (hP : P ≠ [])
    (hroom : s.proxy_buffer.last + (P ++ Q).length < s.proxy_buffer.end_)
    (htag : s.mail_state = .imap .ngx_imap_passwd → 0 ∉ s.tag ∧ LF ∉ s.tag)
    (hone : read_rc s (.data (P ++ Q)) = some V) (hV : V ≠ .NGX_AGAIN) :
    ∃ VP, read_rc s (.data P) = some VP ∧ (VP ≠ .NGX_AGAIN → VP = V) := by
  have hPQ : P ++ Q ≠ [] := by simp [hP]
  simp only [List.length_append] at hroom
  have hroomR : (recv_buf s.proxy_buffer (P ++ Q)).last ≠ (recv_buf s.proxy_buffer (P ++ Q)).end_ := by
    simp only [recv_buf, List.length_append]
    omega
  have hroomP : (recv_buf s.proxy_buffer P).last ≠ (recv_buf s.proxy_buffer P).end_ := by
    simp only [recv_buf]
    omega
  rw [read_rc_not_full s _ hPQ hroomR] at hone
  rw [read_rc_not_full s _ hP hroomP]
  by_cases hcP : complete (recv_buf s.proxy_buffer P)
  · rw [if_pos hcP]
    by_cases hcR : complete (recv_buf s.proxy_buffer (P ++ Q))
    · rw [if_pos hcR] at hone
      cases hR : classify s.mail_state s.tag (recv_buf s.proxy_buffer (P ++ Q)) with
      | none => simp [hR] at hone
      | some cR =>
        rw [hR] at hone
        simp only [Option.map_some', Option.some.injEq] at hone
        have hle : (recv_buf s.proxy_buffer P).last ≤ (recv_buf s.proxy_buffer (P ++ Q)).last := by
          simp only [recv_buf, List.length_append]
          omega
        obtain ⟨cP, hcl⟩ := classify_prefix_some s.mail_state s.tag (recv_buf s.proxy_buffer P)
          (recv_buf s.proxy_buffer (P ++ Q)) rfl (fun a ha => recv_buf_agree _ P Q a ha) hle hcP
          cR hR
        refine ⟨verdict_of cP, by rw [hcl]; rfl, fun hf => ?_⟩
        rw [← hone]
        exact classify_prefix s.mail_state s.tag (recv_buf s.proxy_buffer P)
          (recv_buf s.proxy_buffer (P ++ Q)) rfl (fun a ha => recv_buf_agree _ P Q a ha) hle hcP
          htag cP cR hcl hf hR (by rw [hone]; exact hV)
    · rw [if_neg hcR] at hone
      simp only [Option.some.injEq] at hone
      exact absurd hone.symm hV
  · rw [if_neg hcP]
    exact ⟨.NGX_AGAIN, rfl, fun h => absurd rfl h⟩

/-! ## C7: segmentation -/

/-- C7 (as stated, refuted): with the tag `t CR LF` the reply
`t CR LF t CR LF OK CR LF`, received in one segment into an empty 64-byte
buffer, is OK; received in the two segments `t CR LF t CR LF` and `OK CR LF` it
is ERROR at the first segment. -/
theorem C7_split_changes_verdict :
    imap_passwd_t_crlf.proxy_buffer.pos = imap_passwd_t_crlf.proxy_buffer.last
      ∧ imap_passwd_t_crlf.proxy_buffer.last + (bytes "t\r\nt\r\nOK\r\n").length
          < imap_passwd_t_crlf.proxy_buffer.end_
      ∧ [bytes "t\r\nt\r\n", bytes "OK\r\n"].flatten = bytes "t\r\nt\r\nOK\r\n"
      ∧ read_rc imap_passwd_t_crlf (.data (bytes "t\r\nt\r\nOK\r\n")) = some .NGX_OK
      ∧ feed imap_passwd_t_crlf [bytes "t\r\nt\r\n", bytes "OK\r\n"] = some .NGX_ERROR := by
  refine ⟨by decide, by decide, by decide, by decide, by decide⟩

/-- C7 (amended): for every protocol, state, tag and reply `R`, where in state
`ngx_imap_passwd` the tag holds no NUL and no LF byte: if `R`, received in one
segment into a buffer with more room than `R`, gets the final verdict `V`, then
for every split of `R` into `N ≥ 1` non-empty segments fed by successive calls
into the same buffer, the first result other than AGAIN is `V` too. -/
theorem C7_segmentation (segs : List (List Nat)) :
    ∀ (s : ngx_mail_session_t) (R : List Nat) (V : Rc),
      s.proxy_buffer.last + R.length < s.proxy_buffer.end_ →
      (s.mail_state = .imap .ngx_imap_passwd → 0 ∉ s.tag ∧ LF ∉ s.tag) →
      read_rc s (.data R) = some V → V ≠ .NGX_AGAIN →
      segs ≠ [] → (∀ seg ∈ segs, seg ≠ []) → segs.flatten = R →
      feed s segs = some V := by
  induction segs with
  | nil => intro s R V _ _ _ _ hN; exact absurd rfl hN
  | cons seg rest ih =>
    intro s R V hroom htag hone hV _ hne hjoin
    have hseg : seg ≠ [] := hne seg (List.mem_cons_self _ _)
    by_cases hrest : rest = []
    · subst hrest
      simp only [List.flatten_cons, List.flatten_nil, List.append_nil] at hjoin
      subst hjoin
      simp only [read_rc] at hone
      cases hr : ngx_mail_proxy_read_response s (.data seg) with
      | none => simp [hr] at hone
      | some res =>
        obtain ⟨rc, s1⟩ := res
        rw [hr] at hone
        simp only [Option.map_some', Option.some.injEq] at hone
        subst hone
        cases rc with
        | NGX_AGAIN => exact absurd rfl hV
        | NGX_OK => simp only [feed, hr]
        | NGX_ERROR => simp only [feed, hr]
    · have hrne : rest.flatten ≠ [] :=
        flatten_ne_nil rest hrest (fun x hx => hne x (List.mem_cons_of_mem _ hx))
      simp only [List.flatten_cons] at hjoin
      subst hjoin
      obtain ⟨VP, hVP, hfin⟩ := prefix_verdict s seg rest.flatten V hseg hroom htag hone hV
      simp only [read_rc] at hVP
      cases hr : ngx_mail_proxy_read_response s (.data seg) with
      | none => simp [hr] at hVP
      | some res =>
        obtain ⟨rc, s1⟩ := res
        rw [hr] at hVP
        simp only [Option.map_some', Option.some.injEq] at hVP
        subst hVP
        cases rc with
        | NGX_AGAIN =>
          have hs1 := read_again_stored s s1 seg hseg hr
          subst hs1
          simp only [feed, hr]
          apply ih (stored s seg) rest.flatten V
          · simp only [stored, recv_buf]
            simp only [List.length_append] at hroom
            omega
          · exact htag
          · simp only [read_rc, read_response_stored s seg rest.flatten hseg hrne]
            exact hone
          · exact hV
          · exact hrest
          · exact fun x hx => hne x (List.mem_cons_of_mem _ hx)
          · rfl
        | NGX_OK =>
          have := hfin (by decide)
          subst this
          simp only [feed, hr]
        | NGX_ERROR =>
          have := hfin (by decide)
          subst this
          simp only [feed, hr]

/-- C7 witness: with tag `a001 `, the reply `* CAPABILITY IMAP4rev1`, `a001 OK`
is OK in one segment and OK when the two lines come in separate segments. -/
theorem C7_segmentation_witness :
    feed imap_passwd_a001 [bytes "* CAPABILITY IMAP4rev1\r\n", bytes "a001 OK\r\n"]
      = some .NGX_OK :=
  C7_segmentation [bytes "* CAPABILITY IMAP4rev1\r\n", bytes "a001 OK\r\n"]
    imap_passwd_a001 (bytes "* CAPABILITY IMAP4rev1\r\na001 OK\r\n") .NGX_OK
    (by decide) (by decide) (by decide) (by decide) (by decide) (by decide) (by decide)

/-! ## Steps of the authentication handlers -/

/-- An OK call changes the session only by the stored bytes. -/
theorem read_ok_stored (s s1 : ngx_mail_session_t) (r : RecvResult)
    (h : ngx_mail_proxy_read_response s r = some (.NGX_OK, s1)) :
    ∃ d, r = .data d ∧ s1 = stored s d := by
  cases r with
  | error => simp [ngx_mail_proxy_read_response] at h
  | again => simp [ngx_mail_proxy_read_response] at h
  | data d =>
    refine ⟨d, rfl, ?_⟩
    cases d with
    | nil => simp [ngx_mail_proxy_read_response] at h
    | cons d0 ds =>
      simp only [ngx_mail_proxy_read_response] at h
      split at h
      · simp at h
      · split at h
        · split at h
          · simp at h
          · simp at h
        · split at h
          · simp at h
          · simp only [Option.some.injEq, Prod.mk.injEq, true_and] at h
            exact h.symm
          · simp at h
          · split at h
            · simp at h
            · split at h
              · simp at h
              · simp at h

theorem read_rc_ok (s : ngx_mail_session_t) (r : RecvResult)
    (h : read_rc s r = some .NGX_OK) :
    ∃ d, r = .data d ∧ ngx_mail_proxy_read_response s r = some (.NGX_OK, stored s d) := by
  simp only [read_rc] at h
  cases hr : ngx_mail_proxy_read_response s r with
  | none => simp [hr] at h
  | some res =>
    obtain ⟨rc, s1⟩ := res
    rw [hr] at h
    simp only [Option.map_some', Option.some.injEq] at h
    subst h
    obtain ⟨d, hd, hs1⟩ := read_ok_stored s s1 r hr
    exact ⟨d, hd, by rw [hs1]⟩

theorem sent_upstream_append (a b : List Event) :
    sent_upstream (a ++ b) = sent_upstream a ++ sent_upstream b := by
  induction a with
  | nil => rfl
  | cons e es ih => cases e <;> simp [sent_upstream, ih]

/-- What `c->send` and the lines after it do to the session: the line is
offered to upstream, and nothing else is. -/
theorem handler_send_sent (s : ngx_mail_session_t) (io : HandlerIO) (line : ngx_str_t) :
    sent_upstream (handler_send s io line).trace = sent_upstream s.trace ++ [line]
      ∧ (handler_send s io line).mail_state = s.mail_state := by
  unfold handler_send
  dsimp only
  split
  · simp [ngx_mail_proxy_internal_server_error, sent_upstream_append, sent_upstream]
  · simp [sent_upstream_append, sent_upstream]

/-- The SMTP handler on an OK reply. -/
theorem smtp_handler_ok (s : ngx_mail_session_t) (io : HandlerIO)
    (hto : io.timedout = false) (hok : read_rc s io.recv = some .NGX_OK) :
    ∃ d, io.recv = .data d
      ∧ ngx_mail_proxy_smtp_handler s io = some (smtp_on_ok (stored s d) io) := by
  obtain ⟨d, hd, hr⟩ := read_rc_ok s io.recv hok
  refine ⟨d, hd, ?_⟩
  simp only [ngx_mail_proxy_smtp_handler, hto, Bool.false_eq_true, if_false, hr]

/-- The POP3 handler on an OK reply. -/
theorem pop3_handler_ok (s : ngx_mail_session_t) (io : HandlerIO)
    (hto : io.timedout = false) (hok : read_rc s io.recv = some .NGX_OK) :
    ∃ d, io.recv = .data d
      ∧ ngx_mail_proxy_pop3_handler s io = some (pop3_on_ok (stored s d) io) := by
  obtain ⟨d, hd, hr⟩ := read_rc_ok s io.recv hok
  refine ⟨d, hd, ?_⟩
  simp only [ngx_mail_proxy_pop3_handler, hto, Bool.false_eq_true, if_false, hr]

theorem base64_length (l : List Nat) : (base64 l).length = (l.length + 2) / 3 * 4 := by
  induction l using base64.induct with
  | case1 a b c rest ih =>
    simp only [base64, List.length_cons, ih]
    omega
  | case2 a b => simp [base64]
  | case3 a => simp [base64]
  | case4 => simp [base64]

/-! ## C8: SMTP AUTH PLAIN -/

/-- C8 (the code at the failing input): for login `u` and passwd `p` the line
the code sends after the EHLO reply is `AUTH PLAIN dQBw`, the base64 of
`u NUL p`, a message with one NUL; the line of the SASL PLAIN message
`u NUL u NUL p`, with two NULs, is `AUTH PLAIN dQB1AHA=`, and the two differ. -/
theorem C8_plain_blob_has_one_login :
    (ngx_mail_proxy_smtp_handler smtp_plain_u_p
        (io_reply "250-gw\r\n250 AUTH PLAIN LOGIN\r\n")).map (fun s => sent_upstream s.trace)
        = some [{ len := 17, data := bytes "AUTH PLAIN dQBw\r\n" }]
      ∧ bytes "AUTH PLAIN " ++ base64 (bytes "u" ++ [0] ++ bytes "u" ++ [0] ++ bytes "p")
            ++ [CR, LF] = bytes "AUTH PLAIN dQB1AHA=\r\n"
      ∧ bytes "AUTH PLAIN dQBw\r\n" ≠ bytes "AUTH PLAIN dQB1AHA=\r\n" := by
  refine ⟨by decide, by decide, by decide⟩

/-- What the code does at the SMTP AUTH PLAIN step, for every login and passwd
(reply OK in `smtp_helo` with auth_method PLAIN, the pool allocating): it offers
upstream the line `AUTH PLAIN ` ++ base64(login ++ NUL ++ passwd) ++ CR LF, the
login once and one NUL, with its declared length the number of its bytes, and
moves to `smtp_auth_plain`. -/
theorem smtp_auth_plain_line (s : ngx_mail_session_t) (io : HandlerIO)
    (hto : io.timedout = false) (hok : read_rc s io.recv = some .NGX_OK)
    (hst : s.mail_state = .smtp .ngx_smtp_helo)
    (hauth : s.auth_method = .NGX_MAIL_AUTH_PLAIN) (halloc : io.alloc_ok = true) :
    ∃ s2, ngx_mail_proxy_smtp_handler s io = some s2
      ∧ sent_upstream s2.trace = sent_upstream s.trace ++
          [{ len := (bytes "AUTH PLAIN " ++ base64 (s.login ++ 0 :: s.passwd) ++ [CR, LF]).length,
             data := bytes "AUTH PLAIN " ++ base64 (s.login ++ 0 :: s.passwd) ++ [CR, LF] }]
      ∧ s2.mail_state = .smtp .ngx_smtp_auth_plain := by
  obtain ⟨d, _, hh⟩ := smtp_handler_ok s io hto hok
  refine ⟨_, hh, ?_⟩
  have htake : (s.login ++ [0] ++ s.passwd).take (s.login.length + s.passwd.length + 1)
      = s.login ++ 0 :: s.passwd := by
    rw [List.take_of_length_le (by simp; omega)]
    simp
  have hlen : (bytes "AUTH PLAIN ").length = 11 := by decide
  simp only [smtp_on_ok, stored, hst, hauth, ngx_mail_proxy_smtp_auth_handler, halloc,
    Bool.true_eq_false, if_false, ngx_encode_base64, htake, List.take_length]
  have e : (bytes "AUTH PLAIN " ++ base64 (s.login ++ 0 :: s.passwd) ++ [CR, LF]).length
      = 11 + (base64 (s.login ++ 0 :: s.passwd)).length + 2 := by
    simp only [List.length_append, hlen, List.length_cons, List.length_nil]
  rw [e]
  exact handler_send_sent _ io _

/-- The AUTH PLAIN step at login `u` and passwd `p`: the line is
`AUTH PLAIN dQBw`. -/
theorem smtp_auth_plain_line_u_p :
    sent_upstream smtp_plain_u_p_1.trace
      = [{ len := 17, data := bytes "AUTH PLAIN dQBw\r\n" }] := by
  obtain ⟨s2, h, hs, _⟩ := smtp_auth_plain_line smtp_plain_u_p
    (io_reply "250-gw\r\n250 AUTH PLAIN LOGIN\r\n") rfl (by decide) rfl rfl rfl
  have e : smtp_plain_u_p_1 = s2 := by
    simp only [smtp_plain_u_p_1, h, Option.getD_some]
  rw [e, hs]
  decide

theorem handler_send_frame (s : ngx_mail_session_t) (io : HandlerIO) (line : ngx_str_t) :
    (handler_send s io line).login = s.login ∧ (handler_send s io line).passwd = s.passwd
      ∧ (handler_send s io line).auth_method = s.auth_method := by
  unfold handler_send
  dsimp only
  split <;> simp [ngx_mail_proxy_internal_server_error]

/-! ## C9: SMTP AUTH LOGIN -/

/-- First AUTH LOGIN step: from `smtp_helo`. -/
theorem smtp_login_step_helo (s : ngx_mail_session_t) (io : HandlerIO)
    (hto : io.timedout = false) (hok : read_rc s io.recv = some .NGX_OK)
    (hst : s.mail_state = .smtp .ngx_smtp_helo)
    (hauth : s.auth_method = .NGX_MAIL_AUTH_LOGIN) (halloc : io.alloc_ok = true) :
    ∃ s1, ngx_mail_proxy_smtp_handler s io = some s1
      ∧ sent_upstream s1.trace = sent_upstream s.trace ++
          [{ len := 12, data := bytes "AUTH LOGIN\r\n" }]
      ∧ s1.mail_state = .smtp .ngx_smtp_auth_login
      ∧ s1.login = s.login ∧ s1.passwd = s.passwd := by
  obtain ⟨d, _, hh⟩ := smtp_handler_ok s io hto hok
  refine ⟨_, hh, ?_⟩
  have e : bytes "AUTH LOGIN" ++ [CR, LF] = bytes "AUTH LOGIN\r\n" := by decide
  simp only [smtp_on_ok, stored, hst, hauth, ngx_mail_proxy_smtp_auth_handler, halloc,
    Bool.true_eq_false, if_false, e]
  have h1 := handler_send_sent
    { s with
      mail_state := .smtp .ngx_smtp_auth_login
      auth_method := .NGX_MAIL_AUTH_LOGIN
      log_action := some "reading response from upstream"
      proxy_buffer := recv_buf s.proxy_buffer d } io
    { len := 11 + 1, data := bytes "AUTH LOGIN\r\n" }
  have h2 := handler_send_frame
    { s with
      mail_state := .smtp .ngx_smtp_auth_login
      auth_method := .NGX_MAIL_AUTH_LOGIN
      log_action := some "reading response from upstream"
      proxy_buffer := recv_buf s.proxy_buffer d } io
    { len := 11 + 1, data := bytes "AUTH LOGIN\r\n" }
  exact ⟨h1.1, h1.2, h2.1, h2.2.1⟩

/-- Second AUTH LOGIN step: from `smtp_auth_login`. -/
theorem smtp_login_step_user (s : ngx_mail_session_t) (io : HandlerIO)
    (hto : io.timedout = false) (hok : read_rc s io.recv = some .NGX_OK)
    (hst : s.mail_state = .smtp .ngx_smtp_auth_login) (halloc : io.alloc_ok = true) :
    ∃ s1, ngx_mail_proxy_smtp_handler s io = some s1
      ∧ sent_upstream s1.trace = sent_upstream s.trace ++
          [{ len := 4 * ((s.login.length + 2) / 3) + 2, data := base64 s.login ++ [CR, LF] }]
      ∧ s1.mail_state = .smtp .ngx_smtp_auth_username
      ∧ s1.login = s.login ∧ s1.passwd = s.passwd := by
  obtain ⟨d, _, hh⟩ := smtp_handler_ok s io hto hok
  refine ⟨_, hh, ?_⟩
  have e : (base64 s.login).length + 2 = 4 * ((s.login.length + 2) / 3) + 2 := by
    rw [base64_length]
    omega
  simp only [smtp_on_ok, stored, hst, halloc, Bool.true_eq_false, if_false, ngx_encode_base64,
    List.take_length, e]
  have h1 := handler_send_sent
    { s with
      mail_state := .smtp .ngx_smtp_auth_username
      log_action := some "reading response from upstream"
      proxy_buffer := recv_buf s.proxy_buffer d } io
    { len := 4 * ((s.login.length + 2) / 3) + 2, data := base64 s.login ++ [CR, LF] }
  have h2 := handler_send_frame
    { s with
      mail_state := .smtp .ngx_smtp_auth_username
      log_action := some "reading response from upstream"
      proxy_buffer := recv_buf s.proxy_buffer d } io
    { len := 4 * ((s.login.length + 2) / 3) + 2, data := base64 s.login ++ [CR, LF] }
  exact ⟨h1.1, h1.2, h2.1, h2.2.1⟩

/-- Third AUTH LOGIN step: from `smtp_auth_username`. -/
theorem smtp_login_step_passwd (s : ngx_mail_session_t) (io : HandlerIO)
    (hto : io.timedout = false) (hok : read_rc s io.recv = some .NGX_OK)
    (hst : s.mail_state = .smtp .ngx_smtp_auth_username) (halloc : io.alloc_ok = true) :
    ∃ s1, ngx_mail_proxy_smtp_handler s io = some s1
      ∧ sent_upstream s1.trace = sent_upstream s.trace ++
          [{ len := 4 * ((s.passwd.length + 2) / 3) + 2, data := base64 s.passwd ++ [CR, LF] }]
      ∧ s1.mail_state = .smtp .ngx_smtp_auth_password
      ∧ s1.login = s.login ∧ s1.passwd = s.passwd := by
  obtain ⟨d, _, hh⟩ := smtp_handler_ok s io hto hok
  refine ⟨_, hh, ?_⟩
  have e : (base64 s.passwd).length + 2 = 4 * ((s.passwd.length + 2) / 3) + 2 := by
    rw [base64_length]
    omega
  simp only [smtp_on_ok, stored, hst, halloc, Bool.true_eq_false, if_false, ngx_encode_base64,
    List.take_length, e]
  have h1 := handler_send_sent
    { s with
      mail_state := .smtp .ngx_smtp_auth_password
      log_action := some "reading response from upstream"
      proxy_buffer := recv_buf s.proxy_buffer d } io
    { len := 4 * ((s.passwd.length + 2) / 3) + 2, data := base64 s.passwd ++ [CR, LF] }
  have h2 := handler_send_frame
    { s with
      mail_state := .smtp .ngx_smtp_auth_password
      log_action := some "reading response from upstream"
      proxy_buffer := recv_buf s.proxy_buffer d } io
    { len := 4 * ((s.passwd.length + 2) / 3) + 2, data := base64 s.passwd ++ [CR, LF] }
  exact ⟨h1.1, h1.2, h2.1, h2.2.1⟩

/-- C9: for every login and passwd with auth_method LOGIN, on three successive
OK replies from `smtp_helo` (nothing timing out, the pool allocating) the SMTP
handler returns each time and offers upstream exactly three lines, in this
order and with these states: the 12 bytes `AUTH LOGIN CR LF` (declared length
12) and `smtp_auth_login`; base64(login) ++ CR LF and `smtp_auth_username`;
base64(passwd) ++ CR LF and `smtp_auth_password`; each base64 line has no
prefix and its length, declared and written, is 4 * ceil(n / 3) + 2 for an
n-byte input. -/
theorem C9_auth_login_lines (s0 : ngx_mail_session_t) (io1 io2 io3 : HandlerIO)
    (hst : s0.mail_state = .smtp .ngx_smtp_helo)
    (hauth : s0.auth_method = .NGX_MAIL_AUTH_LOGIN)
    (ok1 : read_rc s0 io1.recv = some .NGX_OK)
    (ok2 : ∀ s1, ngx_mail_proxy_smtp_handler s0 io1 = some s1 →
      read_rc s1 io2.recv = some .NGX_OK)
    (ok3 : ∀ s1 s2, ngx_mail_proxy_smtp_handler s0 io1 = some s1 →
      ngx_mail_proxy_smtp_handler s1 io2 = some s2 → read_rc s2 io3.recv = some .NGX_OK)
    (t1 : io1.timedout = false) (t2 : io2.timedout = false) (t3 : io3.timedout = false)
    (a1 : io1.alloc_ok = true) (a2 : io2.alloc_ok = true) (a3 : io3.alloc_ok = true) :
    ∃ s1 s2 s3, ngx_mail_proxy_smtp_handler s0 io1 = some s1
      ∧ ngx_mail_proxy_smtp_handler s1 io2 = some s2
      ∧ ngx_mail_proxy_smtp_handler s2 io3 = some s3
      ∧ (s1.mail_state = .smtp .ngx_smtp_auth_login
        ∧ s2.mail_state = .smtp .ngx_smtp_auth_username
        ∧ s3.mail_state = .smtp .ngx_smtp_auth_password)
      ∧ (sent_upstream s1.trace = sent_upstream s0.trace ++
            [{ len := 12, data := bytes "AUTH LOGIN\r\n" }]
        ∧ sent_upstream s2.trace = sent_upstream s1.trace ++
            [{ len := 4 * ((s0.login.length + 2) / 3) + 2, data := base64 s0.login ++ [CR, LF] }]
        ∧ sent_upstream s3.trace = sent_upstream s2.trace ++
            [{ len := 4 * ((s0.passwd.length + 2) / 3) + 2,
               data := base64 s0.passwd ++ [CR, LF] }])
      ∧ ((bytes "AUTH LOGIN\r\n").length = 12
        ∧ (base64 s0.login ++ [CR, LF]).length = 4 * ((s0.login.length + 2) / 3) + 2
        ∧ (base64 s0.passwd ++ [CR, LF]).length = 4 * ((s0.passwd.length + 2) / 3) + 2)
      ∧ sent_upstream s3.trace = sent_upstream s0.trace ++
          [{ len := 12, data := bytes "AUTH LOGIN\r\n" },
           { len := 4 * ((s0.login.length + 2) / 3) + 2, data := base64 s0.login ++ [CR, LF] },
           { len := 4 * ((s0.passwd.length + 2) / 3) + 2, data := base64 s0.passwd ++ [CR, LF] }] := by
  obtain ⟨s1, e1, w1, m1, l1, p1⟩ := smtp_login_step_helo s0 io1 t1 ok1 hst hauth a1
  obtain ⟨s2, e2, w2, m2, l2, p2⟩ := smtp_login_step_user s1 io2 t2 (ok2 s1 e1) m1 a2
  obtain ⟨s3, e3, w3, m3, l3, p3⟩ := smtp_login_step_passwd s2 io3 t3 (ok3 s1 s2 e1 e2) m2 a3
  rw [l1] at w2
  rw [p2, p1] at w3
  refine ⟨s1, s2, s3, e1, e2, e3, ⟨m1, m2, m3⟩, ⟨w1, w2, w3⟩, ⟨by decide, ?_, ?_⟩, ?_⟩
  · rw [List.length_append, base64_length]
    simp only [List.length_cons, List.length_nil]
    omega
  · rw [List.length_append, base64_length]
    simp only [List.length_cons, List.length_nil]
    omega
  · rw [w3, w2, w1]
    simp only [List.append_assoc, List.singleton_append, List.cons_append, List.nil_append]

/-- C9 witness: login `alice`, passwd `secret`: the three lines are
`AUTH LOGIN`, `YWxpY2U=` and `c2VjcmV0`, each followed by CR LF. -/
theorem C9_auth_login_lines_witness :
    sent_upstream smtp_login_alice_3.trace
      = [{ len := 12, data := bytes "AUTH LOGIN\r\n" },
         { len := 10, data := bytes "YWxpY2U=\r\n" },
         { len := 10, data := bytes "c2VjcmV0\r\n" }] := by
  have r1 : ngx_mail_proxy_smtp_handler smtp_login_alice (io_reply "250 ok\r\n")
      = some smtp_login_alice_1 := rfl
  have r2 : ngx_mail_proxy_smtp_handler smtp_login_alice_1 (io_reply "334 VXNlcm5hbWU6\r\n")
      = some smtp_login_alice_2 := rfl
  have r3 : ngx_mail_proxy_smtp_handler smtp_login_alice_2 (io_reply "334 UGFzc3dvcmQ6\r\n")
      = some smtp_login_alice_3 := rfl
  obtain ⟨s1, s2, s3, e1, e2, e3, _, _, _, hs⟩ :=
    C9_auth_login_lines smtp_login_alice (io_reply "250 ok\r\n")
      (io_reply "334 VXNlcm5hbWU6\r\n") (io_reply "334 UGFzc3dvcmQ6\r\n") rfl rfl (by decide)
      (fun s1 h1 => by
        rw [r1] at h1
        cases h1
        decide)
      (fun s1 s2 h1 h2 => by
        rw [r1] at h1
        cases h1
        rw [r2] at h2
        cases h2
        decide)
      rfl rfl rfl rfl rfl rfl
  rw [r1] at e1
  cases e1
  rw [r2] at e2
  cases e2
  rw [r3] at e3
  cases e3
  rw [hs]
  decide

/-! ## C10: the POP3 handler -/

/-- POP3 step from `pop3_start`. -/
theorem pop3_step_start (s : ngx_mail_session_t) (io : HandlerIO)
    (hto : io.timedout = false) (hok : read_rc s io.recv = some .NGX_OK)
    (hst : s.mail_state = .pop3 .ngx_pop3_start) (halloc : io.alloc_ok = true) :
    ∃ s1, ngx_mail_proxy_pop3_handler s io = some s1
      ∧ sent_upstream s1.trace = sent_upstream s.trace ++
          [{ len := 5 + s.login.length + 2, data := bytes "USER " ++ s.login ++ [CR, LF] }]
      ∧ s1.mail_state = .pop3 .ngx_pop3_user
      ∧ s1.login = s.login ∧ s1.passwd = s.passwd := by
  obtain ⟨d, _, hh⟩ := pop3_handler_ok s io hto hok
  refine ⟨_, hh, ?_⟩
  simp only [pop3_on_ok, stored, hst, halloc, Bool.true_eq_false, if_false]
  have h1 := handler_send_sent
    { s with
      mail_state := .pop3 .ngx_pop3_user
      log_action := some "sending user name to upstream"
      proxy_buffer := recv_buf s.proxy_buffer d } io
    { len := 5 + s.login.length + 2, data := bytes "USER " ++ s.login ++ [CR, LF] }
  have h2 := handler_send_frame
    { s with
      mail_state := .pop3 .ngx_pop3_user
      log_action := some "sending user name to upstream"
      proxy_buffer := recv_buf s.proxy_buffer d } io
    { len := 5 + s.login.length + 2, data := bytes "USER " ++ s.login ++ [CR, LF] }
  exact ⟨h1.1, h1.2, h2.1, h2.2.1⟩

/-- POP3 step from `pop3_user`. -/
theorem pop3_step_user (s : ngx_mail_session_t) (io : HandlerIO)
    (hto : io.timedout = false) (hok : read_rc s io.recv = some .NGX_OK)
    (hst : s.mail_state = .pop3 .ngx_pop3_user) (halloc : io.alloc_ok = true) :
    ∃ s1, ngx_mail_proxy_pop3_handler s io = some s1
      ∧ sent_upstream s1.trace = sent_upstream s.trace ++
          [{ len := 5 + s.passwd.length + 2, data := bytes "PASS " ++ s.passwd ++ [CR, LF] }]
      ∧ s1.mail_state = .pop3 .ngx_pop3_passwd
      ∧ s1.login = s.login ∧ s1.passwd = s.passwd := by
  obtain ⟨d, _, hh⟩ := pop3_handler_ok s io hto hok
  refine ⟨_, hh, ?_⟩
  simp only [pop3_on_ok, stored, hst, halloc, Bool.true_eq_false, if_false]
  have h1 := handler_send_sent
    { s with
      mail_state := .pop3 .ngx_pop3_passwd
      log_action := some "sending password to upstream"
      proxy_buffer := recv_buf s.proxy_buffer d } io
    { len := 5 + s.passwd.length + 2, data := bytes "PASS " ++ s.passwd ++ [CR, LF] }
  have h2 := handler_send_frame
    { s with
      mail_state := .pop3 .ngx_pop3_passwd
      log_action := some "sending password to upstream"
      proxy_buffer := recv_buf s.proxy_buffer d } io
    { len := 5 + s.passwd.length + 2, data := bytes "PASS " ++ s.passwd ++ [CR, LF] }
  exact ⟨h1.1, h1.2, h2.1, h2.2.1⟩

/-- POP3 step from `pop3_passwd`: the relay is entered and nothing is offered to
upstream. -/
theorem pop3_step_passwd (s : ngx_mail_session_t) (io : HandlerIO)
    (hto : io.timedout = false) (hok : read_rc s io.recv = some .NGX_OK)
    (hst : s.mail_state = .pop3 .ngx_pop3_passwd) :
    ∃ s1, ngx_mail_proxy_pop3_handler s io = some s1
      ∧ s1.trace = s.trace ++
          [.add_timer_client s.timeout, .del_timer_upstream, .log_fixed "client logged in",
            .proxy_handler .client_write]
      ∧ s1.client_read_handler = .ngx_mail_proxy_handler
      ∧ s1.client_write_handler = .ngx_mail_proxy_handler
      ∧ s1.upstream_read_handler = .ngx_mail_proxy_handler
      ∧ s1.upstream_write_handler = .ngx_mail_proxy_handler := by
  obtain ⟨d, _, hh⟩ := pop3_handler_ok s io hto hok
  refine ⟨_, hh, ?_⟩
  simp only [pop3_on_ok, stored, hst, handler_relay, and_self]

/-- C10: for every login and passwd, on three successive OK replies from
`pop3_start` (nothing timing out, the pool allocating) the POP3 handler returns
each time and: offers upstream exactly `USER ` ++ login ++ CR LF and moves to
`pop3_user`; then offers exactly `PASS ` ++ passwd ++ CR LF and moves to
`pop3_passwd`; then offers nothing upstream, installs `ngx_mail_proxy_handler` on
all four events and starts the relay with the pass whose destination is the
client. The lines offered upstream over the three steps are exactly
[USER login, PASS passwd], each with its declared length the number of its
bytes. -/
theorem C10_pop3_steps (s0 : ngx_mail_session_t) (io1 io2 io3 : HandlerIO)
    (hst : s0.mail_state = .pop3 .ngx_pop3_start)
    (ok1 : read_rc s0 io1.recv = some .NGX_OK)
    (ok2 : ∀ s1, ngx_mail_proxy_pop3_handler s0 io1 = some s1 →
      read_rc s1 io2.recv = some .NGX_OK)
    (ok3 : ∀ s1 s2, ngx_mail_proxy_pop3_handler s0 io1 = some s1 →
      ngx_mail_proxy_pop3_handler s1 io2 = some s2 → read_rc s2 io3.recv = some .NGX_OK)
    (t1 : io1.timedout = false) (t2 : io2.timedout = false) (t3 : io3.timedout = false)
    (a1 : io1.alloc_ok = true) (a2 : io2.alloc_ok = true) :
    ∃ s1 s2 s3, ngx_mail_proxy_pop3_handler s0 io1 = some s1
      ∧ ngx_mail_proxy_pop3_handler s1 io2 = some s2
      ∧ ngx_mail_proxy_pop3_handler s2 io3 = some s3
      ∧ (sent_upstream s1.trace = sent_upstream s0.trace ++
            [{ len := 5 + s0.login.length + 2, data := bytes "USER " ++ s0.login ++ [CR, LF] }]
        ∧ s1.mail_state = .pop3 .ngx_pop3_user)
      ∧ (sent_upstream s2.trace = sent_upstream s1.trace ++
            [{ len := 5 + s0.passwd.length + 2, data := bytes "PASS " ++ s0.passwd ++ [CR, LF] }]
        ∧ s2.mail_state = .pop3 .ngx_pop3_passwd)
      ∧ (sent_upstream s3.trace = sent_upstream s2.trace
        ∧ s3.trace = s2.trace ++
            [.add_timer_client s2.timeout, .del_timer_upstream, .log_fixed "client logged in",
              .proxy_handler .client_write]
        ∧ (ngx_mail_proxy_handler_direction .client_write).2.1 = .client
        ∧ s3.client_read_handler = .ngx_mail_proxy_handler
        ∧ s3.client_write_handler = .ngx_mail_proxy_handler
        ∧ s3.upstream_read_handler = .ngx_mail_proxy_handler
        ∧ s3.upstream_write_handler = .ngx_mail_proxy_handler)
      ∧ sent_upstream s3.trace = sent_upstream s0.trace ++
          [{ len := 5 + s0.login.length + 2, data := bytes "USER " ++ s0.login ++ [CR, LF] },
           { len := 5 + s0.passwd.length + 2, data := bytes "PASS " ++ s0.passwd ++ [CR, LF] }]
      ∧ (bytes "USER " ++ s0.login ++ [CR, LF]).length = 5 + s0.login.length + 2
      ∧ (bytes "PASS " ++ s0.passwd ++ [CR, LF]).length = 5 + s0.passwd.length + 2 := by
  obtain ⟨s1, e1, w1, m1, l1, p1⟩ := pop3_step_start s0 io1 t1 ok1 hst a1
  obtain ⟨s2, e2, w2, m2, l2, p2⟩ := pop3_step_user s1 io2 t2 (ok2 s1 e1) m1 a2
  obtain ⟨s3, e3, w3, c1, c2, c3, c4⟩ := pop3_step_passwd s2 io3 t3 (ok3 s1 s2 e1 e2) m2
  have hs3 : sent_upstream s3.trace = sent_upstream s2.trace := by
    rw [w3, sent_upstream_append]
    simp [sent_upstream]
  have hU : (bytes "USER ").length = 5 := by decide
  have hP : (bytes "PASS ").length = 5 := by decide
  rw [p1] at w2
  refine ⟨s1, s2, s3, e1, e2, e3, ⟨w1, m1⟩, ⟨w2, m2⟩, ⟨hs3, w3, rfl, c1, c2, c3, c4⟩,
    ?_, ?_, ?_⟩
  · rw [hs3, w2, w1]
    simp only [List.append_assoc, List.singleton_append, List.cons_append, List.nil_append]
  · simp only [List.length_append, hU, List.length_cons, List.length_nil]
  · simp only [List.length_append, hP, List.length_cons, List.length_nil]

/-- C10 witness (Scenario 1): login `alice`, passwd `secret`, replies
`+OK ready`, `+OK`, `+OK logged in`: the commands are `USER alice` and
`PASS secret`. -/
theorem C10_pop3_steps_witness :
    sent_upstream pop3_alice_3.trace
      = [{ len := 12, data := bytes "USER alice\r\n" },
         { len := 13, data := bytes "PASS secret\r\n" }] := by
  have r1 : ngx_mail_proxy_pop3_handler pop3_alice (io_reply "+OK ready\r\n")
      = some pop3_alice_1 := rfl
  have r2 : ngx_mail_proxy_pop3_handler pop3_alice_1 (io_reply "+OK\r\n")
      = some pop3_alice_2 := rfl
  have r3 : ngx_mail_proxy_pop3_handler pop3_alice_2 (io_reply "+OK logged in\r\n")
      = some pop3_alice_3 := rfl
  obtain ⟨s1, s2, s3, e1, e2, e3, _, _, _, hs, _⟩ :=
    C10_pop3_steps pop3_alice (io_reply "+OK ready\r\n") (io_reply "+OK\r\n")
      (io_reply "+OK logged in\r\n") rfl (by decide)
      (fun s1 h1 => by
        rw [r1] at h1
        cases h1
        decide)
      (fun s1 s2 h1 h2 => by
        rw [r1] at h1
        cases h1
        rw [r2] at h2
        cases h2
        decide)
      rfl rfl rfl rfl rfl
  rw [r1] at e1
  cases e1
  rw [r2] at e2
  cases e2
  rw [r3] at e3
  cases e3
  rw [hs]
  decide

/-! ## C11: the IMAP handler -/

/-- The IMAP handler on an OK reply. -/
theorem imap_handler_ok (s : ngx_mail_session_t) (io : HandlerIO)
    (hto : io.timedout = false) (hok : read_rc s io.recv = some .NGX_OK) :
    ∃ d, io.recv = .data d
      ∧ ngx_mail_proxy_imap_handler s io = some (imap_on_ok (stored s d) io) := by
  obtain ⟨d, hd, hr⟩ := read_rc_ok s io.recv hok
  refine ⟨d, hd, ?_⟩
  simp only [ngx_mail_proxy_imap_handler, hto, Bool.false_eq_true, if_false, hr]

/-- C11: for every tag, login and passwd, the step of the IMAP handler on an OK
reply (nothing timing out, the pool allocating) returns and: in `ngx_imap_start`
offers upstream exactly tag ++ `LOGIN ` ++ login ++ ` ` ++ passwd ++ CR LF and
moves to `ngx_imap_passwd`; in `ngx_imap_login` offers exactly login ++ ` {` ++
decimal(length of passwd) ++ `}` ++ CR LF and moves to `ngx_imap_user`; in
`ngx_imap_user` offers exactly passwd ++ CR LF and moves to `ngx_imap_passwd`;
in `ngx_imap_passwd` offers nothing upstream, installs `ngx_mail_proxy_handler`
on all four events and starts the relay with the pass whose destination is the
client. Each line has its declared length the number of its bytes. -/
theorem C11_imap_steps (s : ngx_mail_session_t) (io : HandlerIO)
    (hto : io.timedout = false) (hok : read_rc s io.recv = some .NGX_OK)
    (halloc : io.alloc_ok = true) :
    ∃ s1, ngx_mail_proxy_imap_handler s io = some s1
      ∧ (s.mail_state = .imap .ngx_imap_start →
          sent_upstream s1.trace = sent_upstream s.trace ++
              [{ len := (s.tag ++ bytes "LOGIN " ++ s.login ++ bytes " " ++ s.passwd
                    ++ [CR, LF]).length,
                 data := s.tag ++ bytes "LOGIN " ++ s.login ++ bytes " " ++ s.passwd
                    ++ [CR, LF] }]
            ∧ s1.mail_state = .imap .ngx_imap_passwd)
      ∧ (s.mail_state = .imap .ngx_imap_login →
          sent_upstream s1.trace = sent_upstream s.trace ++
              [{ len := (s.login ++ bytes " \x7b" ++ decimal s.passwd.length ++ bytes "\x7d"
                    ++ [CR, LF]).length,
                 data := s.login ++ bytes " \x7b" ++ decimal s.passwd.length ++ bytes "\x7d"
                    ++ [CR, LF] }]
            ∧ s1.mail_state = .imap .ngx_imap_user)
      ∧ (s.mail_state = .imap .ngx_imap_user →
          sent_upstream s1.trace = sent_upstream s.trace ++
              [{ len := (s.passwd ++ [CR, LF]).length, data := s.passwd ++ [CR, LF] }]
            ∧ s1.mail_state = .imap .ngx_imap_passwd)
      ∧ (s.mail_state = .imap .ngx_imap_passwd →
          sent_upstream s1.trace = sent_upstream s.trace
            ∧ s1.trace = s.trace ++
                [.add_timer_client s.timeout, .del_timer_upstream,
                  .log_fixed "client logged in", .proxy_handler .client_write]
            ∧ (ngx_mail_proxy_handler_direction .client_write).2.1 = .client
            ∧ s1.client_read_handler = .ngx_mail_proxy_handler
            ∧ s1.client_write_handler = .ngx_mail_proxy_handler
            ∧ s1.upstream_read_handler = .ngx_mail_proxy_handler
            ∧ s1.upstream_write_handler = .ngx_mail_proxy_handler
            ∧ s1.mail_state = .imap .ngx_imap_passwd) := by
  obtain ⟨d, _, hh⟩ := imap_handler_ok s io hto hok
  refine ⟨_, hh, ?_, ?_, ?_, ?_⟩
  · intro hst
    simp only [imap_on_ok, stored, hst, halloc, Bool.true_eq_false, if_false]
    exact handler_send_sent _ io _
  · intro hst
    simp only [imap_on_ok, stored, hst, halloc, Bool.true_eq_false, if_false]
    exact handler_send_sent _ io _
  · intro hst
    have e : (s.passwd ++ [CR, LF]).length = s.passwd.length + 2 := by simp
    simp only [imap_on_ok, stored, hst, halloc, Bool.true_eq_false, if_false, e]
    exact handler_send_sent _ io _
  · intro hst
    simp only [imap_on_ok, stored, hst, handler_relay, sent_upstream_append, and_self,
      true_and]
    simp [sent_upstream, ngx_mail_proxy_handler_direction]

/-- C11 witness (Scenario 2): in `ngx_imap_login` with login `alice` and passwd
`secret`, the reply `+ go` is answered with `alice {6}`. -/
theorem C11_imap_steps_witness :
    sent_upstream imap_login_alice_1.trace
      = [{ len := 11, data := bytes "alice \x7b6\x7d\r\n" }] := by
  obtain ⟨s1, h, _, hs, _⟩ := C11_imap_steps imap_login_alice (io_reply "+ go\r\n") rfl
    (by decide) rfl
  have e : imap_login_alice_1 = s1 := by
    simp only [imap_login_alice_1, h, Option.getD_some]
  rw [e, (hs rfl).1]
  decide

/-! ## C13: HELO or EHLO -/

/-- C13: for every server name, on an OK reply in `smtp_start` (nothing timing
out, the pool allocating) the SMTP handler returns and offers upstream exactly
one line, (`EHLO ` if the client used EHLO or xclient is on, otherwise `HELO `)
++ server_name ++ CR LF, with its declared length the number of its bytes; the
next state is `smtp_helo_from` when auth_method is NONE and `smtp_helo` for
every other auth_method. -/
theorem C13_helo_or_ehlo (s : ngx_mail_session_t) (io : HandlerIO)
    (hto : io.timedout = false) (hok : read_rc s io.recv = some .NGX_OK)
    (hst : s.mail_state = .smtp .ngx_smtp_start) (halloc : io.alloc_ok = true) :
    ∃ s1, ngx_mail_proxy_smtp_handler s io = some s1
      ∧ sent_upstream s1.trace = sent_upstream s.trace ++
          [{ len := ((if s.esmtp = true ∨ s.xclient = true then bytes "EHLO "
                else bytes "HELO ") ++ s.server_name ++ [CR, LF]).length,
             data := (if s.esmtp = true ∨ s.xclient = true then bytes "EHLO "
                else bytes "HELO ") ++ s.server_name ++ [CR, LF] }]
      ∧ s1.mail_state = (if s.auth_method = .NGX_MAIL_AUTH_NONE
          then .smtp .ngx_smtp_helo_from else .smtp .ngx_smtp_helo) := by
  obtain ⟨d, _, hh⟩ := smtp_handler_ok s io hto hok
  refine ⟨_, hh, ?_⟩
  have hE : (bytes "EHLO ").length = 5 := by decide
  have hH : (bytes "HELO ").length = 5 := by decide
  have hv : (if s.esmtp = true ∨ s.xclient = true then bytes "EHLO " else bytes "HELO ")
      = (if (s.esmtp || s.xclient) = true then bytes "EHLO " else bytes "HELO ") := by
    simp only [Bool.or_eq_true]
  have hl : ((if (s.esmtp || s.xclient) = true then bytes "EHLO " else bytes "HELO ")
      ++ s.server_name ++ [CR, LF]).length = 5 + s.server_name.length + 2 := by
    split <;> simp only [List.length_append, hE, hH, List.length_cons, List.length_nil]
  rw [hv, hl]
  simp only [smtp_on_ok, stored, hst, halloc, Bool.true_eq_false, if_false]
  by_cases ha : s.auth_method = .NGX_MAIL_AUTH_NONE
  · rw [if_pos ha, if_pos ha]
    exact handler_send_sent _ io _
  · rw [if_neg ha, if_neg ha]
    exact handler_send_sent _ io _

/-- C13 witness (Scenario 4): the greeting `220 hi` is answered with
`EHLO gw.example` and the state becomes `smtp_helo`. -/
theorem C13_helo_or_ehlo_witness :
    sent_upstream smtp_start_gw_1.trace = [{ len := 17, data := bytes "EHLO gw.example\r\n" }]
      ∧ smtp_start_gw_1.mail_state = .smtp .ngx_smtp_helo := by
  obtain ⟨s1, h, hs, hm⟩ := C13_helo_or_ehlo smtp_start_gw (io_reply "220 hi\r\n") rfl
    (by decide) rfl rfl
  have e : smtp_start_gw_1 = s1 := by
    simp only [smtp_start_gw_1, h, Option.getD_some]
  rw [e, hs, hm]
  exact ⟨by decide, by decide⟩

/-! ## C14: mechanisms that are refused -/

/-- C14: for every SMTP session whose auth_method is LOGIN_USERNAME, CRAM_MD5,
EXTERNAL, APOP or has no name, on an OK reply in `smtp_helo` the handler returns
having closed the upstream connection and called the session's internal server
error, and has offered no line to upstream. -/
theorem C14_refused_mechanisms (s : ngx_mail_session_t) (io : HandlerIO)
    (hto : io.timedout = false) (hok : read_rc s io.recv = some .NGX_OK)
    (hst : s.mail_state = .smtp .ngx_smtp_helo)
    (hauth : s.auth_method ∈ [AuthMethod.NGX_MAIL_AUTH_LOGIN_USERNAME,
      .NGX_MAIL_AUTH_CRAM_MD5, .NGX_MAIL_AUTH_EXTERNAL, .NGX_MAIL_AUTH_APOP, .other]) :
    ∃ s1, ngx_mail_proxy_smtp_handler s io = some s1
      ∧ s1.trace = s.trace ++ [.close_upstream, .session_internal_server_error]
      ∧ sent_upstream s1.trace = sent_upstream s.trace := by
  obtain ⟨d, _, hh⟩ := smtp_handler_ok s io hto hok
  refine ⟨_, hh, ?_⟩
  simp only [List.mem_cons, List.mem_singleton, List.not_mem_nil, or_false] at hauth
  rcases hauth with h | h | h | h | h <;>
    simp [smtp_on_ok, stored, hst, h, ngx_mail_proxy_smtp_auth_handler,
      ngx_mail_proxy_internal_server_error, sent_upstream_append, sent_upstream]

/-- C14 witness: CRAM-MD5 after `250 ok` in `smtp_helo`. -/
theorem C14_refused_mechanisms_witness :
    smtp_helo_cram_1.trace = [.close_upstream, .session_internal_server_error]
      ∧ sent_upstream smtp_helo_cram_1.trace = [] := by
  obtain ⟨s1, h, ht, hs⟩ := C14_refused_mechanisms smtp_helo_cram (io_reply "250 ok\r\n") rfl
    (by decide) rfl (by decide)
  have e : smtp_helo_cram_1 = s1 := by
    simp only [smtp_helo_cram_1, h, Option.getD_some]
  rw [e, hs, ht]
  exact ⟨by decide, by decide⟩

/-! ## C15: hand-off to the client -/

/-- C15: on an OK reply in any of `smtp_auth_plain`, `smtp_auth_password`,
`smtp_from`, `smtp_to` the SMTP handler returns having offered nothing to
upstream and left `mail_state` as it was; it has set `s->out` to exactly the
bytes `pos .. last` of the upstream buffer (the classified reply with its
CR LF), called `ngx_mail_send`, installed the protocol's `auth_state` parser as
the client read handler, and reset the upstream buffer to
`pos = last = start`. -/
theorem C15_hand_off (s : ngx_mail_session_t) (io : HandlerIO)
    (hto : io.timedout = false) (hok : read_rc s io.recv = some .NGX_OK)
    (hst : s.mail_state ∈ [MailState.smtp .ngx_smtp_auth_plain,
      .smtp .ngx_smtp_auth_password, .smtp .ngx_smtp_from, .smtp .ngx_smtp_to]) :
    ∃ s1 d, io.recv = .data d ∧ ngx_mail_proxy_smtp_handler s io = some s1
      ∧ sent_upstream s1.trace = sent_upstream s.trace
      ∧ s1.mail_state = s.mail_state
      ∧ s1.out = (recv_buf s.proxy_buffer d).content
      ∧ s1.trace = s.trace ++ [.mail_send]
      ∧ s1.client_read_handler = .auth_state
      ∧ s1.proxy_buffer.pos = s1.proxy_buffer.start
      ∧ s1.proxy_buffer.last = s1.proxy_buffer.start := by
  obtain ⟨d, hd, hh⟩ := smtp_handler_ok s io hto hok
  refine ⟨_, d, hd, hh, ?_⟩
  simp only [List.mem_cons, List.mem_singleton, List.not_mem_nil, or_false] at hst
  rcases hst with h | h | h | h <;>
    simp [smtp_on_ok, stored, h, sent_upstream_append, sent_upstream]

/-- C15 witness (Scenario 4): `235 2.0.0 OK` in `smtp_auth_plain` becomes
`s->out` and nothing is sent upstream. -/
theorem C15_hand_off_witness :
    smtp_auth_plain_u_p_1.out = bytes "235 2.0.0 OK\r\n"
      ∧ sent_upstream smtp_auth_plain_u_p_1.trace = []
      ∧ smtp_auth_plain_u_p_1.mail_state = .smtp .ngx_smtp_auth_plain := by
  obtain ⟨s1, d, hd, h, hs, hm, ho, _⟩ := C15_hand_off smtp_auth_plain_u_p
    (io_reply "235 2.0.0 OK\r\n") rfl (by decide) (by decide)
  have e : smtp_auth_plain_u_p_1 = s1 := by
    simp only [smtp_auth_plain_u_p_1, h, Option.getD_some]
  have hd2 : d = bytes "235 2.0.0 OK\r\n" := by
    have : RecvResult.data (bytes "235 2.0.0 OK\r\n") = RecvResult.data d := hd
    exact (RecvResult.data.inj this).symm
  rw [e, hs, hm, ho, hd2]
  exact ⟨by decide, by decide, by decide⟩

/-! ## C16: the reply kept for the client -/

/-- C16 (as stated, refuted): with `pass_error_message` on, the reply
`535 5.7.8 bad creds` in `smtp_auth_plain` gives ERROR, and `s->out` is the
whole reply with its CR LF, not the reply without them. -/
theorem C16_out_keeps_crlf :
    smtp_auth_plain_pem.pass_error_message = true
      ∧ read_rc smtp_auth_plain_pem (.data (bytes "535 5.7.8 bad creds\r\n")) = some .NGX_ERROR
      ∧ (ngx_mail_proxy_read_response smtp_auth_plain_pem
            (.data (bytes "535 5.7.8 bad creds\r\n"))).map (fun r => r.2.out)
          = some (bytes "535 5.7.8 bad creds\r\n")
      ∧ bytes "535 5.7.8 bad creds\r\n" ≠ bytes "535 5.7.8 bad creds" := by
  refine ⟨rfl, by decide, by decide, by decide⟩

/-- C16 (amended): for every complete reply that fails classification (the
protocol switch is left at `p` without a chunk being expected) the function
returns ERROR; when `pass_error_message` is on, `s->out` is set to the bytes
`pos .. last` of the buffer, the whole reply including its trailing CR LF, and
only the logged text is the reply from `p` without the CR LF; when it is off,
`s->out` is left unchanged. -/
theorem C16_error_payload (s : ngx_mail_session_t) (d : List Nat) (p : Option Nat)
    (hd : d ≠ []) (hc : complete (recv_buf s.proxy_buffer d))
    (hcl : classify s.mail_state s.tag (recv_buf s.proxy_buffer d)
      = some (.no_match p false)) :
    ∃ s1, ngx_mail_proxy_read_response s (.data d) = some (.NGX_ERROR, s1)
      ∧ (s.pass_error_message = true →
          s1.out = (recv_buf s.proxy_buffer d).content
          ∧ s1.trace = s.trace ++
              [.log_error "upstream sent invalid response: \"%V\""
                (p.bind (fun p =>
                  if p + 2 ≤ (recv_buf s.proxy_buffer d).last then
                    some (mem_read (recv_buf s.proxy_buffer d).mem p
                      ((recv_buf s.proxy_buffer d).last - p - 2))
                  else none))])
      ∧ (s.pass_error_message = false → s1.out = s.out) := by
  obtain ⟨h4, hcr, hlf⟩ := hc
  cases d with
  | nil => exact absurd rfl hd
  | cons d0 ds =>
    simp only [ngx_mail_proxy_read_response]
    rw [if_neg (by omega)]
    rw [if_neg (by simp [hcr, hlf])]
    simp only [hcl, Bool.false_eq_true, if_false]
    cases hp : s.pass_error_message with
    | false =>
      refine ⟨_, by rw [if_pos rfl], ?_, ?_⟩
      · intro h
        exact absurd h (by decide)
      · intro _
        rfl
    | true =>
      refine ⟨_, by rw [if_neg (by decide)], ?_, ?_⟩
      · intro _
        exact ⟨rfl, rfl⟩
      · intro h
        exact absurd h (by decide)

/-- C16 witness (Scenario 5): `535 5.7.8 bad creds` with `pass_error_message`
on. -/
theorem C16_error_payload_witness :
    ∃ s1, ngx_mail_proxy_read_response smtp_auth_plain_pem
          (.data (bytes "535 5.7.8 bad creds\r\n")) = some (.NGX_ERROR, s1)
      ∧ s1.out = bytes "535 5.7.8 bad creds\r\n"
      ∧ s1.trace = [.log_error "upstream sent invalid response: \"%V\""
          (some (bytes "535 5.7.8 bad creds"))] := by
  obtain ⟨s1, h, hon, _⟩ := C16_error_payload smtp_auth_plain_pem
    (bytes "535 5.7.8 bad creds\r\n") (some 0) (by decide) (by decide) (by decide)
  obtain ⟨ho, ht⟩ := hon rfl
  refine ⟨s1, h, ?_, ?_⟩
  · rw [ho]
    decide
  · rw [ht]
    decide

/-! ## C17: an ERROR from the read -/

/-- An ERROR call leaves the state and `quit` alone and offers nothing to
upstream. -/
theorem read_error_frame (s s1 : ngx_mail_session_t) (r : RecvResult)
    (h : ngx_mail_proxy_read_response s r = some (.NGX_ERROR, s1)) :
    s1.mail_state = s.mail_state ∧ s1.quit = s.quit
      ∧ sent_upstream s1.trace = sent_upstream s.trace := by
  cases r with
  | error =>
    simp only [ngx_mail_proxy_read_response, Option.some.injEq, Prod.mk.injEq, true_and] at h
    subst h
    exact ⟨rfl, rfl, rfl⟩
  | again => simp [ngx_mail_proxy_read_response] at h
  | data d =>
    cases d with
    | nil =>
      simp only [ngx_mail_proxy_read_response, Option.some.injEq, Prod.mk.injEq, true_and] at h
      subst h
      exact ⟨rfl, rfl, rfl⟩
    | cons d0 ds =>
      simp only [ngx_mail_proxy_read_response] at h
      split at h
      · simp at h
      · split at h
        · split at h
          · simp only [Option.some.injEq, Prod.mk.injEq, true_and] at h
            subst h
            simp [sent_upstream_append, sent_upstream]
          · simp at h
        · split at h
          · simp at h
          · simp at h
          · simp at h
          · split at h
            · simp at h
            · split at h
              · simp only [Option.some.injEq, Prod.mk.injEq, true_and] at h
                subst h
                simp [sent_upstream_append, sent_upstream]
              · simp only [Option.some.injEq, Prod.mk.injEq, true_and] at h
                subst h
                simp [sent_upstream_append, sent_upstream]

/-- The three authentication handlers on an ERROR from the read. -/
theorem handler_error (s : ngx_mail_session_t) (io : HandlerIO)
    (hto : io.timedout = false) (herr : read_rc s io.recv = some .NGX_ERROR) :
    ∃ s1, ngx_mail_proxy_read_response s io.recv = some (.NGX_ERROR, s1)
      ∧ ngx_mail_proxy_pop3_handler s io = some (ngx_mail_proxy_upstream_error s1)
      ∧ ngx_mail_proxy_imap_handler s io = some (ngx_mail_proxy_upstream_error s1)
      ∧ ngx_mail_proxy_smtp_handler s io = some (ngx_mail_proxy_upstream_error s1) := by
  simp only [read_rc] at herr
  cases hr : ngx_mail_proxy_read_response s io.recv with
  | none => simp [hr] at herr
  | some res =>
    obtain ⟨rc, s1⟩ := res
    rw [hr] at herr
    simp only [Option.map_some', Option.some.injEq] at herr
    subst herr
    refine ⟨s1, rfl, ?_, ?_, ?_⟩
    · simp only [ngx_mail_proxy_pop3_handler, hto, Bool.false_eq_true, if_false, hr]
    · simp only [ngx_mail_proxy_imap_handler, hto, Bool.false_eq_true, if_false, hr]
    · simp only [ngx_mail_proxy_smtp_handler, hto, Bool.false_eq_true, if_false, hr]

/-- C17: `recv` returning 0 or ERROR makes the read return ERROR; and whenever
the read of an upstream reply returns ERROR (nothing having timed out), each of
the three authentication handlers returns the session
`ngx_mail_proxy_upstream_error` leaves: the upstream connection is closed, then
if `s->out` is non-empty `quit` is set and `ngx_mail_send` flushes it, the
session's internal server error not being called, and otherwise the session's
internal server error is called and `quit` is as before. Nothing is offered to
upstream and `mail_state` is as before. -/
theorem C17_upstream_error (s : ngx_mail_session_t) (io : HandlerIO)
    (hto : io.timedout = false) (herr : read_rc s io.recv = some .NGX_ERROR) :
    read_rc s .error = some .NGX_ERROR ∧ read_rc s (.data []) = some .NGX_ERROR
      ∧ ∃ s1 s2, ngx_mail_proxy_read_response s io.recv = some (.NGX_ERROR, s1)
        ∧ ngx_mail_proxy_pop3_handler s io = some s2
        ∧ ngx_mail_proxy_imap_handler s io = some s2
        ∧ ngx_mail_proxy_smtp_handler s io = some s2
        ∧ (s1.out ≠ [] →
            s2.trace = s1.trace ++ [.close_upstream, .mail_send] ∧ s2.quit = true
              ∧ s2.out = s1.out)
        ∧ (s1.out = [] →
            s2.trace = s1.trace ++ [.close_upstream, .session_internal_server_error]
              ∧ s2.quit = s.quit)
        ∧ sent_upstream s2.trace = sent_upstream s.trace
        ∧ s2.mail_state = s.mail_state := by
  refine ⟨rfl, rfl, ?_⟩
  obtain ⟨s1, hr, hp, hi, hs⟩ := handler_error s io hto herr
  obtain ⟨hm, hq, hsent⟩ := read_error_frame s s1 io.recv hr
  refine ⟨s1, _, hr, hp, hi, hs, ?_, ?_, ?_, ?_⟩
  · intro hne
    have hl : ¬ (s1.out.length = 0) := by
      intro h0
      exact hne (List.length_eq_zero.mp h0)
    simp only [ngx_mail_proxy_upstream_error]
    rw [if_neg hl]
    simp
  · intro he
    have hl : s1.out.length = 0 := by rw [he]; rfl
    simp only [ngx_mail_proxy_upstream_error]
    rw [if_pos hl]
    simp [hq]
  · simp only [ngx_mail_proxy_upstream_error]
    split <;> simp [sent_upstream_append, sent_upstream, hsent]
  · simp only [ngx_mail_proxy_upstream_error]
    split <;> exact hm

/-- C17 witness (Scenario 5): `535 5.7.8 bad creds` with `pass_error_message`
on is flushed to the client with `quit` set. -/
theorem C17_upstream_error_witness :
    smtp_auth_plain_pem_1.trace
        = [.log_error "upstream sent invalid response: \"%V\""
            (some (bytes "535 5.7.8 bad creds")), .close_upstream, .mail_send]
      ∧ smtp_auth_plain_pem_1.quit = true
      ∧ smtp_auth_plain_pem_1.mail_state = .smtp .ngx_smtp_auth_plain := by
  obtain ⟨_, _, s1, s2, _, _, _, h, _, _, _, _⟩ := C17_upstream_error smtp_auth_plain_pem
    (io_reply "535 5.7.8 bad creds\r\n") rfl (by decide)
  have e : smtp_auth_plain_pem_1 = s2 := by
    simp only [smtp_auth_plain_pem_1, h, Option.getD_some]
  have r : ngx_mail_proxy_smtp_handler smtp_auth_plain_pem
      (io_reply "535 5.7.8 bad creds\r\n") = some smtp_auth_plain_pem_1 := rfl
  rw [r] at h
  refine ⟨by decide, by decide, by decide⟩

/-! ## C12: the state a proxy session starts in -/

/-- Bytes received into an empty buffer are its content. -/
theorem content_recv_fresh (b : ngx_buf_t) (d : List Nat) (h : b.pos = b.last) :
    (recv_buf b d).content = d := by
  simp only [ngx_buf_t.content, recv_buf, h]
  have e : b.last + d.length - b.last = d.length := by omega
  rw [e]
  apply List.ext_getElem
  · simp [mem_read]
  · intro i h1 h2
    simp only [mem_read, List.getElem_map, List.getElem_range, mem_write]
    rw [if_pos ⟨by omega, by omega⟩]
    have e2 : b.last + i - b.last = i := by omega
    rw [e2, List.getD_eq_getElem _ _ h2]

/-- C12 (as stated, refuted): the session `imap_login_alice` arrives in
`ngx_imap_login`; after `ngx_mail_proxy_init` it is in `ngx_imap_start`, the
first reply `+ go` is classified ERROR, and the handler closes the upstream
connection having offered nothing to it (no `alice {6}` line). -/
theorem C12_init_overwrites_state :
    imap_login_alice.mail_state = .imap .ngx_imap_login
      ∧ imap_login_alice_init.mail_state = .imap .ngx_imap_start
      ∧ read_rc imap_login_alice_init (.data (bytes "+ go\r\n")) = some .NGX_ERROR
      ∧ ngx_mail_proxy_imap_handler imap_login_alice_init (io_reply "+ go\r\n")
          = some imap_login_alice_init_1
      ∧ sent_upstream imap_login_alice_init_1.trace = []
      ∧ imap_login_alice_init_1.trace
          = [.log_error "upstream sent invalid response: \"%s\"" (some (bytes "+ go")),
              .close_upstream, .session_internal_server_error] := by
  refine ⟨rfl, by decide, by decide, rfl, by decide, by decide⟩

/-- C12 (amended): whatever state an IMAP session arrives with, once
`ngx_mail_proxy_init` has got its context, its connection and its buffer, the
state is `ngx_imap_start` and the upstream read handler is the IMAP handler;
and when no TLS to upstream is configured and the buffer is created empty, the
first reply `+ go` is classified ERROR and the IMAP handler returns having
offered nothing to upstream, the state still `ngx_imap_start`. -/
theorem C12_init_imap_start (s : ngx_mail_session_t) (io : InitIO)
    (st : ngx_imap_state_e) (b : ngx_buf_t) (hst : s.mail_state = .imap st)
    (hp : io.pcalloc_ok = true)
    (hc : io.connect_rc = .NGX_OK ∨ io.connect_rc = .NGX_AGAIN)
    (hb : io.temp_buf = some b) :
    (ngx_mail_proxy_init s io).1.mail_state = .imap .ngx_imap_start
      ∧ (io.enable_upstream = false → b.pos = b.last →
          (ngx_mail_proxy_init s io).1.upstream_read_handler = .ngx_mail_proxy_imap_handler
          ∧ read_rc (ngx_mail_proxy_init s io).1 (.data (bytes "+ go\r\n")) = some .NGX_ERROR
          ∧ ∃ s2, ngx_mail_proxy_imap_handler (ngx_mail_proxy_init s io).1
                (io_reply "+ go\r\n") = some s2
              ∧ sent_upstream s2.trace = sent_upstream s.trace
              ∧ s2.mail_state = .imap .ngx_imap_start) := by
  have hc2 : ¬ (io.connect_rc = .NGX_ERROR ∨ io.connect_rc = .NGX_BUSY
      ∨ io.connect_rc = .NGX_DECLINED) := by
    rcases hc with h | h <;> rw [h] <;> decide
  have hinit : ∀ he : io.enable_upstream = false,
      (ngx_mail_proxy_init s io).1
        = ngx_mail_proxy_set_handler
            { s with log_action := some "connecting to upstream",
                     client_read_handler := .ngx_mail_proxy_block_read,
                     proxy_buffer := b, out := [] } := by
    intro he
    simp only [ngx_mail_proxy_init, hp, Bool.true_eq_false, if_false, hc2, hb, he, if_true]
  constructor
  · simp only [ngx_mail_proxy_init, hp, Bool.true_eq_false, if_false, hc2, hb]
    split
    · simp [ngx_mail_proxy_set_handler, hst]
    · split
      · simp [ngx_mail_proxy_internal_server_error, ngx_mail_proxy_set_handler, hst]
      · split
        · simp [ngx_mail_proxy_set_handler, hst]
        · simp only [ngx_mail_upstream_ssl_handshake_handler]
          repeat' split
          all_goals simp [ngx_mail_proxy_set_handler, hst]
  · intro he hpos
    have hs0 := hinit he
    have hm : (ngx_mail_proxy_init s io).1.mail_state = .imap .ngx_imap_start := by
      rw [hs0]; simp [ngx_mail_proxy_set_handler, hst]
    have hbuf : (ngx_mail_proxy_init s io).1.proxy_buffer = b := by
      rw [hs0]; simp [ngx_mail_proxy_set_handler, hst]
    have htr : (ngx_mail_proxy_init s io).1.trace = s.trace := by
      rw [hs0]; simp [ngx_mail_proxy_set_handler, hst]
    have hh : (ngx_mail_proxy_init s io).1.upstream_read_handler
        = .ngx_mail_proxy_imap_handler := by
      rw [hs0]; simp [ngx_mail_proxy_set_handler, hst]
    have hR : (recv_buf (ngx_mail_proxy_init s io).1.proxy_buffer (bytes "+ go\r\n")).content
        = bytes "+ go\r\n" := by
      rw [hbuf]; exact content_recv_fresh b _ hpos
    have hrc : read_rc (ngx_mail_proxy_init s io).1 (.data (bytes "+ go\r\n"))
        = some .NGX_ERROR := by
      rw [read_rc_of_content _ _ _ (by decide) hR (by decide) (by decide), hm]
      have h0 := (content_head4 _ _ _ _ _ _ hR).1
      simp only [classify, h0]
      simp [verdict_of]
    refine ⟨hh, hrc, ?_⟩
    obtain ⟨s1, hr, _, hi, _⟩ := handler_error (ngx_mail_proxy_init s io).1
      (io_reply "+ go\r\n") rfl hrc
    obtain ⟨hm1, _, hsent⟩ := read_error_frame _ s1 _ hr
    refine ⟨_, hi, ?_, ?_⟩
    · simp only [ngx_mail_proxy_upstream_error]
      split <;> simp [sent_upstream_append, sent_upstream, hsent, htr]
    · simp only [ngx_mail_proxy_upstream_error]
      split <;> rw [hm1, hm]

/-- C12 witness: the session of Scenario 2 after `ngx_mail_proxy_init`. -/
theorem C12_init_imap_start_witness :
    imap_login_alice_init.mail_state = .imap .ngx_imap_start
      ∧ read_rc imap_login_alice_init (.data (bytes "+ go\r\n")) = some .NGX_ERROR :=
  have h := C12_init_imap_start imap_login_alice init_plain_io .ngx_imap_login (empty_buf 64)
    rfl rfl (Or.inr rfl) rfl
  ⟨h.1, (h.2 rfl rfl).2.1⟩

/-! ## The relay pump: buffers and logs -/

theorem accepted_append (dst : Conn) (a b : List RelayEvent) :
    accepted dst (a ++ b) = accepted dst a ++ accepted dst b := by
  induction a with
  | nil => rfl
  | cons e es ih => cases e <;> simp [accepted, ih]

theorem received_append (src : Conn) (a b : List RelayEvent) :
    received src (a ++ b) = received src a ++ received src b := by
  induction a with
  | nil => rfl
  | cons e es ih =>
    cases e with
    | recv c room r => cases r <;> simp [received, ih]
    | send c o n => simp [received, ih]
    | log_info m => simp [received, ih]
    | close_session => simp [received, ih]
    | handle_write_event c => simp [received, ih]
    | handle_read_event c => simp [received, ih]
    | add_timer_client t => simp [received, ih]

theorem mem_read_drop (mem : Nat → Nat) (p m n : Nat) :
    (mem_read mem p m).drop n = mem_read mem (p + n) (m - n) := by
  apply List.ext_getElem
  · simp [mem_read]
  · intro i h1 h2
    simp only [mem_read, List.getElem_drop, List.getElem_map, List.getElem_range]
    congr 1
    omega

/-- Moving `pos` forward drops the bytes passed over. -/
theorem content_advance (b : ngx_buf_t) (n : Nat) :
    ({ b with pos := b.pos + n } : ngx_buf_t).content = b.content.drop n := by
  simp only [ngx_buf_t.content, mem_read_drop]
  congr 1
  omega

/-- Bytes received are appended to the content. -/
theorem content_recv (b : ngx_buf_t) (d : List Nat) (h : b.pos ≤ b.last) :
    (recv_buf b d).content = b.content ++ d := by
  simp only [ngx_buf_t.content, recv_buf]
  apply List.ext_getElem
  · simp only [mem_read_length, List.length_append]
    omega
  · intro i h1 h2
    simp only [mem_read_length] at h1
    simp only [mem_read, List.getElem_map, List.getElem_range, mem_write]
    by_cases hi : i < b.last - b.pos
    · rw [if_neg (by omega), List.getElem_append_left (by simpa using hi)]
      simp
    · rw [if_pos ⟨by omega, by omega⟩, List.getElem_append_right (by simpa using hi)]
      simp only [List.length_map, List.length_range]
      have e : b.pos + i - b.last = i - (b.last - b.pos) := by omega
      rw [e, List.getD_eq_getElem _ _ (by omega)]

/-- An empty buffer has no content. -/
theorem content_reset (b : ngx_buf_t) :
    ({ b with pos := b.start, last := b.start } : ngx_buf_t).content = [] := by
  simp [ngx_buf_t.content, mem_read]

theorem bounded_mono (l1 l2 : List RelayEvent) (hp : l1 <+: l2)
    (h : ∀ e ∈ l2, e.bounded = true) : ∀ e ∈ l1, e.bounded = true := by
  intro e he
  exact h e (hp.subset he)

theorem direction_src (ev : Ev) :
    (ngx_mail_proxy_handler_direction ev).1 = (ngx_mail_proxy_handler_direction ev).2.2.src := by
  cases ev <;> rfl

theorem direction_dst (ev : Ev) :
    (ngx_mail_proxy_handler_direction ev).2.1
      = (ngx_mail_proxy_handler_direction ev).2.2.dst := by
  cases ev <;> rfl

/-! ## The relay pump: one turn of the loop -/

theorem conserved_frame (init : List Nat) (sel0 : BufSel) (r r1 : Relay)
    (hc : conserved init sel0 r) (hb : r1.buf sel0 = r.buf sel0)
    (ha : accepted sel0.dst r1.log = accepted sel0.dst r.log)
    (hr : received sel0.src r1.log = received sel0.src r.log) :
    conserved init sel0 r1 := by
  unfold conserved at hc ⊢
  rw [hb, ha, hr]
  exact hc

/-- A send of `n > 0` bytes of the direction's own buffer keeps its bytes. -/
theorem conserved_send (init : List Nat) (sel : BufSel) (r r1 : Relay) (n : Int)
    (hc : conserved init sel r) (hn : 0 < n)
    (hwf : (r1.buf sel).wf)
    (hb : (r1.buf sel).content = (r.buf sel).content.drop n.toNat)
    (hlog : r1.log = r.log ++ [.send sel.dst (r.buf sel).content n]) :
    conserved init sel r1 := by
  refine ⟨hwf, ?_⟩
  rw [hb, hlog, accepted_append, received_append]
  simp only [accepted, received, hn, and_self, if_true, List.append_nil, List.append_assoc,
    List.take_append_drop]
  exact hc.2

theorem pump_send_conserved (init : List Nat) (sel0 sel : BufSel) (a : SendAnswer)
    (r : Relay) (hc : conserved init sel0 r) :
    (∀ e ∈ (pump_send sel.dst sel a r).1.log, e.bounded = true) →
    conserved init sel0 (pump_send sel.dst sel a r).1 := by
  unfold pump_send
  dsimp only
  split
  · split
    · intro _
      apply conserved_frame init sel0 r _ hc
      · cases sel <;> cases sel0 <;> rfl
      · cases sel <;> cases sel0 <;>
          simp [Relay.set_flags, BufSel.dst, accepted_append, accepted, NGX_ERROR, *]
      · cases sel <;> cases sel0 <;>
          simp [Relay.set_flags, BufSel.dst, received_append, received]
    · rename_i hcnd hne
      split
      · rename_i hpos
        split
        · rename_i hall
          intro _
          by_cases hs : sel = sel0
          · subst hs
            have hw := hc.1
            apply conserved_send init sel r _ a.n hc hpos
            · cases sel <;>
                simp only [Relay.set_buf, Relay.buf, ngx_buf_t.wf, le_refl, true_and] <;>
                exact le_trans hw.1 (le_trans hw.2.1 hw.2.2)
            · have e : ((r.buf sel).content).length ≤ a.n.toNat := by
                rw [content_length]; omega
              rw [List.drop_eq_nil_of_le e]
              cases sel <;> simp only [Relay.set_buf, Relay.buf] <;> exact content_reset _
            · cases sel <;> rfl
          · apply conserved_frame init sel0 r _ hc
            · cases sel <;> cases sel0 <;> first | rfl | exact absurd rfl hs
            · cases sel <;> cases sel0 <;>
                first
                | exact absurd rfl hs
                | simp [Relay.set_flags, Relay.set_buf, BufSel.dst, accepted_append, accepted]
            · cases sel <;> cases sel0 <;>
                simp [Relay.set_flags, Relay.set_buf, BufSel.dst, received_append, received]
        · rename_i hnall
          intro hb
          by_cases hs : sel = sel0
          · subst hs
            have hw := hc.1
            have hbd : a.n ≤ ((r.buf sel).content.length : Int) := by
              have := hb (.send sel.dst (r.buf sel).content a.n)
                (by cases sel <;> simp [Relay.set_flags, Relay.set_buf, BufSel.dst])
              simpa [RelayEvent.bounded] using this
            rw [content_length] at hbd
            apply conserved_send init sel r _ a.n hc hpos
            · cases sel <;>
                simp only [Relay.set_buf, Relay.buf, ngx_buf_t.wf] <;>
                simp only [Relay.buf] at hbd hw <;>
                unfold ngx_buf_t.wf at hw <;>
                omega
            · cases sel <;> simp only [Relay.set_buf, Relay.buf] <;> exact content_advance _ _
            · cases sel <;> rfl
          · apply conserved_frame init sel0 r _ hc
            · cases sel <;> cases sel0 <;> first | rfl | exact absurd rfl hs
            · cases sel <;> cases sel0 <;>
                first
                | exact absurd rfl hs
                | simp [Relay.set_flags, Relay.set_buf, BufSel.dst, accepted_append, accepted]
            · cases sel <;> cases sel0 <;>
                simp [Relay.set_flags, Relay.set_buf, BufSel.dst, received_append, received]
      · rename_i hnpos
        intro _
        apply conserved_frame init sel0 r _ hc
        · cases sel <;> cases sel0 <;> rfl
        · cases sel <;> cases sel0 <;>
            simp [Relay.set_flags, BufSel.dst, accepted_append, accepted, hnpos]
        · cases sel <;> cases sel0 <;>
            simp [Relay.set_flags, BufSel.dst, received_append, received]
  · intro _
    exact hc

/-- A receive into the direction's own buffer keeps its bytes. -/
theorem conserved_recv (init : List Nat) (sel : BufSel) (r r1 : Relay) (d : List Nat)
    (room : Nat) (hc : conserved init sel r)
    (hwf : (r1.buf sel).wf)
    (hb : (r1.buf sel).content = (r.buf sel).content ++ d)
    (hlog : r1.log = r.log ++ [.recv sel.src room (.data d)]) :
    conserved init sel r1 := by
  refine ⟨hwf, ?_⟩
  rw [hb, hlog, accepted_append, received_append]
  simp only [accepted, received, if_true, List.append_nil, ← List.append_assoc]
  rw [hc.2]

theorem pump_recv_conserved (init : List Nat) (sel0 sel : BufSel) (a : RecvAnswer)
    (r : Relay) (hc : conserved init sel0 r) :
    (∀ e ∈ (pump_recv sel.src sel a r).1.log, e.bounded = true) →
    conserved init sel0 (pump_recv sel.src sel a r).1 := by
  unfold pump_recv
  dsimp only
  split
  · rename_i hcnd
    split
    · intro _
      apply conserved_frame init sel0 r _ hc
      · cases sel <;> cases sel0 <;> rfl
      · cases sel <;> cases sel0 <;>
          simp [Relay.set_flags, BufSel.src, accepted_append, accepted]
      · cases sel <;> cases sel0 <;>
          simp [Relay.set_flags, BufSel.src, received_append, received, *]
    · intro _
      apply conserved_frame init sel0 r _ hc
      · cases sel <;> cases sel0 <;> rfl
      · cases sel <;> cases sel0 <;>
          simp [Relay.set_flags, BufSel.src, accepted_append, accepted]
      · cases sel <;> cases sel0 <;>
          simp [Relay.set_flags, BufSel.src, received_append, received, *]
    · rename_i d ds hd
      intro hb
      by_cases hs : sel = sel0
      · subst hs
        have hw := hc.1
        have hbd : (d :: ds).length ≤ (r.buf sel).end_ - (r.buf sel).last := by
          have := hb (.recv sel.src ((r.buf sel).end_ - (r.buf sel).last) (.data (d :: ds)))
            (by cases sel <;> simp [Relay.set_flags, Relay.set_buf, BufSel.src, hd])
          simpa [RelayEvent.bounded] using this
        apply conserved_recv init sel r _ (d :: ds) ((r.buf sel).end_ - (r.buf sel).last) hc
        · cases sel <;>
            simp only [Relay.set_buf, Relay.buf, ngx_buf_t.wf, recv_buf] <;>
            simp only [Relay.buf] at hbd hw hcnd <;>
            unfold ngx_buf_t.wf at hw <;>
            omega
        · cases sel <;> simp only [Relay.set_buf, Relay.buf] <;>
            exact content_recv _ _ hw.2.1
        · cases sel <;> simp [Relay.set_flags, Relay.set_buf, BufSel.src, hd]
      · apply conserved_frame init sel0 r _ hc
        · cases sel <;> cases sel0 <;> first | rfl | exact absurd rfl hs
        · cases sel <;> cases sel0 <;>
            simp [Relay.set_flags, Relay.set_buf, BufSel.src, accepted_append, accepted]
        · cases sel <;> cases sel0 <;>
            first
            | exact absurd rfl hs
            | simp [Relay.set_flags, Relay.set_buf, BufSel.src, received_append, received, hd]
    · intro _
      apply conserved_frame init sel0 r _ hc
      · cases sel <;> cases sel0 <;> rfl
      · cases sel <;> cases sel0 <;>
          simp [Relay.set_flags, BufSel.src, accepted_append, accepted]
      · cases sel <;> cases sel0 <;>
          simp [Relay.set_flags, BufSel.src, received_append, received, *]
  · intro _
    exact hc

theorem pump_send_log_mono (dst : Conn) (sel : BufSel) (a : SendAnswer) (r : Relay) :
    r.log <+: (pump_send dst sel a r).1.log := by
  unfold pump_send
  dsimp only
  split
  · split
    · cases dst <;> simp [Relay.set_flags]
    · split
      · split <;> cases dst <;> cases sel <;> simp [Relay.set_flags, Relay.set_buf]
      · cases dst <;> simp [Relay.set_flags]
  · exact List.prefix_refl _

theorem pump_recv_log_mono (src : Conn) (sel : BufSel) (a : RecvAnswer) (r : Relay) :
    r.log <+: (pump_recv src sel a r).1.log := by
  unfold pump_recv
  dsimp only
  split
  · split
    · cases src <;> simp [Relay.set_flags]
    · cases src <;> simp [Relay.set_flags]
    · cases src <;> cases sel <;> simp [Relay.set_flags, Relay.set_buf]
    · cases src <;> simp [Relay.set_flags]
  · exact List.prefix_refl _

theorem pump_iter_log_mono (src dst : Conn) (sel : BufSel) (io : IterIO) (dw : Bool)
    (r : Relay) : r.log <+: (pump_iter src dst sel io dw r).1.log := by
  unfold pump_iter
  dsimp only
  have h1 : r.log <+: (if dw = true then pump_send dst sel io.send r else (r, false)).1.log := by
    split
    · exact pump_send_log_mono _ _ _ _
    · exact List.prefix_refl _
  generalize (if dw = true then pump_send dst sel io.send r else (r, false)) = sent at h1 ⊢
  by_cases he : sent.2 = true
  · rw [if_pos he]
    exact h1
  · rw [if_neg he]
    exact h1.trans (pump_recv_log_mono _ _ _ _)

theorem pump_iter_conserved (init : List Nat) (sel0 sel : BufSel) (io : IterIO) (dw : Bool)
    (r : Relay) (hc : conserved init sel0 r)
    (hb : ∀ e ∈ (pump_iter sel.src sel.dst sel io dw r).1.log, e.bounded = true) :
    conserved init sel0 (pump_iter sel.src sel.dst sel io dw r).1 := by
  unfold pump_iter at hb ⊢
  dsimp only at hb ⊢
  have h1 : (∀ e ∈ (if dw = true then pump_send sel.dst sel io.send r else (r, false)).1.log,
        e.bounded = true) →
      conserved init sel0 (if dw = true then pump_send sel.dst sel io.send r else (r, false)).1 := by
    split
    · exact pump_send_conserved init sel0 sel io.send r hc
    · intro _
      exact hc
  generalize (if dw = true then pump_send sel.dst sel io.send r else (r, false)) = sent
    at h1 hb ⊢
  by_cases he : sent.2 = true
  · rw [if_pos he] at hb ⊢
    exact h1 hb
  · rw [if_neg he] at hb ⊢
    dsimp only at hb ⊢
    exact pump_recv_conserved init sel0 sel io.recv _
      (h1 (bounded_mono _ _ (pump_recv_log_mono _ _ _ _) hb)) hb

theorem pump_loop_log_mono (src dst : Conn) (sel : BufSel) (ios : List IterIO) (dw : Bool)
    (r : Relay) : r.log <+: (pump_loop src dst sel ios dw r).1.log := by
  induction ios generalizing dw r with
  | nil => exact pump_iter_log_mono _ _ _ _ _ _
  | cons io rest ih =>
    have hp := pump_iter_log_mono src dst sel io dw r
    unfold pump_loop
    cases h : pump_iter src dst sel io dw r with
    | mk r1 ex =>
      rw [h] at hp
      cases ex with
      | send_error => exact hp
      | again => exact hp.trans (ih true r1)
      | stop => exact hp

theorem pump_loop_conserved (init : List Nat) (sel0 sel : BufSel) (ios : List IterIO)
    (dw : Bool) (r : Relay) (hc : conserved init sel0 r)
    (hb : ∀ e ∈ (pump_loop sel.src sel.dst sel ios dw r).1.log, e.bounded = true) :
    conserved init sel0 (pump_loop sel.src sel.dst sel ios dw r).1 := by
  induction ios generalizing dw r with
  | nil => exact pump_iter_conserved init sel0 sel quiet dw r hc hb
  | cons io rest ih =>
    have hi := pump_iter_conserved init sel0 sel io dw r hc
    unfold pump_loop at hb ⊢
    cases h : pump_iter sel.src sel.dst sel io dw r with
    | mk r1 ex =>
      rw [h] at hi hb
      cases ex with
      | send_error => exact hi hb
      | stop => exact hi hb
      | again =>
        dsimp only at hb ⊢
        exact ih true r1 (hi (bounded_mono _ _ (pump_loop_log_mono _ _ _ _ _ _) hb)) hb

/-! ## The relay pump: a whole call and a run of calls -/

theorem handler_shutdown_tail (r : Relay) (io : PassIO) :
    (∀ sel, (handler_shutdown r io).buf sel = r.buf sel)
      ∧ (∀ d, accepted d (handler_shutdown r io).log = accepted d r.log)
      ∧ (∀ c, received c (handler_shutdown r io).log = received c r.log)
      ∧ r.log <+: (handler_shutdown r io).log := by
  unfold handler_shutdown
  dsimp only
  refine ⟨?_, ?_, ?_, ?_⟩
  · intro sel
    cases sel <;> split <;> first | rfl | (split <;> rfl)
  · intro d
    split
    · simp [Relay.call, ngx_mail_proxy_close_session, accepted_append, accepted]
    · split <;> simp [Relay.call, ngx_mail_proxy_close_session, accepted_append, accepted]
  · intro c
    split
    · simp [Relay.call, ngx_mail_proxy_close_session, received_append, received]
    · split <;> simp [Relay.call, ngx_mail_proxy_close_session, received_append, received]
  · split
    · simp [Relay.call, ngx_mail_proxy_close_session]
    · split <;> simp [Relay.call, ngx_mail_proxy_close_session]

theorem handler_rearm_tail (src dst : Conn) (r : Relay) (io : PassIO) :
    (∀ sel, (handler_rearm src dst r io).1.buf sel = r.buf sel)
      ∧ (∀ d, accepted d (handler_rearm src dst r io).1.log = accepted d r.log)
      ∧ (∀ c, received c (handler_rearm src dst r io).1.log = received c r.log)
      ∧ r.log <+: (handler_rearm src dst r io).1.log := by
  unfold handler_rearm
  refine ⟨?_, ?_, ?_, ?_⟩
  · intro sel
    repeat' split
    all_goals cases sel <;> rfl
  · intro d
    repeat' split
    all_goals simp [Relay.call, ngx_mail_proxy_close_session, accepted_append, accepted]
  · intro c
    repeat' split
    all_goals simp [Relay.call, ngx_mail_proxy_close_session, received_append, received]
  · repeat' split
    all_goals simp [Relay.call, ngx_mail_proxy_close_session]

/-- Outside its loop `ngx_mail_proxy_handler` touches no buffer and makes no
`send` or `recv` call. -/
theorem handler_tail (r : Relay) (io : PassIO) :
    ∃ base, (base = r ∨ base = (ngx_mail_proxy_handler_loop r io).1)
      ∧ (∀ sel, (ngx_mail_proxy_handler r io).1.buf sel = base.buf sel)
      ∧ (∀ d, accepted d (ngx_mail_proxy_handler r io).1.log = accepted d base.log)
      ∧ (∀ c, received c (ngx_mail_proxy_handler r io).1.log = received c base.log)
      ∧ base.log <+: (ngx_mail_proxy_handler r io).1.log := by
  unfold ngx_mail_proxy_handler
  split
  · exact ⟨r, Or.inl rfl, handler_shutdown_tail r io⟩
  · refine ⟨(ngx_mail_proxy_handler_loop r io).1, Or.inr rfl, ?_⟩
    split
    · refine ⟨?_, ?_, ?_, ?_⟩
      · intro sel
        cases sel <;> rfl
      · intro d
        simp [ngx_mail_proxy_close_session, accepted_append, accepted]
      · intro c
        simp [ngx_mail_proxy_close_session, received_append, received]
      · simp [ngx_mail_proxy_close_session]
    · split
      · refine ⟨?_, ?_, ?_, ?_⟩
        · intro sel
          cases sel <;> rfl
        · intro d
          simp [Relay.call, Relay.proxying, ngx_mail_proxy_close_session, accepted_append,
            accepted]
        · intro c
          simp [Relay.call, Relay.proxying, ngx_mail_proxy_close_session, received_append,
            received]
        · simp [Relay.call, Relay.proxying, ngx_mail_proxy_close_session]
      · have h := handler_rearm_tail (ngx_mail_proxy_handler_direction io.ev).1
          (ngx_mail_proxy_handler_direction io.ev).2.1
          (ngx_mail_proxy_handler_loop r io).1.proxying io
        refine ⟨?_, h.2.1, h.2.2.1, h.2.2.2⟩
        intro sel
        rw [h.1 sel]
        cases sel <;> rfl

theorem handler_loop_log_mono (r : Relay) (io : PassIO) :
    r.log <+: (ngx_mail_proxy_handler_loop r io).1.log :=
  pump_loop_log_mono _ _ _ _ _ _

theorem handler_log_mono (r : Relay) (io : PassIO) :
    r.log <+: (ngx_mail_proxy_handler r io).1.log := by
  obtain ⟨base, hbase, _, _, _, hp⟩ := handler_tail r io
  rcases hbase with h | h
  · rw [h] at hp
    exact hp
  · rw [h] at hp
    exact (handler_loop_log_mono r io).trans hp

theorem handler_conserved (init : List Nat) (sel0 : BufSel) (r : Relay) (io : PassIO)
    (hc : conserved init sel0 r)
    (hb : ∀ e ∈ (ngx_mail_proxy_handler r io).1.log, e.bounded = true) :
    conserved init sel0 (ngx_mail_proxy_handler r io).1 := by
  obtain ⟨base, hbase, h1, h2, h3, hp⟩ := handler_tail r io
  have hcb : conserved init sel0 base := by
    rcases hbase with h | h
    · rw [h]
      exact hc
    · rw [h]
      have hbl := bounded_mono _ _ hp hb
      rw [h] at hbl
      unfold ngx_mail_proxy_handler_loop at hbl ⊢
      rw [direction_src, direction_dst] at hbl ⊢
      exact pump_loop_conserved init sel0 _ _ _ _ hc hbl
  exact conserved_frame init sel0 base _ hcb (h1 sel0) (h2 _) (h3 _)

theorem relay_run_log_mono (r : Relay) (fs : List Fired) : r.log <+: (relay_run r fs).log := by
  induction fs generalizing r with
  | nil => exact List.prefix_refl _
  | cons f rest ih =>
    unfold relay_run
    split
    · exact List.prefix_refl _
    · exact (handler_log_mono (r.fire f) f.pass).trans (ih _)

theorem relay_run_conserved (init : List Nat) (sel0 : BufSel) (r : Relay) (fs : List Fired)
    (hc : conserved init sel0 r) (hb : ∀ e ∈ (relay_run r fs).log, e.bounded = true) :
    conserved init sel0 (relay_run r fs) := by
  induction fs generalizing r with
  | nil => exact hc
  | cons f rest ih =>
    unfold relay_run at hb ⊢
    split
    · exact hc
    · rename_i hcl
      rw [if_neg hcl] at hb
      have hf : conserved init sel0 (r.fire f) :=
        conserved_frame init sel0 r _ hc (by cases sel0 <;> rfl) rfl rfl
      exact ih _ (handler_conserved init sel0 _ _ hf
        (bounded_mono _ _ (relay_run_log_mono _ _) hb)) hb

/-! ## C18: bytes are conserved -/

/-- C18: start from a relay whose buffers have their pointers in order and
whose log is empty, and run any sequence of calls of `ngx_mail_proxy_handler`
in which every `send` returned at most the number of bytes offered and every
`recv` at most the room offered. Then for each direction the bytes `dst->send`
accepted so far, followed by the bytes the buffer holds in `pos .. last`, are
the bytes the buffer held at the start followed by all bytes `src->recv`
returned so far, in the same order; and the pointers are still in order. -/
theorem C18_relay_conserves (r : Relay) (fs : List Fired)
    (hwf1 : r.s.buffer.wf) (hwf2 : r.s.proxy_buffer.wf) (hlog : r.log = [])
    (hb : ∀ e ∈ (relay_run r fs).log, e.bounded = true) :
    (accepted .upstream (relay_run r fs).log ++ (relay_run r fs).s.buffer.content
        = r.s.buffer.content ++ received .client (relay_run r fs).log)
      ∧ (accepted .client (relay_run r fs).log ++ (relay_run r fs).s.proxy_buffer.content
        = r.s.proxy_buffer.content ++ received .upstream (relay_run r fs).log)
      ∧ (relay_run r fs).s.buffer.wf ∧ (relay_run r fs).s.proxy_buffer.wf := by
  have h1 : conserved r.s.buffer.content .buffer r := by
    refine ⟨hwf1, ?_⟩
    rw [hlog]
    simp [accepted, received, Relay.buf]
  have h2 : conserved r.s.proxy_buffer.content .proxy_buffer r := by
    refine ⟨hwf2, ?_⟩
    rw [hlog]
    simp [accepted, received, Relay.buf]
  have k1 := relay_run_conserved _ _ r fs h1 hb
  have k2 := relay_run_conserved _ _ r fs h2 hb
  exact ⟨k1.2, k2.2, k1.1, k2.1⟩

/-- C18 witness: `QUIT` from the client, accepted by upstream in two sends. -/
theorem C18_relay_conserves_witness :
    accepted .upstream (relay_run relay_start quit_run).log
        ++ (relay_run relay_start quit_run).s.buffer.content
        = relay_start.s.buffer.content ++ received .client (relay_run relay_start quit_run).log
      ∧ accepted .upstream (relay_run relay_start quit_run).log = bytes "QUIT\r\n"
      ∧ (relay_run relay_start quit_run).log.length = 12 :=
  ⟨(C18_relay_conserves relay_start quit_run (by decide) (by decide) rfl (by decide)).1,
    by decide, by decide⟩

/-! ## C19: how a call of the relay handler ends -/

theorem pump_send_closed (dst : Conn) (sel : BufSel) (a : SendAnswer) (r : Relay) :
    (pump_send dst sel a r).1.closed = r.closed := by
  unfold pump_send
  dsimp only
  split
  · split
    · cases dst <;> rfl
    · split
      · split <;> cases dst <;> cases sel <;> rfl
      · cases dst <;> rfl
  · rfl

theorem pump_recv_closed (src : Conn) (sel : BufSel) (a : RecvAnswer) (r : Relay) :
    (pump_recv src sel a r).1.closed = r.closed := by
  unfold pump_recv
  dsimp only
  split
  · split
    · cases src <;> rfl
    · cases src <;> rfl
    · cases src <;> cases sel <;> rfl
    · cases src <;> rfl
  · rfl

theorem pump_iter_closed (src dst : Conn) (sel : BufSel) (io : IterIO) (dw : Bool)
    (r : Relay) : (pump_iter src dst sel io dw r).1.closed = r.closed := by
  unfold pump_iter
  dsimp only
  have h1 : (if dw = true then pump_send dst sel io.send r else (r, false)).1.closed
      = r.closed := by
    split
    · exact pump_send_closed _ _ _ _
    · rfl
  generalize (if dw = true then pump_send dst sel io.send r else (r, false)) = sent at h1 ⊢
  by_cases he : sent.2 = true
  · rw [if_pos he]
    exact h1
  · rw [if_neg he]
    exact (pump_recv_closed _ _ _ _).trans h1

theorem pump_loop_closed (src dst : Conn) (sel : BufSel) (ios : List IterIO) (dw : Bool)
    (r : Relay) : (pump_loop src dst sel ios dw r).1.closed = r.closed := by
  induction ios generalizing dw r with
  | nil => exact pump_iter_closed _ _ _ _ _ _
  | cons io rest ih =>
    have hp := pump_iter_closed src dst sel io dw r
    unfold pump_loop
    cases h : pump_iter src dst sel io dw r with
    | mk r1 ex =>
      rw [h] at hp
      cases ex with
      | send_error => exact hp
      | again => exact (ih true r1).trans hp
      | stop => exact hp

theorem handler_loop_closed (r : Relay) (io : PassIO) :
    (ngx_mail_proxy_handler_loop r io).1.closed = r.closed :=
  pump_loop_closed _ _ _ _ _ _

/-- C19 (as stated, refuted): a call for an upstream read event, nothing timed
out, nothing ready, no end of input on either side, no send at all; the first
re-arm fails and the session is closed, without the `proxied session done`
log. -/
theorem C19_rearm_failure_closes :
    relay_start.closed = false
      ∧ (ngx_mail_proxy_handler_loop relay_start rearm_fails_pass).2 = false
      ∧ ¬ session_done (ngx_mail_proxy_handler_loop relay_start rearm_fails_pass).1
      ∧ (ngx_mail_proxy_handler relay_start rearm_fails_pass).2 = .rearm_failed
      ∧ (ngx_mail_proxy_handler relay_start rearm_fails_pass).1.closed = true
      ∧ (ngx_mail_proxy_handler relay_start rearm_fails_pass).1.log
          = [.handle_write_event .client, .close_session] := by
  refine ⟨rfl, by decide, by decide, by decide, by decide, by decide⟩

/-- C19 (amended): after every call of `ngx_mail_proxy_handler` with neither
`ev->timedout` nor `c->close` set, on an open session, whose loop did not end in
a send error: the call ends with the `proxied session done` log if and only if,
when the loop ends, the client has signalled EOF and `s->buffer` is empty, or
upstream has signalled EOF and `s->proxy->buffer` is empty, or both have
signalled EOF, and then the session is closed; otherwise the events are
re-armed in the order `dst` write, `dst` read, `src` write, `src` read, and the
session stays open if all four calls succeed (the client read timer being set
again when the event is the client's), and is closed if one of them fails. -/
theorem C19_pass_end (r : Relay) (io : PassIO) (hto : io.timedout = false)
    (hcl : io.close = false) (hopen : r.closed = false)
    (hsend : (ngx_mail_proxy_handler_loop r io).2 = false) :
    ((ngx_mail_proxy_handler r io).2 = .done
        ↔ session_done (ngx_mail_proxy_handler_loop r io).1)
      ∧ (session_done (ngx_mail_proxy_handler_loop r io).1 →
          (ngx_mail_proxy_handler r io).1.closed = true
          ∧ (ngx_mail_proxy_handler r io).1.log
              = (ngx_mail_proxy_handler_loop r io).1.log
                ++ [.log_info "proxied session done", .close_session])
      ∧ (¬ session_done (ngx_mail_proxy_handler_loop r io).1 →
          (io.dst_write_ok = true ∧ io.dst_read_ok = true ∧ io.src_write_ok = true
              ∧ io.src_read_ok = true →
            (ngx_mail_proxy_handler r io).2 = .rearmed
            ∧ (ngx_mail_proxy_handler r io).1.closed = false
            ∧ (ngx_mail_proxy_handler r io).1.log
                = (ngx_mail_proxy_handler_loop r io).1.log
                  ++ [.handle_write_event (ngx_mail_proxy_handler_direction io.ev).2.1,
                      .handle_read_event (ngx_mail_proxy_handler_direction io.ev).2.1,
                      .handle_write_event (ngx_mail_proxy_handler_direction io.ev).1,
                      .handle_read_event (ngx_mail_proxy_handler_direction io.ev).1]
                  ++ (if io.ev.conn = .client then
                        [.add_timer_client (ngx_mail_proxy_handler_loop r io).1.s.timeout]
                      else []))
          ∧ (¬ (io.dst_write_ok = true ∧ io.dst_read_ok = true ∧ io.src_write_ok = true
              ∧ io.src_read_ok = true) →
            (ngx_mail_proxy_handler r io).2 = .rearm_failed
            ∧ (ngx_mail_proxy_handler r io).1.closed = true)) := by
  have hlc := handler_loop_closed r io
  rw [hopen] at hlc
  have hnt : ¬ (io.timedout = true ∨ io.close = true) := by
    rw [hto, hcl]
    decide
  have hdone : session_done (ngx_mail_proxy_handler_loop r io).1.proxying
      ↔ session_done (ngx_mail_proxy_handler_loop r io).1 := Iff.rfl
  unfold ngx_mail_proxy_handler
  rw [if_neg hnt, hsend]
  simp only [Bool.false_eq_true, if_false]
  by_cases hd : session_done (ngx_mail_proxy_handler_loop r io).1
  · rw [if_pos (hdone.mpr hd)]
    refine ⟨⟨fun _ => hd, fun _ => rfl⟩, ?_, ?_⟩
    · intro _
      refine ⟨rfl, ?_⟩
      simp [ngx_mail_proxy_close_session, Relay.call, Relay.proxying]
    · intro hn
      exact absurd hd hn
  · rw [if_neg (fun h => hd (hdone.mp h))]
    refine ⟨?_, ?_, ?_⟩
    · constructor
      · intro h
        exfalso
        revert h
        unfold handler_rearm
        repeat' split
        all_goals simp
      · intro h
        exact absurd h hd
    · intro h
      exact absurd h hd
    · intro _
      constructor
      · rintro ⟨h1, h2, h3, h4⟩
        unfold handler_rearm
        rw [h1, h2, h3, h4]
        simp only [Bool.true_eq_false, if_false]
        split
        · refine ⟨rfl, ?_, ?_⟩
          · simpa [Relay.call, Relay.proxying] using hlc
          · simp [Relay.call, Relay.proxying]
        · refine ⟨rfl, ?_, ?_⟩
          · simpa [Relay.call, Relay.proxying] using hlc
          · simp [Relay.call, Relay.proxying]
      · intro hnot
        unfold handler_rearm
        cases h1 : io.dst_write_ok <;> cases h2 : io.dst_read_ok <;>
          cases h3 : io.src_write_ok <;> cases h4 : io.src_read_ok <;>
          simp [h1, h2, h3, h4, ngx_mail_proxy_close_session] at hnot ⊢

/-- C19 witness: the client's `recv` returns 0 with `s->buffer` empty; the call
ends with `proxied session done` and the session closed. -/
theorem C19_pass_end_witness :
    (ngx_mail_proxy_handler client_fin_relay client_fin_pass).2 = .done
      ∧ (ngx_mail_proxy_handler client_fin_relay client_fin_pass).1.closed = true :=
  have h := C19_pass_end client_fin_relay client_fin_pass rfl rfl (by decide) (by decide)
  ⟨h.1.mpr (by decide), (h.2.1 (by decide)).1⟩

/-! ## C20: when the relay handler closes the session -/

/-- C20 (as stated, refuted): upstream sends `221 bye`, which the relay holds
because the client cannot be written to; then the client's `recv` returns 0.
No `send` or `recv` returned an error, only the client has signalled EOF, the
upstream-to-client buffer still holds the nine bytes, none of which the client
was sent, and the session is closed. -/
theorem C20_closes_with_undelivered :
    (relay_run relay_start client_fin_run).closed = true
      ∧ (relay_run relay_start client_fin_run).client.read_eof = true
      ∧ (relay_run relay_start client_fin_run).upstream.read_eof = false
      ∧ (relay_run relay_start client_fin_run).s.proxy_buffer.content = bytes "221 bye\r\n"
      ∧ accepted .client (relay_run relay_start client_fin_run).log = []
      ∧ (relay_run relay_start client_fin_run).log
          = [.recv .upstream 16 (.data (bytes "221 bye\r\n")),
              .handle_write_event .client, .handle_read_event .client,
              .handle_write_event .upstream, .handle_read_event .upstream,
              .recv .client 16 (.data []),
              .log_info "proxied session done", .close_session] := by
  refine ⟨by decide, by decide, by decide, by decide, by decide, by decide⟩

/-- C20 (amended): with neither `ev->timedout` nor `c->close` set, a call of
`ngx_mail_proxy_handler` on an open session closes it if and only if a `send`
returned `NGX_ERROR`, or when the loop ends the client has signalled EOF and
`s->buffer` is empty, or upstream has signalled EOF and `s->proxy->buffer` is
empty, or both have signalled EOF, or one of the four re-arm calls fails. -/
theorem C20_close_iff (r : Relay) (io : PassIO) (hto : io.timedout = false)
    (hcl : io.close = false) (hopen : r.closed = false) :
    (ngx_mail_proxy_handler r io).1.closed = true
      ↔ ((ngx_mail_proxy_handler_loop r io).2 = true
          ∨ session_done (ngx_mail_proxy_handler_loop r io).1
          ∨ io.dst_write_ok = false ∨ io.dst_read_ok = false ∨ io.src_write_ok = false
          ∨ io.src_read_ok = false) := by
  have hlc := handler_loop_closed r io
  rw [hopen] at hlc
  have hnt : ¬ (io.timedout = true ∨ io.close = true) := by
    rw [hto, hcl]
    decide
  have hdone : session_done (ngx_mail_proxy_handler_loop r io).1.proxying
      ↔ session_done (ngx_mail_proxy_handler_loop r io).1 := Iff.rfl
  unfold ngx_mail_proxy_handler
  rw [if_neg hnt]
  cases hs : (ngx_mail_proxy_handler_loop r io).2 with
  | true => simp [ngx_mail_proxy_close_session]
  | false =>
    simp only [Bool.false_eq_true, if_false, false_or]
    by_cases hd : session_done (ngx_mail_proxy_handler_loop r io).1
    · rw [if_pos (hdone.mpr hd)]
      simp [ngx_mail_proxy_close_session, hd]
    · rw [if_neg (fun h => hd (hdone.mp h))]
      unfold handler_rearm
      cases h1 : io.dst_write_ok <;> cases h2 : io.dst_read_ok <;>
        cases h3 : io.src_write_ok <;> cases h4 : io.src_read_ok <;>
        simp [hd, ngx_mail_proxy_close_session]
      all_goals split <;> simpa [Relay.call, Relay.proxying] using hlc

/-- C20 witness: a call in which nothing is ready and every re-arm succeeds
leaves the session open. -/
theorem C20_close_iff_witness :
    (ngx_mail_proxy_handler relay_start (idle_pass .client_read)).1.closed ≠ true :=
  fun h => absurd ((C20_close_iff relay_start (idle_pass .client_read) rfl rfl rfl).mp h)
    (by decide)

/-! ## C21: the TLS handshake handler -/

theorem set_handler_trace (s : ngx_mail_session_t) :
    (ngx_mail_proxy_set_handler s).trace = s.trace := by
  unfold ngx_mail_proxy_set_handler
  split <;> rfl

theorem set_handler_ne_error (s : ngx_mail_session_t) :
    ({ s with trace := s.trace ++ [.session_internal_server_error] } : ngx_mail_session_t)
      ≠ ngx_mail_proxy_set_handler s := by
  intro h
  have h2 := congrArg (fun x => x.trace.length) h
  simp only [set_handler_trace, List.length_append, List.length_cons, List.length_nil] at h2
  omega

/-- C21: `ngx_mail_upstream_ssl_handshake_handler` either accepts the upstream,
returning what `ngx_mail_proxy_set_handler` leaves, or calls the session's
internal server error and leaves the handlers and the state alone; it accepts
if and only if the handshake completed and: `verify` is 0; or `verify` is 1, the
verify result is `X509_V_OK` and a peer certificate is present; or `verify` is
2 and the verify result is `X509_V_OK`; or `verify` is 3 and the verify result
is `X509_V_OK` or one of the optional errors; or `verify` is above 3 and the
verify result is `X509_V_OK`. -/
theorem C21_tls_accepts_iff (s : ngx_mail_session_t) (ssl : SslIO) :
    (ngx_mail_upstream_ssl_handshake_handler s ssl = ngx_mail_proxy_set_handler s
        ∨ ngx_mail_upstream_ssl_handshake_handler s ssl
            = { s with trace := s.trace ++ [.session_internal_server_error] })
      ∧ (ngx_mail_upstream_ssl_handshake_handler s ssl = ngx_mail_proxy_set_handler s
          ↔ ssl.handshaked = true
            ∧ (ssl.verify = 0
              ∨ (ssl.verify = 1 ∧ ssl.verify_result = X509_V_OK ∧ ssl.peer_cert = true)
              ∨ (ssl.verify = 2 ∧ ssl.verify_result = X509_V_OK)
              ∨ (ssl.verify = 3 ∧ (ssl.verify_result = X509_V_OK
                  ∨ ssl.ngx_ssl_verify_error_optional ssl.verify_result = true))
              ∨ (3 < ssl.verify ∧ ssl.verify_result = X509_V_OK))) := by
  have hne := set_handler_ne_error s
  unfold ngx_mail_upstream_ssl_handshake_handler
  by_cases hh : ssl.handshaked = true
  · rw [if_pos hh]
    by_cases hv : ssl.verify ≠ 0
    · rw [if_pos hv]
      by_cases hr : ssl.verify_result ≠ X509_V_OK
          ∧ (ssl.verify ≠ 3 ∨ ssl.ngx_ssl_verify_error_optional ssl.verify_result = false)
      · rw [if_pos hr]
        refine ⟨Or.inr rfl, ⟨fun h => absurd h hne, ?_⟩⟩
        rintro ⟨_, h | ⟨_, h, _⟩ | ⟨_, h⟩ | ⟨h3, h | h⟩ | ⟨_, h⟩⟩
        · exact absurd h hv
        · exact absurd h hr.1
        · exact absurd h hr.1
        · exact absurd h hr.1
        · rcases hr.2 with h2 | h2
          · exact absurd h3 h2
          · rw [h] at h2
            exact absurd h2 (by decide)
        · exact absurd h hr.1
      · rw [if_neg hr]
        by_cases hc : ssl.verify = 1 ∧ ssl.peer_cert = false
        · rw [if_pos hc]
          refine ⟨Or.inr rfl, ⟨fun h => absurd h hne, ?_⟩⟩
          rintro ⟨_, h | ⟨_, _, h⟩ | ⟨h, _⟩ | ⟨h, _⟩ | ⟨h, _⟩⟩
          · exact absurd h hv
          · rw [hc.2] at h
            exact absurd h (by decide)
          · omega
          · omega
          · omega
        · rw [if_neg hc]
          refine ⟨Or.inl rfl, ⟨fun _ => ⟨hh, ?_⟩, fun _ => rfl⟩⟩
          have hres : ssl.verify_result = X509_V_OK
              ∨ (ssl.verify = 3 ∧ ssl.ngx_ssl_verify_error_optional ssl.verify_result = true) := by
            by_cases h1 : ssl.verify_result = X509_V_OK
            · exact Or.inl h1
            · right
              by_cases h3 : ssl.verify = 3
              · refine ⟨h3, ?_⟩
                cases ho : ssl.ngx_ssl_verify_error_optional ssl.verify_result with
                | true => rfl
                | false => exact absurd ⟨h1, Or.inr ho⟩ hr
              · exact absurd ⟨h1, Or.inl h3⟩ hr
          have hcert : ssl.verify = 1 → ssl.peer_cert = true := by
            intro h1
            cases hp : ssl.peer_cert with
            | true => rfl
            | false => exact absurd ⟨h1, hp⟩ hc
          rcases hres with h1 | ⟨h3, ho⟩
          · by_cases e1 : ssl.verify = 1
            · exact Or.inr (Or.inl ⟨e1, h1, hcert e1⟩)
            · by_cases e2 : ssl.verify = 2
              · exact Or.inr (Or.inr (Or.inl ⟨e2, h1⟩))
              · by_cases e3 : ssl.verify = 3
                · exact Or.inr (Or.inr (Or.inr (Or.inl ⟨e3, Or.inl h1⟩)))
                · exact Or.inr (Or.inr (Or.inr (Or.inr ⟨by omega, h1⟩)))
          · exact Or.inr (Or.inr (Or.inr (Or.inl ⟨h3, Or.inr ho⟩)))
    · rw [if_neg hv]
      refine ⟨Or.inl rfl, ⟨fun _ => ⟨hh, Or.inl (by omega)⟩, fun _ => rfl⟩⟩
  · rw [if_neg hh]
    refine ⟨Or.inr rfl, ⟨fun h => absurd h hne, ?_⟩⟩
    rintro ⟨h, _⟩
    exact absurd h hh

/-! ## C23: which line of a multiline reply is classified -/

/-- A multiline reply with its final line present gets the verdict of the
state on the bytes at `pos`. -/
theorem read_rc_multiline_final (s : ngx_mail_session_t) (d : List Nat)
    (st : ngx_smtp_state_e) (lines : List (List Nat × List Nat)) (f : List Nat × List Nat)
    (hd : d ≠ []) (hst : s.mail_state = .smtp st) (hk : lines ≠ [])
    (hwf : ∀ l ∈ lines, smtp_line_wf l) (hfin : smtp_line_wf f)
    (hR : (recv_buf s.proxy_buffer d).content = smtp_multiline lines (some f)) :
    read_rc s (.data d)
      = some (if smtp_state_ok (recv_buf s.proxy_buffer d).mem
            (recv_buf s.proxy_buffer d).pos st then .NGX_OK else .NGX_ERROR) := by
  have hf := smtp_line_head ' '.toNat f hfin (by decide)
  obtain ⟨pre, hpre, hlen, hdash⟩ := smtp_dashed_end lines hk hwf
  simp only [smtp_multiline] at hR
  rw [hpre, hf.1, List.append_assoc] at hR
  have hsp : ¬ (f.1 ++ ' '.toNat :: f.2).getD 3 0 = '-'.toNat := by
    rw [hf.2.2.2]
    decide
  have hrc := read_rc_of_content s d _ hd hR (by
    simp only [List.length_append, List.length_cons, List.length_nil]
    omega)
    ⟨pre ++ ([CR, LF] ++ (f.1 ++ ' '.toNat :: f.2)), by simp [CRLF]⟩
  rw [hst, classify_smtp_multi _ _ pre _ st hlen hdash hf.2.1 hf.2.2.1 hR, if_neg hsp] at hrc
  rw [hrc]
  by_cases hok : smtp_state_ok (recv_buf s.proxy_buffer d).mem
      (recv_buf s.proxy_buffer d).pos st = true
  · simp [hok, verdict_of]
  · simp [hok, verdict_of]

/-- The `switch (state)` of the SMTP branch tests the three bytes at `p` for the
code the spec's table gives. -/
theorem smtp_state_ok_iff_required (mem : Nat → Nat) (p : Nat) (code : List Nat)
    (st : ngx_smtp_state_e) (hlen : code.length = 3) (hm : mem_has mem p code) :
    smtp_state_ok mem p st = true ↔ smtp_code_required st code := by
  match code, hlen, hm with
  | [a, b, c], _, hm =>
    simp only [mem_has] at hm
    obtain ⟨h0, h1, h2, _⟩ := hm
    have e220 : bytes "220" = [50, 50, 48] := by decide
    have e250 : bytes "250" = [50, 53, 48] := by decide
    have e334 : bytes "334" = [51, 51, 52] := by decide
    have e235 : bytes "235" = [50, 51, 53] := by decide
    have e354 : bytes "354" = [51, 53, 52] := by decide
    cases st <;>
      simp [smtp_state_ok, smtp_code_required, h0, h1, h2, e220, e250, e334, e235, e354]
    all_goals tauto

/-- C23 (as stated, refuted): in `smtp_helo`, which requires 250, the reply
`250-gw` / `550 no` is classified OK although its final line carries 550, and
the reply `550-gw` / `250 ok` is classified ERROR although its final line
carries 250. -/
theorem C23_first_line_decides :
    read_rc smtp_helo_cap64 (.data (bytes "250-gw\r\n550 no\r\n")) = some .NGX_OK
      ∧ read_rc smtp_helo_cap64 (.data (bytes "550-gw\r\n250 ok\r\n")) = some .NGX_ERROR := by
  refine ⟨by decide, by decide⟩

/-- C23 (amended): for every SMTP state and every complete multiline reply, one
or more lines `NNN-text CR LF` followed by a final line `NNN text CR LF`, the
verdict is OK if the three-digit code of the first line is the code the state
requires and ERROR otherwise, whatever codes the later lines and the final line
carry; the final line is only tested for being there. -/
theorem C23_multiline_first_code (s : ngx_mail_session_t) (d : List Nat)
    (st : ngx_smtp_state_e) (first : List Nat × List Nat)
    (rest : List (List Nat × List Nat)) (f : List Nat × List Nat)
    (hd : d ≠ []) (hst : s.mail_state = .smtp st)
    (hwf : ∀ l ∈ first :: rest, smtp_line_wf l) (hfin : smtp_line_wf f)
    (hR : (recv_buf s.proxy_buffer d).content = smtp_multiline (first :: rest) (some f)) :
    read_rc s (.data d)
      = some (if smtp_code_required st first.1 then .NGX_OK else .NGX_ERROR) := by
  rw [read_rc_multiline_final s d st (first :: rest) f hd hst (by simp) hwf hfin hR]
  have h3 := (hwf first (List.mem_cons_self _ _)).1
  have hm := (content_mem_has _ _ hR).1
  simp only [smtp_multiline, smtp_dashed, smtp_line, List.append_assoc] at hm
  have hcode := ((mem_has_append _ _ _ _).1 hm).1
  have hiff := smtp_state_ok_iff_required _ _ first.1 st h3 hcode
  by_cases hq : smtp_code_required st first.1
  · rw [if_pos hq, if_pos (hiff.2 hq)]
  · rw [if_neg hq, if_neg (fun h => hq (hiff.1 h))]

/-- C23 witness: `250-gw` / `550 no` in `smtp_helo`. -/
theorem C23_multiline_first_code_witness :
    read_rc smtp_helo_cap64 (.data (bytes "250-gw\r\n550 no\r\n")) = some .NGX_OK :=
  (C23_multiline_first_code smtp_helo_cap64 (bytes "250-gw\r\n550 no\r\n") .ngx_smtp_helo
    (bytes "250", bytes "gw") [] (bytes "550", bytes "no")
    (by decide) rfl (by decide) (by decide) (by decide)).trans
    (by simp only [smtp_code_required]; rfl)

/-! ## C24: the state `smtp_to` -/

/-- C24: in state `smtp_to`, every complete single-line reply (at least four
bytes, ending in CR LF, byte 3 not `-`) and every multiline reply with its final
line present is classified OK, whatever its first three bytes are; and no
complete reply at all is classified ERROR. -/
theorem C24_smtp_to_accepts (s : ngx_mail_session_t) (d : List Nat) (hd : d ≠ [])
    (hst : s.mail_state = .smtp .ngx_smtp_to) :
    (4 ≤ (recv_buf s.proxy_buffer d).content.length →
        CRLF <:+ (recv_buf s.proxy_buffer d).content →
        (recv_buf s.proxy_buffer d).content.getD 3 0 ≠ '-'.toNat →
        read_rc s (.data d) = some .NGX_OK)
      ∧ (∀ lines f, lines ≠ [] → (∀ l ∈ lines, smtp_line_wf l) → smtp_line_wf f →
          (recv_buf s.proxy_buffer d).content = smtp_multiline lines (some f) →
          read_rc s (.data d) = some .NGX_OK)
      ∧ (4 ≤ (recv_buf s.proxy_buffer d).content.length →
          CRLF <:+ (recv_buf s.proxy_buffer d).content →
          read_rc s (.data d) ≠ some .NGX_ERROR) := by
  refine ⟨?_, ?_, ?_⟩
  · intro h4 hcrlf h3
    rw [read_rc_of_content s d _ hd rfl h4 hcrlf, hst]
    have hm := (content_mem_has _ _ (rfl : (recv_buf s.proxy_buffer d).content = _)).1
    have e3 := mem_has_getD _ _ _ 3 hm (by omega)
    simp only [classify]
    rw [if_neg (fun h => h3 (by rw [← e3]; exact h.1))]
    simp [smtp_state_ok, verdict_of]
  · intro lines f hk hwf hfin hR
    rw [read_rc_multiline_final s d .ngx_smtp_to lines f hd hst hk hwf hfin hR]
    simp [smtp_state_ok]
  · intro h4 hcrlf
    rw [read_rc_of_content s d _ hd rfl h4 hcrlf, hst]
    simp only [classify]
    split <;> simp [smtp_state_ok, verdict_of]

/-- C24 witness: `550 no such user` in `smtp_to` is OK. -/
theorem C24_smtp_to_accepts_witness :
    read_rc smtp_to_cap64 (.data (bytes "550 no such user\r\n")) = some .NGX_OK :=
  (C24_smtp_to_accepts smtp_to_cap64 (bytes "550 no such user\r\n") (by decide) rfl).1
    (by decide) (by decide) (by decide)

/-! ## C27: the tag scan terminates -/

/-- With a non-empty tag `ngx_mail_proxy_read_response` returns. -/
theorem read_response_returns (s : ngx_mail_session_t) (r : RecvResult)
    (htag : s.tag ≠ [] ∨ s.mail_state ≠ .imap .ngx_imap_passwd) :
    ∃ res, ngx_mail_proxy_read_response s r = some res := by
  cases r with
  | error => exact ⟨_, rfl⟩
  | again => exact ⟨_, rfl⟩
  | data d =>
    cases d with
    | nil => exact ⟨_, rfl⟩
    | cons d0 ds =>
      simp only [ngx_mail_proxy_read_response]
      split
      · exact ⟨_, rfl⟩
      · split
        · split
          · exact ⟨_, rfl⟩
          · exact ⟨_, rfl⟩
        · rename_i hlen hcrlf
          have hlf : (recv_buf s.proxy_buffer (d0 :: ds)).mem
              ((recv_buf s.proxy_buffer (d0 :: ds)).last - 1) = LF := by
            by_contra h
            exact hcrlf (Or.inr h)
          have hcl : ∃ c, classify s.mail_state s.tag (recv_buf s.proxy_buffer (d0 :: ds))
              = some c := by
            by_cases hst : s.mail_state = .imap .ngx_imap_passwd
            · have ht : s.tag ≠ [] := by
                rcases htag with h | h
                · exact h
                · exact absurd hst h
              obtain ⟨r, hr⟩ := scan_terminates _ s.tag _ ht hlf
                ((recv_buf s.proxy_buffer (d0 :: ds)).last
                  - (recv_buf s.proxy_buffer (d0 :: ds)).pos + 1)
                (recv_buf s.proxy_buffer (d0 :: ds)).pos false (by omega)
              rw [hst]
              simp only [classify, hr]
              cases r <;> exact ⟨_, rfl⟩
            · cases hs : s.mail_state with
              | pop3 st =>
                simp only [classify]
                split <;> exact ⟨_, rfl⟩
              | imap st =>
                cases st with
                | ngx_imap_passwd => exact absurd hs hst
                | ngx_imap_start =>
                  simp only [classify]
                  split <;> exact ⟨_, rfl⟩
                | ngx_imap_login =>
                  simp only [classify]
                  split <;> exact ⟨_, rfl⟩
                | ngx_imap_user =>
                  simp only [classify]
                  split <;> exact ⟨_, rfl⟩
                | other => exact ⟨_, rfl⟩
              | smtp st =>
                simp only [classify]
                split
                · exact ⟨_, rfl⟩
                · split <;> exact ⟨_, rfl⟩
          obtain ⟨c, hc⟩ := hcl
          rw [hc]
          cases c with
          | ok => exact ⟨_, rfl⟩
          | again => exact ⟨_, rfl⟩
          | no_match p ec =>
            dsimp only
            split
            · exact ⟨_, rfl⟩
            · split <;> exact ⟨_, rfl⟩

/-- C27: for every tag of non-zero length and every buffer that ends in a line
feed (so every buffer ending in CR LF), the tag scan of state
`ngx_imap_passwd` returns, with the same result for every bound on the number
of iterations above the number of bytes `last - pos`; and the protocol switch
returns. -/
theorem C27_tag_scan_terminates (tag : List Nat) (b : ngx_buf_t) (htag : tag ≠ [])
    (hend : b.mem (b.last - 1) = LF) :
    (∃ r, ∀ fuel, b.last - b.pos < fuel →
        imap_passwd_scan b.mem tag b.last fuel b.pos false = some r)
      ∧ ∃ c, classify (.imap .ngx_imap_passwd) tag b = some c := by
  obtain ⟨r, hr⟩ := scan_terminates b.mem tag b.last htag hend (b.last - b.pos + 1) b.pos
    false (by omega)
  refine ⟨⟨r, ?_⟩, ?_⟩
  · intro fuel hf
    have hm := scan_mono b.mem tag b.last (fuel - (b.last - b.pos + 1))
      (b.last - b.pos + 1) b.pos false r hr
    have e : b.last - b.pos + 1 + (fuel - (b.last - b.pos + 1)) = fuel := by omega
    rw [e] at hm
    exact hm
  · simp only [classify, hr]
    cases r <;> exact ⟨_, rfl⟩

/-- C27 witness: the tag `a001 ` over an untagged line and the tagged result. -/
theorem C27_tag_scan_terminates_witness :
    ∃ r, ∀ fuel, imap_capability_buf.last - imap_capability_buf.pos < fuel →
      imap_passwd_scan imap_capability_buf.mem (bytes "a001 ") imap_capability_buf.last fuel
        imap_capability_buf.pos false = some r :=
  (C27_tag_scan_terminates (bytes "a001 ") imap_capability_buf (by decide) (by decide)).1

/-! ## C26: the upstream buffer after an OK reply -/

/-- The handler of the session's protocol on an OK reply. -/
theorem auth_handler_ok (s : ngx_mail_session_t) (io : HandlerIO)
    (hto : io.timedout = false) (hok : read_rc s io.recv = some .NGX_OK) :
    ∃ d, io.recv = .data d ∧ auth_handler s io = some (auth_on_ok (stored s d) io) := by
  obtain ⟨d, hd, hr⟩ := read_rc_ok s io.recv hok
  refine ⟨d, hd, ?_⟩
  unfold auth_handler auth_on_ok
  cases hs : s.mail_state with
  | pop3 st =>
    have e : (stored s d).mail_state = .pop3 st := hs
    simp only [e, ngx_mail_proxy_pop3_handler, hto, Bool.false_eq_true, if_false, hr]
  | imap st =>
    have e : (stored s d).mail_state = .imap st := hs
    simp only [e, ngx_mail_proxy_imap_handler, hto, Bool.false_eq_true, if_false, hr]
  | smtp st =>
    have e : (stored s d).mail_state = .smtp st := hs
    simp only [e, ngx_mail_proxy_smtp_handler, hto, Bool.false_eq_true, if_false, hr]

/-- An OK reply is complete: at least four bytes, the last two CR LF. -/
theorem read_ok_complete (s : ngx_mail_session_t) (d : List Nat)
    (hok : read_rc s (.data d) = some .NGX_OK) :
    d ≠ [] ∧ complete (recv_buf s.proxy_buffer d) := by
  cases d with
  | nil => simp [read_rc, ngx_mail_proxy_read_response] at hok
  | cons d0 ds =>
    refine ⟨by simp, ?_⟩
    simp only [read_rc, ngx_mail_proxy_read_response] at hok
    split at hok
    · simp at hok
    · rename_i h4
      split at hok
      · split at hok <;> simp at hok
      · rename_i hcrlf
        refine ⟨by omega, ?_, ?_⟩
        · by_contra h
          exact hcrlf (Or.inl h)
        · by_contra h
          exact hcrlf (Or.inr h)

/-- A line sent in full: the upstream buffer is reset. -/
theorem handler_send_full (s : ngx_mail_session_t) (io : HandlerIO) (line : ngx_str_t)
    (h : ¬ io.send line < (line.len : Int)) :
    (handler_send s io line).proxy_buffer.pos = (handler_send s io line).proxy_buffer.start
      ∧ (handler_send s io line).proxy_buffer.last
          = (handler_send s io line).proxy_buffer.start := by
  unfold handler_send
  dsimp only
  rw [if_neg h]
  exact ⟨rfl, rfl⟩

theorem internal_error_sent (s : ngx_mail_session_t) :
    sent_upstream (ngx_mail_proxy_internal_server_error s).trace = sent_upstream s.trace := by
  simp [ngx_mail_proxy_internal_server_error, sent_upstream_append, sent_upstream]

theorem handler_relay_sent (s : ngx_mail_session_t) (ev : Ev) :
    sent_upstream (handler_relay s ev).trace = sent_upstream s.trace := by
  simp [handler_relay, sent_upstream_append, sent_upstream]

/-- Whenever the switch of a handler has offered a line to upstream and `send`
took it whole, the upstream buffer is reset. -/
theorem auth_on_ok_reset (s : ngx_mail_session_t) (io : HandlerIO)
    (hfull : ∀ line, ¬ io.send line < (line.len : Int))
    (hsent : sent_upstream (auth_on_ok s io).trace ≠ sent_upstream s.trace) :
    (auth_on_ok s io).proxy_buffer.pos = (auth_on_ok s io).proxy_buffer.start
      ∧ (auth_on_ok s io).proxy_buffer.last = (auth_on_ok s io).proxy_buffer.start := by
  revert hsent
  unfold auth_on_ok
  split
  · unfold pop3_on_ok
    split
    · dsimp only
      split
      · intro h
        exact absurd (internal_error_sent _) h
      · intro _
        exact handler_send_full _ _ _ (hfull _)
    · dsimp only
      split
      · intro h
        exact absurd (internal_error_sent _) h
      · intro _
        exact handler_send_full _ _ _ (hfull _)
    · intro h
      exact absurd (handler_relay_sent _ _) h
    · intro _
      exact handler_send_full _ _ _ (hfull _)
  · unfold imap_on_ok
    split
    · dsimp only
      split
      · intro h
        exact absurd (internal_error_sent _) h
      · intro _
        exact handler_send_full _ _ _ (hfull _)
    · dsimp only
      split
      · intro h
        exact absurd (internal_error_sent _) h
      · intro _
        exact handler_send_full _ _ _ (hfull _)
    · dsimp only
      split
      · intro h
        exact absurd (internal_error_sent _) h
      · intro _
        exact handler_send_full _ _ _ (hfull _)
    · intro h
      exact absurd (handler_relay_sent _ _) h
    · intro _
      exact handler_send_full _ _ _ (hfull _)
  · unfold smtp_on_ok
    split
    · dsimp only
      split
      · intro h
        exact absurd (internal_error_sent _) h
      · split <;> intro _ <;> exact handler_send_full _ _ _ (hfull _)
    · dsimp only
      split
      · intro h
        exact absurd (internal_error_sent _) h
      · split
        · intro h
          refine absurd ?_ h
          rw [internal_error_sent]
        · intro _
          exact handler_send_full _ _ _ (hfull _)
    · split
      · intro h
        exact absurd (internal_error_sent _) h
      · intro _
        exact handler_send_full _ _ _ (hfull _)
    · split
      · intro h
        exact absurd (internal_error_sent _) h
      · intro _
        exact handler_send_full _ _ _ (hfull _)
    · dsimp only
      split
      · intro h
        exact absurd (internal_error_sent _) h
      · intro _
        exact handler_send_full _ _ _ (hfull _)
    · dsimp only
      split
      · intro h
        exact absurd (internal_error_sent _) h
      · intro _
        exact handler_send_full _ _ _ (hfull _)
    · intro _
      exact ⟨rfl, rfl⟩
    · intro _
      exact ⟨rfl, rfl⟩
    · intro _
      exact ⟨rfl, rfl⟩
    · intro _
      exact ⟨rfl, rfl⟩
    · split <;> intro h <;> exact absurd (handler_relay_sent _ _) h
    · split <;> intro h <;> exact absurd (handler_relay_sent _ _) h
    · intro _
      exact handler_send_full _ _ _ (hfull _)

/-- In the states that enter the relay the switch leaves the upstream buffer
alone. -/
theorem auth_on_ok_relay (s : ngx_mail_session_t) (io : HandlerIO)
    (hst : s.mail_state ∈ [MailState.pop3 .ngx_pop3_passwd, .imap .ngx_imap_passwd,
      .smtp .ngx_smtp_data, .smtp .ngx_smtp_xclient]) :
    (auth_on_ok s io).proxy_buffer = s.proxy_buffer
      ∧ (auth_on_ok s io).buffer = s.buffer
      ∧ sent_upstream (auth_on_ok s io).trace = sent_upstream s.trace
      ∧ (s.buffer.pos = s.buffer.last ∨ s.mail_state = .pop3 .ngx_pop3_passwd
          ∨ s.mail_state = .imap .ngx_imap_passwd →
        (auth_on_ok s io).trace = s.trace ++
          [.add_timer_client s.timeout, .del_timer_upstream, .log_fixed "client logged in",
            .proxy_handler .client_write]) := by
  simp only [List.mem_cons, List.mem_singleton, List.not_mem_nil, or_false] at hst
  rcases hst with h | h | h | h
  · simp [auth_on_ok, pop3_on_ok, h, handler_relay, sent_upstream_append, sent_upstream]
  · simp [auth_on_ok, imap_on_ok, h, handler_relay, sent_upstream_append, sent_upstream]
  · simp only [auth_on_ok, smtp_on_ok, h]
    split <;> simp [handler_relay, sent_upstream_append, sent_upstream, *]
  · simp only [auth_on_ok, smtp_on_ok, h]
    split <;> simp [handler_relay, sent_upstream_append, sent_upstream, *]

/-- C26 (as stated, refuted): the reply `+OK logged in` in `pop3_passwd` is
classified OK and consumed by the POP3 handler, and the upstream buffer is not
reset: it still holds the fifteen bytes of the reply. -/
theorem C26_relay_state_keeps_reply :
    pop3_alice_2.mail_state = .pop3 .ngx_pop3_passwd
      ∧ read_rc pop3_alice_2 (.data (bytes "+OK logged in\r\n")) = some .NGX_OK
      ∧ ngx_mail_proxy_pop3_handler pop3_alice_2 (io_reply "+OK logged in\r\n")
          = some pop3_alice_3
      ∧ pop3_alice_3.proxy_buffer.content = bytes "+OK logged in\r\n"
      ∧ pop3_alice_3.proxy_buffer.pos ≠ pop3_alice_3.proxy_buffer.last := by
  refine ⟨by decide, by decide, rfl, by decide, by decide⟩

/-- C26 (amended): after a reply has been classified OK by the handler of the
session's protocol (nothing timed out, `send` taking every line whole):
whenever the handler has sent a command, the upstream buffer is reset to empty,
`pos == last == start`; it is reset as well in the SMTP states that hand the
reply to the client (`smtp_auth_plain`, `smtp_auth_password`, `smtp_from`,
`smtp_to`); but in the states that enter the relay (`pop3_passwd`,
`ngx_imap_passwd`, `smtp_data`, `smtp_xclient`) the buffer is not reset and
still holds the reply, at least four bytes. -/
theorem C26_buffer_after_ok (s : ngx_mail_session_t) (io : HandlerIO)
    (hto : io.timedout = false) (hok : read_rc s io.recv = some .NGX_OK)
    (hfull : ∀ line, ¬ io.send line < (line.len : Int)) :
    ∃ d s1, io.recv = .data d ∧ auth_handler s io = some s1
      ∧ (sent_upstream s1.trace ≠ sent_upstream s.trace →
          s1.proxy_buffer.pos = s1.proxy_buffer.start
          ∧ s1.proxy_buffer.last = s1.proxy_buffer.start)
      ∧ (s.mail_state ∈ [MailState.smtp .ngx_smtp_auth_plain, .smtp .ngx_smtp_auth_password,
            .smtp .ngx_smtp_from, .smtp .ngx_smtp_to] →
          s1.proxy_buffer.pos = s1.proxy_buffer.start
          ∧ s1.proxy_buffer.last = s1.proxy_buffer.start)
      ∧ (s.mail_state ∈ [MailState.pop3 .ngx_pop3_passwd, .imap .ngx_imap_passwd,
            .smtp .ngx_smtp_data, .smtp .ngx_smtp_xclient] →
          s1.proxy_buffer = recv_buf s.proxy_buffer d
          ∧ 4 ≤ s1.proxy_buffer.last - s1.proxy_buffer.pos) := by
  obtain ⟨d, hd, hh⟩ := auth_handler_ok s io hto hok
  rw [hd] at hok
  have hc := (read_ok_complete s d hok).2
  refine ⟨d, _, hd, hh, ?_, ?_, ?_⟩
  · intro hsent
    exact auth_on_ok_reset (stored s d) io hfull hsent
  · intro hst
    have hst2 : (stored s d).mail_state ∈ [MailState.smtp .ngx_smtp_auth_plain,
        .smtp .ngx_smtp_auth_password, .smtp .ngx_smtp_from, .smtp .ngx_smtp_to] := hst
    simp only [List.mem_cons, List.mem_singleton, List.not_mem_nil, or_false] at hst2
    rcases hst2 with h | h | h | h <;> simp [auth_on_ok, smtp_on_ok, h]
  · intro hst
    have hr := auth_on_ok_relay (stored s d) io hst
    rw [hr.1]
    exact ⟨rfl, hc.1⟩

/-- C26 witness (Scenario 1): after `USER alice` was sent in answer to
`+OK ready`, the upstream buffer is empty. -/
theorem C26_buffer_after_ok_witness :
    pop3_alice_1.proxy_buffer.pos = pop3_alice_1.proxy_buffer.start
      ∧ pop3_alice_1.proxy_buffer.last = pop3_alice_1.proxy_buffer.start := by
  obtain ⟨d, s1, _, h, hsent, _, _⟩ := C26_buffer_after_ok pop3_alice (io_reply "+OK ready\r\n")
    rfl (by decide) (by intro line; simp [io_reply])
  have r : auth_handler pop3_alice (io_reply "+OK ready\r\n") = some pop3_alice_1 := rfl
  rw [r] at h
  cases h
  exact hsent (by decide)

/-! ## C25: the pointers of the buffers stay in order -/

/-- The read keeps the pointers of the upstream buffer in order and leaves the
client buffer alone. -/
theorem read_response_wf (s s1 : ngx_mail_session_t) (r : RecvResult) (rc : Rc)
    (h : ngx_mail_proxy_read_response s r = some (rc, s1))
    (hwf : s.proxy_buffer.wf)
    (hroom : ∀ d, r = .data d → d.length ≤ s.proxy_buffer.end_ - s.proxy_buffer.last) :
    s1.proxy_buffer.wf ∧ s1.buffer = s.buffer := by
  unfold ngx_buf_t.wf at hwf ⊢
  cases r with
  | error =>
    simp only [ngx_mail_proxy_read_response, Option.some.injEq, Prod.mk.injEq] at h
    rw [← h.2]
    exact ⟨hwf, rfl⟩
  | again =>
    simp only [ngx_mail_proxy_read_response, Option.some.injEq, Prod.mk.injEq] at h
    rw [← h.2]
    exact ⟨hwf, rfl⟩
  | data d =>
    have hr := hroom d rfl
    cases d with
    | nil =>
      simp only [ngx_mail_proxy_read_response, Option.some.injEq, Prod.mk.injEq] at h
      rw [← h.2]
      exact ⟨hwf, rfl⟩
    | cons d0 ds =>
      have hnew : (recv_buf s.proxy_buffer (d0 :: ds)).start ≤ (recv_buf s.proxy_buffer (d0 :: ds)).pos
          ∧ (recv_buf s.proxy_buffer (d0 :: ds)).pos ≤ (recv_buf s.proxy_buffer (d0 :: ds)).last
          ∧ (recv_buf s.proxy_buffer (d0 :: ds)).last ≤ (recv_buf s.proxy_buffer (d0 :: ds)).end_ := by
        simp only [recv_buf]
        omega
      simp only [ngx_mail_proxy_read_response] at h
      split at h
      · simp only [Option.some.injEq, Prod.mk.injEq] at h
        rw [← h.2]
        exact ⟨hnew, rfl⟩
      · split at h
        · split at h
          · simp only [Option.some.injEq, Prod.mk.injEq] at h
            rw [← h.2]
            exact ⟨hnew, rfl⟩
          · simp only [Option.some.injEq, Prod.mk.injEq] at h
            rw [← h.2]
            exact ⟨hnew, rfl⟩
        · split at h
          · simp at h
          · simp only [Option.some.injEq, Prod.mk.injEq] at h
            rw [← h.2]
            exact ⟨hnew, rfl⟩
          · simp only [Option.some.injEq, Prod.mk.injEq] at h
            rw [← h.2]
            exact ⟨hnew, rfl⟩
          · split at h
            · simp only [Option.some.injEq, Prod.mk.injEq] at h
              rw [← h.2]
              exact ⟨hnew, rfl⟩
            · split at h
              · simp only [Option.some.injEq, Prod.mk.injEq] at h
                rw [← h.2]
                exact ⟨hnew, rfl⟩
              · simp only [Option.some.injEq, Prod.mk.injEq] at h
                rw [← h.2]
                exact ⟨hnew, rfl⟩

/-- The function `ngx_mail_proxy_smtp_auth_handler` changes the state only. -/
theorem smtp_auth_handler_frame (s s2 : ngx_mail_session_t) (a : Bool) (l line : ngx_str_t)
    (h : ngx_mail_proxy_smtp_auth_handler s a l = some (s2, line)) :
    ∃ st, s2 = { s with mail_state := st } := by
  unfold ngx_mail_proxy_smtp_auth_handler at h
  split at h
  · split at h
    · exact absurd h (by simp)
    · simp only [Option.some.injEq, Prod.mk.injEq] at h
      exact ⟨_, h.1.symm⟩
  · split at h
    · exact absurd h (by simp)
    · simp only [Option.some.injEq, Prod.mk.injEq] at h
      exact ⟨_, h.1.symm⟩
  · exact absurd h (by simp)
  · exact absurd h (by simp)
  · exact absurd h (by simp)
  · simp only [Option.some.injEq, Prod.mk.injEq] at h
    exact ⟨s.mail_state, h.1.symm⟩

theorem handler_send_wf (s : ngx_mail_session_t) (io : HandlerIO) (line : ngx_str_t)
    (hwf : s.proxy_buffer.wf) :
    (handler_send s io line).proxy_buffer.wf ∧ (handler_send s io line).buffer = s.buffer := by
  unfold ngx_buf_t.wf at hwf ⊢
  unfold handler_send
  dsimp only
  split
  · exact ⟨hwf, rfl⟩
  · dsimp only
    exact ⟨⟨le_refl _, le_refl _, by omega⟩, rfl⟩

/-- The switch of a handler keeps the pointers of the upstream buffer in order
and leaves the client buffer alone. -/
theorem auth_on_ok_wf (s : ngx_mail_session_t) (io : HandlerIO) (hwf : s.proxy_buffer.wf) :
    (auth_on_ok s io).proxy_buffer.wf ∧ (auth_on_ok s io).buffer = s.buffer := by
  have hreset : ngx_buf_t.wf { s.proxy_buffer with pos := s.proxy_buffer.start, last := s.proxy_buffer.start } := by
    unfold ngx_buf_t.wf at hwf ⊢
    dsimp only
    omega
  unfold auth_on_ok
  split
  · unfold pop3_on_ok
    split
    · dsimp only
      split
      · exact ⟨hwf, rfl⟩
      · exact handler_send_wf _ _ _ hwf
    · dsimp only
      split
      · exact ⟨hwf, rfl⟩
      · exact handler_send_wf _ _ _ hwf
    · exact ⟨hwf, rfl⟩
    · exact handler_send_wf _ _ _ hwf
  · unfold imap_on_ok
    split
    · dsimp only
      split
      · exact ⟨hwf, rfl⟩
      · exact handler_send_wf _ _ _ hwf
    · dsimp only
      split
      · exact ⟨hwf, rfl⟩
      · exact handler_send_wf _ _ _ hwf
    · dsimp only
      split
      · exact ⟨hwf, rfl⟩
      · exact handler_send_wf _ _ _ hwf
    · exact ⟨hwf, rfl⟩
    · exact handler_send_wf _ _ _ hwf
  · unfold smtp_on_ok
    split
    · dsimp only
      split
      · exact ⟨hwf, rfl⟩
      · split <;> exact handler_send_wf _ _ _ hwf
    · dsimp only
      split
      · exact ⟨hwf, rfl⟩
      · split
        · exact ⟨hwf, rfl⟩
        · rename_i s2 line heq
          have hb : s2.proxy_buffer = s.proxy_buffer ∧ s2.buffer = s.buffer := by
            obtain ⟨st, hst⟩ := smtp_auth_handler_frame _ _ _ _ _ heq
            rw [hst]
            exact ⟨rfl, rfl⟩
          have := handler_send_wf s2 io line (by rw [hb.1]; exact hwf)
          exact ⟨this.1, this.2.trans hb.2⟩
    · split
      · exact ⟨hwf, rfl⟩
      · exact handler_send_wf _ _ _ hwf
    · split
      · exact ⟨hwf, rfl⟩
      · exact handler_send_wf _ _ _ hwf
    · dsimp only
      split
      · exact ⟨hwf, rfl⟩
      · exact handler_send_wf _ _ _ hwf
    · dsimp only
      split
      · exact ⟨hwf, rfl⟩
      · exact handler_send_wf _ _ _ hwf
    · exact ⟨hreset, rfl⟩
    · exact ⟨hreset, rfl⟩
    · exact ⟨hreset, rfl⟩
    · exact ⟨hreset, rfl⟩
    · split <;> exact ⟨hwf, rfl⟩
    · split <;> exact ⟨hwf, rfl⟩
    · exact handler_send_wf _ _ _ hwf

theorem upstream_error_buffers (s : ngx_mail_session_t) :
    (ngx_mail_proxy_upstream_error s).proxy_buffer = s.proxy_buffer
      ∧ (ngx_mail_proxy_upstream_error s).buffer = s.buffer := by
  unfold ngx_mail_proxy_upstream_error
  dsimp only
  split <;> exact ⟨rfl, rfl⟩

/-- The handler of the session's protocol returns, keeps the pointers of the
upstream buffer in order and leaves the client buffer alone. -/
theorem auth_handler_wf (s : ngx_mail_session_t) (io : HandlerIO)
    (hwf : s.proxy_buffer.wf)
    (hroom : ∀ d, io.recv = .data d → d.length ≤ s.proxy_buffer.end_ - s.proxy_buffer.last)
    (htag : s.tag ≠ [] ∨ s.mail_state ≠ .imap .ngx_imap_passwd) :
    ∃ s1, auth_handler s io = some s1 ∧ s1.proxy_buffer.wf ∧ s1.buffer = s.buffer := by
  obtain ⟨⟨rc, t⟩, hr⟩ := read_response_returns s io.recv htag
  obtain ⟨htw, htb⟩ := read_response_wf s t io.recv rc hr hwf hroom
  have key : ∀ (H : ngx_mail_session_t → HandlerIO → Option ngx_mail_session_t)
      (K : ngx_mail_session_t → HandlerIO → ngx_mail_session_t),
      (∀ x, K x io = auth_on_ok x io ∨ x.mail_state ≠ s.mail_state) →
      H s io = (if io.timedout then some (handler_timedout s)
        else match ngx_mail_proxy_read_response s io.recv with
          | none => none
          | some (Rc.NGX_AGAIN, s) => some s
          | some (Rc.NGX_ERROR, s) => some (ngx_mail_proxy_upstream_error s)
          | some (Rc.NGX_OK, s) => some (K s io)) →
      ∃ s1, H s io = some s1 ∧ s1.proxy_buffer.wf ∧ s1.buffer = s.buffer := by
    intro H K hK hH
    rw [hH]
    by_cases hto : io.timedout = true
    · rw [if_pos hto]
      exact ⟨_, rfl, hwf, rfl⟩
    · rw [if_neg hto, hr]
      cases rc with
      | NGX_AGAIN => exact ⟨_, rfl, htw, htb⟩
      | NGX_ERROR =>
        refine ⟨_, rfl, ?_, ?_⟩
        · rw [(upstream_error_buffers t).1]
          exact htw
        · rw [(upstream_error_buffers t).2]
          exact htb
      | NGX_OK =>
        obtain ⟨d, _, ht⟩ := read_ok_stored s t io.recv hr
        have hm : t.mail_state = s.mail_state := by rw [ht]; rfl
        rcases hK t with h | h
        · refine ⟨_, rfl, ?_, ?_⟩
          · dsimp only
            rw [h]
            exact (auth_on_ok_wf t io htw).1
          · dsimp only
            rw [h]
            exact ((auth_on_ok_wf t io htw).2).trans htb
        · exact absurd hm h
  unfold auth_handler
  cases hs : s.mail_state with
  | pop3 st =>
    refine key ngx_mail_proxy_pop3_handler pop3_on_ok ?_ rfl
    intro x
    by_cases hx : x.mail_state = s.mail_state
    · left
      unfold auth_on_ok
      rw [hx, hs]
    · exact Or.inr hx
  | imap st =>
    refine key ngx_mail_proxy_imap_handler imap_on_ok ?_ rfl
    intro x
    by_cases hx : x.mail_state = s.mail_state
    · left
      unfold auth_on_ok
      rw [hx, hs]
    · exact Or.inr hx
  | smtp st =>
    refine key ngx_mail_proxy_smtp_handler smtp_on_ok ?_ rfl
    intro x
    by_cases hx : x.mail_state = s.mail_state
    · left
      unfold auth_on_ok
      rw [hx, hs]
    · exact Or.inr hx

/-- C25: the invariant `start <= pos <= last <= end` is kept by every
operation of the module on a buffer, provided `recv` returns at most the room
offered and `send` at most the bytes offered: by the read of the
authentication phase, which advances `last`; by a whole call of the handler of
the session's protocol, with its reset after a sent command; and by every
sequence of calls of the relay handler, on both buffers. And whenever a relay
send advances `pos` up to `last`, the buffer is reset, `pos == last == start`. -/
theorem C25_buffer_invariant (s : ngx_mail_session_t) (io : HandlerIO) (r : Relay)
    (fs : List Fired) (hwf : s.proxy_buffer.wf)
    (hroom : ∀ d, io.recv = .data d → d.length ≤ s.proxy_buffer.end_ - s.proxy_buffer.last)
    (htag : s.tag ≠ [] ∨ s.mail_state ≠ .imap .ngx_imap_passwd)
    (hr1 : r.s.buffer.wf) (hr2 : r.s.proxy_buffer.wf) (hlog : r.log = [])
    (hb : ∀ e ∈ (relay_run r fs).log, e.bounded = true) :
    (∃ rc s1, ngx_mail_proxy_read_response s io.recv = some (rc, s1) ∧ s1.proxy_buffer.wf)
      ∧ (∃ s1, auth_handler s io = some s1 ∧ s1.proxy_buffer.wf)
      ∧ (relay_run r fs).s.buffer.wf ∧ (relay_run r fs).s.proxy_buffer.wf
      ∧ (∀ (dst : Conn) (sel : BufSel) (a : SendAnswer) (r0 : Relay),
          (r0.buf sel).last - (r0.buf sel).pos ≠ 0 → (r0.flags dst).write_ready = true →
          0 < a.n → (r0.buf sel).pos + a.n.toNat = (r0.buf sel).last →
          ((pump_send dst sel a r0).1.buf sel).pos = (r0.buf sel).start
          ∧ ((pump_send dst sel a r0).1.buf sel).last = (r0.buf sel).start) := by
  refine ⟨?_, ?_, ?_, ?_, ?_⟩
  · obtain ⟨⟨rc, t⟩, hr⟩ := read_response_returns s io.recv htag
    exact ⟨rc, t, hr, (read_response_wf s t io.recv rc hr hwf hroom).1⟩
  · obtain ⟨s1, h, hw, _⟩ := auth_handler_wf s io hwf hroom htag
    exact ⟨s1, h, hw⟩
  · have h1 : conserved r.s.buffer.content .buffer r := by
      refine ⟨hr1, ?_⟩
      rw [hlog]
      simp [accepted, received, Relay.buf]
    exact (relay_run_conserved _ _ r fs h1 hb).1
  · have h2 : conserved r.s.proxy_buffer.content .proxy_buffer r := by
      refine ⟨hr2, ?_⟩
      rw [hlog]
      simp [accepted, received, Relay.buf]
    exact (relay_run_conserved _ _ r fs h2 hb).1
  · intro dst sel a r0 hsize hready hpos hall
    have hne : a.n ≠ NGX_ERROR := by
      intro h
      rw [h] at hpos
      exact absurd hpos (by decide)
    unfold pump_send
    dsimp only
    rw [if_pos ⟨hsize, hready⟩, if_neg hne, if_pos hpos, if_pos hall]
    cases sel <;> cases dst <;> exact ⟨rfl, rfl⟩

/-- C25 witness: the first POP3 step of Scenario 1 and the relay of `QUIT`. -/
theorem C25_buffer_invariant_witness :
    (∃ s1, auth_handler pop3_alice (io_reply "+OK ready\r\n") = some s1 ∧ s1.proxy_buffer.wf)
      ∧ (relay_run relay_start quit_run).s.buffer.wf :=
  have h := C25_buffer_invariant pop3_alice (io_reply "+OK ready\r\n") relay_start quit_run
    (by decide) (by intro d hd; cases hd; decide) (Or.inr (by decide)) (by decide) (by decide)
    rfl (by decide)
  ⟨h.2.1, h.2.2.1⟩

/-! ## C29: the final reply reaches the client -/

/-- A send that is made is logged with the bytes of the buffer. -/
theorem pump_send_called (dst : Conn) (sel : BufSel) (a : SendAnswer) (r : Relay)
    (hsize : (r.buf sel).last - (r.buf sel).pos ≠ 0)
    (hready : (r.flags dst).write_ready = true) :
    (pump_send dst sel a r).1.log = r.log ++ [.send dst (r.buf sel).content a.n] := by
  unfold pump_send
  dsimp only
  rw [if_pos ⟨hsize, hready⟩]
  split
  · cases dst <;> rfl
  · split
    · split <;> cases dst <;> cases sel <;> rfl
    · cases dst <;> rfl

/-- A loop entered with `do_write` set, bytes in the buffer and a writable
destination starts with the send of those bytes. -/
theorem pump_loop_first_send (src dst : Conn) (sel : BufSel) (ios : List IterIO) (r : Relay)
    (hsize : (r.buf sel).last - (r.buf sel).pos ≠ 0)
    (hready : (r.flags dst).write_ready = true) :
    ∃ n rest, (pump_loop src dst sel ios true r).1.log
      = r.log ++ .send dst (r.buf sel).content n :: rest := by
  have hiter : ∀ io, ∃ rest, (pump_iter src dst sel io true r).1.log
      = r.log ++ .send dst (r.buf sel).content io.send.n :: rest := by
    intro io
    have hs := pump_send_called dst sel io.send r hsize hready
    have hp : (pump_send dst sel io.send r).1.log <+: (pump_iter src dst sel io true r).1.log := by
      unfold pump_iter
      dsimp only
      rw [if_pos rfl]
      by_cases he : (pump_send dst sel io.send r).2 = true
      · rw [if_pos he]
      · rw [if_neg he]
        exact pump_recv_log_mono _ _ _ _
    obtain ⟨ext, hext⟩ := hp
    refine ⟨ext, ?_⟩
    rw [← hext, hs, List.append_assoc]
    rfl
  cases ios with
  | nil =>
    obtain ⟨rest, h⟩ := hiter quiet
    exact ⟨_, rest, h⟩
  | cons io more =>
    obtain ⟨rest, h⟩ := hiter io
    unfold pump_loop
    cases hi : pump_iter src dst sel io true r with
    | mk r1 ex =>
      rw [hi] at h
      cases ex with
      | send_error => exact ⟨_, rest, h⟩
      | stop => exact ⟨_, rest, h⟩
      | again =>
        obtain ⟨ext, hext⟩ := pump_loop_log_mono src dst sel more true r1
        refine ⟨io.send.n, rest ++ ext, ?_⟩
        dsimp only at h ⊢
        rw [← hext, h, List.append_assoc]
        rfl

/-- When nothing timed out the log of the loop is the start of the log of the
whole call. -/
theorem handler_log_after_loop (r : Relay) (io : PassIO)
    (hnt : ¬ (io.timedout = true ∨ io.close = true)) :
    (ngx_mail_proxy_handler_loop r io).1.log <+: (ngx_mail_proxy_handler r io).1.log := by
  unfold ngx_mail_proxy_handler
  rw [if_neg hnt]
  split
  · simp [ngx_mail_proxy_close_session]
  · split
    · simp [Relay.call, Relay.proxying, ngx_mail_proxy_close_session]
    · have h := handler_rearm_tail (ngx_mail_proxy_handler_direction io.ev).1
        (ngx_mail_proxy_handler_direction io.ev).2.1
        (ngx_mail_proxy_handler_loop r io).1.proxying io
      exact h.2.2.2

/-- C29: on an OK reply in `pop3_passwd` or `ngx_imap_passwd`, and in
`smtp_data` or `smtp_xclient` when the client buffer is empty, the handler of
the session's protocol returns with the upstream buffer holding exactly the
bytes received, the classified reply of at least four bytes, and calls the
relay handler for the client write event; and every such first call on the
session it leaves, with the client writable and nothing timed out, first of all
offers exactly those bytes to the client's `send`, before any `recv`. -/
theorem C29_final_reply_forwarded (s : ngx_mail_session_t) (io : HandlerIO)
    (hto : io.timedout = false) (hok : read_rc s io.recv = some .NGX_OK)
    (hst : s.mail_state = .pop3 .ngx_pop3_passwd ∨ s.mail_state = .imap .ngx_imap_passwd
      ∨ ((s.mail_state = .smtp .ngx_smtp_data ∨ s.mail_state = .smtp .ngx_smtp_xclient)
          ∧ s.buffer.pos = s.buffer.last)) :
    ∃ d s1, io.recv = .data d ∧ auth_handler s io = some s1
      ∧ s1.proxy_buffer = recv_buf s.proxy_buffer d
      ∧ 4 ≤ s1.proxy_buffer.content.length
      ∧ s1.trace = s.trace ++
          [.add_timer_client s.timeout, .del_timer_upstream, .log_fixed "client logged in",
            .proxy_handler .client_write]
      ∧ ∀ (r : Relay) (pio : PassIO), r.s = s1 → r.client.write_ready = true →
          pio.ev = .client_write → pio.timedout = false → pio.close = false →
          ∃ n rest, (ngx_mail_proxy_handler r pio).1.log
            = r.log ++ .send .client s1.proxy_buffer.content n :: rest := by
  obtain ⟨d, hd, hh⟩ := auth_handler_ok s io hto hok
  rw [hd] at hok
  have hc := (read_ok_complete s d hok).2
  have hmem : (stored s d).mail_state ∈ [MailState.pop3 .ngx_pop3_passwd,
      .imap .ngx_imap_passwd, .smtp .ngx_smtp_data, .smtp .ngx_smtp_xclient] := by
    have e : (stored s d).mail_state = s.mail_state := rfl
    rw [e]
    rcases hst with h | h | ⟨h | h, _⟩ <;> simp [h]
  obtain ⟨hbuf, _, _, htrace⟩ := auth_on_ok_relay (stored s d) io hmem
  have hcond : (stored s d).buffer.pos = (stored s d).buffer.last
      ∨ (stored s d).mail_state = .pop3 .ngx_pop3_passwd
      ∨ (stored s d).mail_state = .imap .ngx_imap_passwd := by
    rcases hst with h | h | ⟨_, h⟩
    · exact Or.inr (Or.inl h)
    · exact Or.inr (Or.inr h)
    · exact Or.inl h
  have hb2 : (auth_on_ok (stored s d) io).proxy_buffer = recv_buf s.proxy_buffer d := hbuf
  have hlen : (auth_on_ok (stored s d) io).proxy_buffer.last
      - (auth_on_ok (stored s d) io).proxy_buffer.pos ≠ 0 := by
    rw [hb2]
    have := hc.1
    omega
  refine ⟨d, _, hd, hh, hb2, ?_, htrace hcond, ?_⟩
  · rw [hb2, content_length]
    exact hc.1
  · intro r pio hrs hwr hev hpt hpc
    have hnt : ¬ (pio.timedout = true ∨ pio.close = true) := by
      rw [hpt, hpc]
      decide
    have hsz : (r.buf .proxy_buffer).last - (r.buf .proxy_buffer).pos ≠ 0 := by
      simp only [Relay.buf, hrs]
      exact hlen
    obtain ⟨n, rest, hl⟩ := pump_loop_first_send .upstream .client .proxy_buffer pio.iters r
      hsz hwr
    obtain ⟨ext, hext⟩ := handler_log_after_loop r pio hnt
    have hloop : (ngx_mail_proxy_handler_loop r pio).1.log
        = (pump_loop .upstream .client .proxy_buffer pio.iters true r).1.log := by
      unfold ngx_mail_proxy_handler_loop
      rw [hev]
      rfl
    refine ⟨n, rest ++ ext, ?_⟩
    rw [← hext, hloop, hl, List.append_assoc]
    simp only [Relay.buf, hrs]
    rfl

/-- C29 witness (Scenario 1): after `+OK logged in` the first relay call sends
exactly that reply to the client. -/
theorem C29_final_reply_forwarded_witness :
    ∃ n rest, (ngx_mail_proxy_handler relay_after_login first_pass).1.log
      = .send .client (bytes "+OK logged in\r\n") n :: rest := by
  obtain ⟨d, s1, _, h, _, _, _, hpump⟩ := C29_final_reply_forwarded pop3_alice_2
    (io_reply "+OK logged in\r\n") rfl (by decide) (Or.inl (by decide))
  have r : auth_handler pop3_alice_2 (io_reply "+OK logged in\r\n") = some pop3_alice_3 := rfl
  rw [r] at h
  cases h
  obtain ⟨n, rest, hl⟩ := hpump relay_after_login first_pass rfl rfl rfl rfl rfl
  have hc : pop3_alice_3.proxy_buffer.content = bytes "+OK logged in\r\n" := by decide
  rw [hc] at hl
  exact ⟨n, rest, hl⟩

/-! ## C28: the classifier reads inside the received bytes -/

theorem strncmp_reads_inside (mem : Nat → Nat) (last : Nat) (hend : mem (last - 1) = LF) :
    ∀ (tag : List Nat) (p : Nat), LF ∉ tag → p < last →
      ∀ a ∈ ngx_strncmp_reads mem p tag, p ≤ a ∧ a < last := by
  intro tag
  induction tag with
  | nil => intro p _ _ a ha; simp [ngx_strncmp_reads] at ha
  | cons t ts ih =>
    intro p hLF hp a ha
    simp only [ngx_strncmp_reads, List.mem_cons] at ha
    rcases ha with ha | ha
    · omega
    · split at ha
      · simp at ha
      · rename_i hm
        split at ha
        · simp at ha
        · have hm2 : mem p = t := by
            by_contra h
            exact hm h
          have htl : t ≠ LF := fun h => hLF (by simp [h])
          have hp1 : p + 1 < last := by
            by_contra h
            have : p = last - 1 := by omega
            rw [this, hend] at hm2
            exact htl hm2.symm
          have := ih (p + 1) (fun h => hLF (List.mem_cons_of_mem _ h)) hp1 a ha
          omega

/-- A tag without NUL that compares equal is stored at `p`. -/
theorem strncmp_eq_stored (mem : Nat → Nat) :
    ∀ (tag : List Nat) (p : Nat), 0 ∉ tag → ngx_strncmp_eq mem p tag = true →
      mem_has mem p tag := by
  intro tag
  induction tag with
  | nil => intro p _ _; trivial
  | cons t ts ih =>
    intro p h0 heq
    simp only [ngx_strncmp_eq] at heq
    split at heq
    · simp at heq
    · rename_i hm
      have hm2 : mem p = t := by
        by_contra h
        exact hm h
      split at heq
      · rename_i ht
        exact absurd (by simp [ht]) h0
      · exact ⟨hm2, ih (p + 1) (fun h => h0 (List.mem_cons_of_mem _ h)) heq⟩

/-- A stored tag without line feed ends before the last byte of the buffer. -/
theorem stored_tag_inside (mem : Nat → Nat) (last : Nat) (hend : mem (last - 1) = LF) :
    ∀ (tag : List Nat) (p : Nat), LF ∉ tag → p < last → mem_has mem p tag →
      p + tag.length < last := by
  intro tag
  induction tag with
  | nil => intro p _ hp _; simpa using hp
  | cons t ts ih =>
    intro p hLF hp hm
    have htl : t ≠ LF := fun h => hLF (by simp [h])
    have hp1 : p + 1 < last := by
      by_contra h
      have : p = last - 1 := by omega
      have h1 := hm.1
      rw [this, hend] at h1
      exact htl h1.symm
    have := ih (p + 1) (fun h => hLF (List.mem_cons_of_mem _ h)) hp1 hm.2
    simp only [List.length_cons]
    omega

theorem strstr_reads_inside (mem : Nat → Nat) (last : Nat) (hend : mem (last - 1) = LF) :
    ∀ (n p : Nat), p < last → n = last - p →
      ∀ a ∈ strstr_nl_reads mem p n, p ≤ a ∧ a < last := by
  intro n
  induction n with
  | zero => intro p hp hn; omega
  | succ n ih =>
    intro p hp hn a ha
    simp only [strstr_nl_reads, List.mem_cons] at ha
    rcases ha with ha | ha
    · omega
    · split at ha
      · simp at ha
      · rename_i hl
        split at ha
        · simp at ha
        · have hp1 : p + 1 < last := by
            by_contra h
            have : p = last - 1 := by omega
            rw [this] at hl
            exact hl hend
          have := ih (p + 1) hp1 (by omega) a ha
          omega

theorem strstr_found_bounds (mem : Nat → Nat) :
    ∀ (n p q : Nat), strstr_nl mem p n = .found q → p ≤ q ∧ q < p + n := by
  intro n
  induction n with
  | zero => intro p q h; simp [strstr_nl] at h
  | succ n ih =>
    intro p q h
    simp only [strstr_nl] at h
    split at h
    · simp only [StrstrResult.found.injEq] at h
      omega
    · split at h
      · simp at h
      · have := ih (p + 1) q h
        omega

/-- The tag scan reads inside the received bytes. -/
theorem scan_reads_inside (mem : Nat → Nat) (tag : List Nat) (pos last : Nat)
    (hend : mem (last - 1) = LF) (h0 : 0 ∉ tag) (hLF : LF ∉ tag) :
    ∀ (fuel p : Nat), pos ≤ p →
      ∀ a ∈ imap_passwd_scan_reads mem tag last fuel p, pos ≤ a ∧ a < last := by
  have hO : ('O'.toNat : Nat) ≠ LF := by decide
  intro fuel
  induction fuel with
  | zero => intro p _ a ha; simp [imap_passwd_scan_reads] at ha
  | succ f ih =>
    intro p hp a ha
    simp only [imap_passwd_scan_reads] at ha
    split at ha
    · rename_i hlt
      rw [List.mem_append] at ha
      rcases ha with ha | ha
      · have := strncmp_reads_inside mem last hend tag p hLF hlt a ha
        omega
      · split at ha
        · rename_i heq
          have hst := strncmp_eq_stored mem tag p h0 heq
          have hq := stored_tag_inside mem last hend tag p hLF hlt hst
          simp only [List.mem_cons, List.mem_append] at ha
          rcases ha with ha | ha | ha
          · omega
          · split at ha
            · rename_i hOq
              simp only [List.mem_singleton] at ha
              have : p + tag.length ≠ last - 1 := by
                intro h
                rw [h, hend] at hOq
                exact hO hOq.symm
              omega
            · simp at ha
          · split at ha
            · simp at ha
            · exact ih (p + tag.length) (by omega) a ha
        · rw [List.mem_append] at ha
          rcases ha with ha | ha
          · have := strstr_reads_inside mem last hend (last - p) p hlt rfl a ha
            omega
          · split at ha
            · rename_i q hq
              have := strstr_found_bounds mem (last - p) p q hq
              exact ih (q + 1) (by omega) a ha
            · simp at ha
    · simp at ha

theorem smtp_scan_back_le_start (mem : Nat → Nat) (p : Nat) :
    ∀ m0, smtp_scan_back mem p m0 ≤ m0 := by
  intro m0
  induction m0 with
  | zero => simp [smtp_scan_back]
  | succ m ih =>
    unfold smtp_scan_back
    split
    · split
      · exact le_refl _
      · omega
    · exact le_refl _

theorem scan_back_reads_inside (mem : Nat → Nat) (p : Nat) :
    ∀ m0, ∀ a ∈ smtp_scan_back_reads mem p m0, p < a ∧ a ≤ m0 + 1 := by
  intro m0
  induction m0 with
  | zero => intro a ha; simp [smtp_scan_back_reads] at ha
  | succ m ih =>
    intro a ha
    simp only [smtp_scan_back_reads] at ha
    split at ha
    · simp only [List.mem_cons, List.mem_append] at ha
      rcases ha with ha | ha | ha
      · omega
      · split at ha
        · simp only [List.mem_singleton] at ha
          omega
        · simp at ha
      · split at ha
        · simp at ha
        · have := ih a ha
          omega
    · simp at ha

theorem three_reads_inside (mem : Nat → Nat) (p c0 c1 : Nat) :
    ∀ a ∈ three_reads mem p c0 c1, p ≤ a ∧ a < p + 3 := by
  intro a ha
  simp only [three_reads, List.mem_cons] at ha
  rcases ha with ha | ha
  · omega
  · split at ha
    · simp only [List.mem_cons] at ha
      rcases ha with ha | ha
      · omega
      · split at ha
        · simp only [List.mem_singleton] at ha
          omega
        · simp at ha
    · simp at ha

theorem smtp_state_reads_inside (mem : Nat → Nat) (p : Nat) (st : ngx_smtp_state_e) :
    ∀ a ∈ smtp_state_reads mem p st, p ≤ a ∧ a < p + 3 := by
  intro a ha
  cases st <;> simp only [smtp_state_reads] at ha
  all_goals first
    | exact three_reads_inside mem p _ _ a ha
    | (simp at ha; done)
    | (simp only [List.mem_cons] at ha
       rcases ha with ha | ha
       · omega
       · split at ha
         · simp only [List.mem_cons] at ha
           rcases ha with ha | ha
           · omega
           · split at ha
             · simp only [List.mem_singleton] at ha
               omega
             · simp at ha
         · simp at ha)

/-- C28: for every complete buffer (at least four bytes, ending in CR LF), every
state and, under IMAP, every tag that contains no NUL and no line feed (so
every non-empty tag without NUL, CR or LF), every address the protocol switch
reads lies inside the received bytes `pos .. last`: the leading `p[0..3]`, the
tag comparison and the bytes tested after a tag match, the newline search, and
the `m[0]`, `m[1]`, `m[5]` of the SMTP backward scan. -/
theorem C28_reads_inside (st : MailState) (tag : List Nat) (b : ngx_buf_t)
    (hc : complete b)
    (htag : ∀ ist, st = .imap ist → 0 ∉ tag ∧ LF ∉ tag) :
    ∀ a ∈ classify_reads st tag b, b.pos ≤ a ∧ a < b.last := by
  obtain ⟨h4, _, hlf⟩ := hc
  intro a ha
  unfold classify_reads at ha
  dsimp only at ha
  split at ha
  · have := three_reads_inside _ _ _ _ a ha
    omega
  · simp only [List.mem_cons] at ha
    rcases ha with ha | ha
    · omega
    · split at ha
      · simp only [List.mem_cons] at ha
        rcases ha with ha | ha
        · omega
        · split at ha
          · simp only [List.mem_cons] at ha
            rcases ha with ha | ha
            · omega
            · split at ha
              · simp only [List.mem_singleton] at ha
                omega
              · simp at ha
          · simp at ha
      · simp at ha
  · simp only [List.mem_singleton] at ha
    omega
  · simp only [List.mem_singleton] at ha
    omega
  · obtain ⟨h0, hL⟩ := htag _ rfl
    exact scan_reads_inside b.mem tag b.pos b.last hlf h0 hL _ b.pos (le_refl _) a ha
  · simp at ha
  · simp only [List.mem_cons, List.mem_append] at ha
    rcases ha with ha | ha | ha
    · omega
    · split at ha
      · rw [List.mem_append] at ha
        rcases ha with ha | ha
        · have := scan_back_reads_inside b.mem b.pos (b.last - 7) a ha
          omega
        · split at ha
          · simp at ha
          · rename_i hm
            simp only [List.mem_singleton] at ha
            have := smtp_scan_back_le_start b.mem b.pos (b.last - 7)
            omega
      · simp at ha
    · split at ha
      · simp at ha
      · have := smtp_state_reads_inside b.mem b.pos _ a ha
        omega

/-- C28 witness: the reads on `250-gw` / `250 ok` in `smtp_helo`, the backward
scan included, are at the addresses 3, 9, 8, 7, 6, 7, 11, 0, 1, 2 of the sixteen
bytes. -/
theorem C28_reads_inside_witness :
    classify_reads (.smtp .ngx_smtp_helo) [] smtp_multiline_buf = [3, 9, 8, 7, 6, 7, 11, 0, 1, 2]
      ∧ ∀ a ∈ classify_reads (.smtp .ngx_smtp_helo) [] smtp_multiline_buf,
          smtp_multiline_buf.pos ≤ a ∧ a < smtp_multiline_buf.last :=
  ⟨by decide,
    C28_reads_inside (.smtp .ngx_smtp_helo) [] smtp_multiline_buf (by decide)
      (by intro ist h; cases h)⟩

/-! ## C22: the log does not depend on the password -/

theorem logged_append (a b : List Event) : logged (a ++ b) = logged a ++ logged b := by
  induction a with
  | nil => rfl
  | cons e es ih => cases e <;> simp [logged, ih]

end MailProxy
